import Mathlib

/-!
# Sentelic Finger-Sensing-Pad driver: register codec, packet decoding and filters

A shallow embedding of `VoodooPS2SentelicFSP.cpp` / `VoodooPS2SentelicFSP.h`
(the macOS driver) and of the register helpers of the Linux reference driver
`sentelic.c`, followed by theorems about them.

Conventions of the embedding:

* a C `int` / `SInt32` is an `Int`; the bit operations are the 32-bit
  two's-complement ones (`int_or`, `int_and`, `int_not`, `int_shl`, `int_shr`);
* a `UInt8` / `unsigned char` is a `Nat` below 256, a conversion to it is `toU8`;
* `unsigned int` arithmetic is `Nat` arithmetic modulo `2 ^ 32`;
* the one `double` expression, `stopDelta*0.6`, is computed exactly: one product with
  the binary64 constant nearest to 0.6, rounded to nearest-even, then truncated;
* code that talks to the PS/2 controller threads the list of the requests
  submitted so far (oldest first) and returns the extended list;
* the packet ring is a list of 128 bytes with a head index, a tail index and a count of
  the unread bytes; a pointer into it is the list of the bytes from that index on;
* a register helper of the Linux driver returns the list of its operations on the command
  mutex and on the bus, in program order, given the outcome of each bus call.
-/

set_option linter.unusedVariables false

namespace FSP

/-! ## Machine integers -/

/-- The value of a C `int` reinterpreted as `unsigned int`. -/
def toU32 (x : Int) : Nat := (x % 4294967296).toNat

/-- The value of an `unsigned int` bit pattern reinterpreted as `int` (`SInt32`). -/
def toS32 (n : Nat) : Int :=
  if n % 4294967296 < 2147483648 then ((n % 4294967296 : Nat) : Int)
  else ((n % 4294967296 : Nat) : Int) - 4294967296

/-- Conversion of a C `int` to `UInt8` / `unsigned char` (keeps the low 8 bits). -/
def toU8 (x : Int) : Nat := (x % 256).toNat

/-- C `a | b` on `int`. -/
def int_or (a b : Int) : Int := toS32 (toU32 a ||| toU32 b)

/-- C `a & b` on `int`. -/
def int_and (a b : Int) : Int := toS32 (toU32 a &&& toU32 b)

/-- C `~a` on `int`. -/
def int_not (a : Int) : Int := toS32 (4294967295 - toU32 a)

/-- C `a << n` on `int` (bits shifted out of the 32-bit word are lost). -/
def int_shl (a : Int) (n : Nat) : Int := toS32 (toU32 a <<< n)

/-- C `a >> n` on `int` (arithmetic shift). -/
def int_shr (a : Int) (n : Nat) : Int := a >>> n

/-! ## The PS/2 request interface (`ApplePS2Device.h`) -/

/-- The request opcodes used by the driver. -/
inductive PS2CommandEnum
  | kPS2C_ReadDataPort
  | kPS2C_WriteDataPort
  | kPS2C_WriteCommandPort
  | kPS2C_SendMouseCommandAndCompareAck
  deriving DecidableEq, Repr

open PS2CommandEnum

/-- One step of a request: an opcode and its `UInt8` operand / result. -/
structure PS2Command where
  command : PS2CommandEnum
  inOrOut : Nat
  deriving DecidableEq, Repr

/-- A request: `commands[0 .. commandsCount-1]` are the steps handed to the
controller; on completion `commandsCount` is the number of steps carried out. -/
structure PS2Request where
  commandsCount : Nat
  commands : List PS2Command
  deriving DecidableEq, Repr

/-- Reads `request->commands[i].inOrOut` (a `UInt8`). -/
def PS2Request.inOrOut (request : PS2Request) (i : Nat) : Int :=
  (((request.commands.getD i ⟨kPS2C_ReadDataPort, 0⟩).inOrOut % 256 : Nat) : Int)

/-- Modelled from the spec: the controller command byte that routes the next data
byte to the mouse port (`kCP_TransmitToMouse` of `ApplePS2Device.h`, which is not
among the sources); part of the "send command, read N reply bytes" primitive. -/
def kCP_TransmitToMouse : Nat := 0xD4

/-- Modelled from the spec: the standard "get info" bus command
(`kDP_GetMouseInformation` of `ApplePS2Device.h`, which is not among the sources);
0xE9 is the PS/2 status-request byte. -/
def kDP_GetMouseInformation : Nat := 0xE9

/-- The mouse device behind the controller. Its only operation used here is
`submitRequestAndBlock`; `complete log request` is the request as the controller
hands it back, given the requests `log` submitted earlier. -/
structure ApplePS2MouseDevice where
  complete : List PS2Request → PS2Request → PS2Request

/-- The call `device->submitRequestAndBlock(request)`: the request is appended to the
list of submitted requests and comes back completed. -/
def submitRequestAndBlock (device : ApplePS2MouseDevice) (log : List PS2Request)
    (request : PS2Request) : List PS2Request × PS2Request :=
  (log ++ [request], device.complete log request)

/-! ## Register access (`VoodooPS2SentelicFSP.cpp`) -/

def FSP_REG_SYSCTL1 : Int := 0x10
def FSP_BIT_EN_REG_CLK : Int := 0x20
def FSP_REG_OPC_QDOWN : Int := 0x31
def FSP_BIT_EN_OPC_TAG : Int := 0x80

/-- The request `fsp_ps2_command` builds for the byte `cmd`. -/
def fsp_ps2_request (cmd : Int) : PS2Request :=
  { commandsCount := 3
    commands := [⟨kPS2C_WriteCommandPort, kCP_TransmitToMouse⟩,
                 ⟨kPS2C_WriteDataPort, toU8 cmd⟩,
                 ⟨kPS2C_ReadDataPort, 0⟩] }

/-- Embedding of `fsp_ps2_command`: sends one byte to the pad and reads one reply byte;
`-1` when the request did not run to its end. -/
def fsp_ps2_command (device : ApplePS2MouseDevice) (log : List PS2Request) (cmd : Int) :
    List PS2Request × Int :=
  let r := submitRequestAndBlock device log (fsp_ps2_request cmd)
  (r.1, if r.2.commandsCount = 3 then r.2.inOrOut 2 else -1)

/-- The request `fsp_reg_read` builds to fetch the result. -/
def fsp_getinfo_request : PS2Request :=
  { commandsCount := 4
    commands := [⟨kPS2C_SendMouseCommandAndCompareAck, kDP_GetMouseInformation⟩,
                 ⟨kPS2C_ReadDataPort, 0⟩,
                 ⟨kPS2C_ReadDataPort, 0⟩,
                 ⟨kPS2C_ReadDataPort, 0⟩] }

/-- Embedding of `fsp_reg_read`. -/
def fsp_reg_read (device : ApplePS2MouseDevice) (log : List PS2Request) (reg : Int) :
    List PS2Request × Int :=
  let register_select : Int :=
    if reg = 10 ∨ reg = 20 ∨ reg = 40 ∨ reg = 60 ∨ reg = 80 ∨ reg = 100 ∨ reg = 200 then 0xCC
    else if reg = 0xe9 ∨ reg = 0xee ∨ reg = 0xf2 ∨ reg = 0xff then 0x68
    else 0x66
  let register_value : Int :=
    if reg = 10 ∨ reg = 20 ∨ reg = 40 ∨ reg = 60 ∨ reg = 80 ∨ reg = 100 ∨ reg = 200 then
      int_or (int_shr reg 4) (int_shl reg 4)
    else if reg = 0xe9 ∨ reg = 0xee ∨ reg = 0xf2 ∨ reg = 0xff then int_not reg
    else reg
  let log := (fsp_ps2_command device log 0xf3).1
  let log := (fsp_ps2_command device log 0x66).1
  let log := (fsp_ps2_command device log 0x88).1
  let log := (fsp_ps2_command device log 0xf3).1
  let log := (fsp_ps2_command device log register_select).1
  let log := (fsp_ps2_command device log register_value).1
  let r := submitRequestAndBlock device log fsp_getinfo_request
  (r.1, if r.2.commandsCount = 4 then r.2.inOrOut 3 else -1)

/-- Embedding of `fsp_reg_write` (a `void` function: only the bus traffic remains). -/
def fsp_reg_write (device : ApplePS2MouseDevice) (log : List PS2Request) (reg val : Int) :
    List PS2Request :=
  let register_select : Int :=
    if reg = 10 ∨ reg = 20 ∨ reg = 40 ∨ reg = 60 ∨ reg = 80 ∨ reg = 100 ∨ reg = 200 then 0x77
    else if reg = 0xe9 ∨ reg = 0xee ∨ reg = 0xf2 ∨ reg = 0xff then 0x74
    else 0x55
  let register_value : Int :=
    if reg = 10 ∨ reg = 20 ∨ reg = 40 ∨ reg = 60 ∨ reg = 80 ∨ reg = 100 ∨ reg = 200 then
      int_or (int_shr reg 4) (int_shl reg 4)
    else if reg = 0xe9 ∨ reg = 0xee ∨ reg = 0xf2 ∨ reg = 0xff then int_not reg
    else reg
  let log := (fsp_ps2_command device log 0xf3).1
  let log := (fsp_ps2_command device log register_select).1
  let log := (fsp_ps2_command device log register_value).1
  let register_select : Int :=
    if val = 10 ∨ val = 20 ∨ val = 40 ∨ val = 60 ∨ val = 80 ∨ val = 100 ∨ val = 200 then 0x44
    else if val = 0xe9 ∨ val = 0xee ∨ val = 0xf2 ∨ val = 0xff then 0x47
    else 0x33
  let register_value : Int :=
    if val = 10 ∨ val = 20 ∨ val = 40 ∨ val = 60 ∨ val = 80 ∨ val = 100 ∨ val = 200 then
      int_or (int_shr val 4) (int_shl val 4)
    else if val = 0xe9 ∨ val = 0xee ∨ val = 0xf2 ∨ val = 0xff then int_not val
    else val
  let log := (fsp_ps2_command device log 0xf3).1
  let log := (fsp_ps2_command device log register_select).1
  (fsp_ps2_command device log register_value).1

/-- Embedding of `fsp_write_enable`. -/
def fsp_write_enable (device : ApplePS2MouseDevice) (log : List PS2Request) (enable : Int) :
    List PS2Request :=
  let r := fsp_reg_read device log FSP_REG_SYSCTL1
  let wen : Int :=
    if enable ≠ 0 then int_or r.2 FSP_BIT_EN_REG_CLK
    else int_and r.2 (int_not FSP_BIT_EN_REG_CLK)
  fsp_reg_write device r.1 FSP_REG_SYSCTL1 wen

/-- Embedding of `fsp_opctag_enable`. -/
def fsp_opctag_enable (device : ApplePS2MouseDevice) (log : List PS2Request) (enable : Int) :
    List PS2Request :=
  let log := fsp_write_enable device log 1
  let r := fsp_reg_read device log FSP_REG_OPC_QDOWN
  let opc : Int :=
    if enable ≠ 0 then int_or r.2 FSP_BIT_EN_OPC_TAG
    else int_and r.2 (int_not FSP_BIT_EN_OPC_TAG)
  let log := fsp_reg_write device r.1 FSP_REG_OPC_QDOWN opc
  fsp_write_enable device log 0

/-- The bytes a list of submitted requests puts on the wire towards the pad: the
operands of the data-port writes and of the mouse commands, in order. -/
def mouseBytes (log : List PS2Request) : List Nat :=
  log.flatMap fun request =>
    (request.commands.take request.commandsCount).filterMap fun c =>
      if c.command = kPS2C_WriteDataPort ∨ c.command = kPS2C_SendMouseCommandAndCompareAck
      then some c.inOrOut else none

/-! ## Motion filter and scroll smoother (`VoodooPS2SentelicFSP.h`) -/

/-- C `a + b` on `int`, kept in the 32-bit word. -/
def int_add (a b : Int) : Int := toS32 (toU32 (a + b))

/-- C `a - b` on `int`, kept in the 32-bit word. -/
def int_sub (a b : Int) : Int := toS32 (toU32 (a - b))

/-- C `a * b` on `int`, kept in the 32-bit word. -/
def int_mul (a b : Int) : Int := toS32 (toU32 (a * b))

/-- The class `SimpleAverage2<int, N>`; `m_buffer` holds `N` slots. -/
structure SimpleAverage2 where
  m_buffer : List Int
  m_count : Int
  m_sum : Int
  m_index : Int
  deriving DecidableEq, Repr

/-- Embedding of `SimpleAverage2::reset` (the buffer is left as it is). -/
def SimpleAverage2.reset (a : SimpleAverage2) : SimpleAverage2 :=
  { a with m_count := 0, m_sum := 0, m_index := 0 }

/-- Embedding of `SimpleAverage2<int, N>::filter`: the new state and the returned
average (`/` is the C division, truncating toward zero). -/
def SimpleAverage2.filter (N : Int) (a : SimpleAverage2) (data : Int) : SimpleAverage2 × Int :=
  let m_sum := int_add a.m_sum data
  let m_sum := if a.m_count = N then int_sub m_sum (a.m_buffer.getD a.m_index.toNat 0) else m_sum
  let m_buffer := a.m_buffer.set a.m_index.toNat data
  let m_index := int_add a.m_index 1
  let m_index := if m_index ≥ N then 0 else m_index
  let m_count := if a.m_count < N then int_add a.m_count 1 else a.m_count
  ({ m_buffer := m_buffer, m_count := m_count, m_sum := m_sum, m_index := m_index },
   Int.tdiv m_sum m_count)

def SCROLL_DIR_UP : Int := 1
def SCROLL_DIR_DOWN : Int := 2
def SCROLL_DIR_LEFT : Int := 3
def SCROLL_DIR_RIGHT : Int := 4

def SCROLL_DELTA_EVEN : Int := 0
def SCROLL_DELTA_INSCREASE : Int := 1
def SCROLL_DELTA_DESCREASE : Int := 2

def SCROLL_DELTA_FACTOR : Int := 32

/-- The class `ScrollSmoother`; `history` holds two slots. -/
structure ScrollSmoother where
  lastinputTime : Nat
  lastspeedCalcTime : Nat
  direction : Int
  history : List Int
  lastDelta : Int
  cur_history_index : Int
  deltaDir : Int
  inputCount : Int
  stopDelta : Int
  decDelta : Int
  maxDelta : Int
  deriving DecidableEq, Repr

/-- Embedding of `ScrollSmoother::setDir`. -/
def ScrollSmoother.setDir (z : ScrollSmoother) (dir : Int) : ScrollSmoother :=
  { z with direction := dir }

/-- Embedding of `ScrollSmoother::filter`; `uptime` is what `clock_get_uptime` stores
into `lastinputTime`. The index test compares with `sizeof(history)/sizeof(int)`, an
unsigned value, so a negative index counts as too large. -/
def ScrollSmoother.filter (s : ScrollSmoother) (uptime : Nat) (z : Int) : ScrollSmoother × Int :=
  let stopDelta := if z > 0 ∧ s.stopDelta > 0 then 0 else s.stopDelta
  let idx := if s.cur_history_index < 0 ∨ s.cur_history_index ≥ 2 then 0 else s.cur_history_index
  let history := s.history.set idx.toNat z
  let cur_history_index := int_add idx 1
  let inputCount := int_add s.inputCount 1
  let s1 : ScrollSmoother :=
    { s with stopDelta := stopDelta, history := history, cur_history_index := cur_history_index,
             lastinputTime := uptime % 18446744073709551616, inputCount := inputCount }
  if Int.tmod inputCount 2 = 1 then
    if inputCount > 2 then (s1, int_mul s1.lastDelta SCROLL_DELTA_FACTOR)
    else (s1, 0)
  else
    let dz := Int.tdiv (int_add (history.getD 1 0) (history.getD 0 0)) 2
    let deltaDir :=
      if s1.lastDelta > dz then SCROLL_DELTA_DESCREASE
      else if s1.lastDelta < dz then SCROLL_DELTA_INSCREASE
      else SCROLL_DELTA_EVEN
    let maxDelta := if dz > s1.maxDelta then z else s1.maxDelta
    ({ s1 with deltaDir := deltaDir, maxDelta := maxDelta }, int_mul dz SCROLL_DELTA_FACTOR)

/-- Embedding of `ScrollSmoother::stop`. -/
def ScrollSmoother.stop (s : ScrollSmoother) : ScrollSmoother × Int :=
  if s.lastinputTime ≠ 0 then
    let stopDelta := if s.inputCount < 10 then int_mul s.maxDelta SCROLL_DELTA_FACTOR
                     else s.stopDelta
    ({ s with stopDelta := stopDelta, decDelta := 1, lastDelta := 0, cur_history_index := 0,
              lastinputTime := 0, lastspeedCalcTime := 0, inputCount := 0, maxDelta := 0,
              history := [0, 0] }, stopDelta)
  else (s, 0)

/-- Embedding of `ScrollSmoother::getDir`. -/
def ScrollSmoother.getDir (s : ScrollSmoother) : Int := s.direction

/-- The `double` constant `0.6`: the binary64 number nearest to 0.6 is
`5404319552844595 / 2^53`. -/
def DBL_0_6 : Nat := 5404319552844595

/-- How many low bits the number `n` has beyond the 53 bits of a binary64 significand
(`fuel` bounds the search; `n` itself is always enough). -/
def excessBits : Nat → Nat → Nat
  | 0, _ => 0
  | fuel + 1, n => if n < 9007199254740992 then 0 else excessBits fuel (n / 2) + 1

/-- Rounding of the positive number `n / 2^53` to binary64 (round to nearest, ties to
even), given as the numerator of the result over `2^53`. -/
def roundDouble (n : Nat) : Nat :=
  let sh := excessBits n n
  let q := n / 2 ^ sh
  let r := n % 2 ^ sh
  (if 2 * r > 2 ^ sh ∨ (2 * r = 2 ^ sh ∧ q % 2 = 1) then q + 1 else q) * 2 ^ sh

/-- The C expression `x * 0.6` assigned to an `int`, for a positive `int` `x`: `x` is
converted to `double` exactly, the product with the `double` 0.6 is rounded once to
binary64, and the conversion back to `int` truncates. -/
def mul_0_6 (x : Nat) : Nat := roundDouble (x * DBL_0_6) / 9007199254740992

/-- Embedding of `ScrollSmoother::getFlingDelta`. -/
def ScrollSmoother.getFlingDelta (s : ScrollSmoother) : ScrollSmoother × Int :=
  if s.stopDelta > 0 then
    let stopDelta : Int := (mul_0_6 s.stopDelta.toNat : Nat)
    ({ s with stopDelta := stopDelta }, stopDelta)
  else (s, 0)

/-! ## Packet dispatch (`VoodooPS2SentelicFSP.cpp`) -/

def kModeByteValueGesturesEnabled : Nat := 0x00
def kModeByteValueGesturesDisabled : Nat := 0x04

def FSP_PKT_TYPE_NORMAL : Nat := 0x00
def FSP_PKT_TYPE_ABS : Nat := 0x01
def FSP_PKT_TYPE_NOTIFY : Nat := 0x02
def FSP_PKT_TYPE_NORMAL_OPC : Nat := 0x03
def FSP_PKT_TYPE_SHIFT : Nat := 6

def FSP_CX_NOTIFY_MSG_TYPE_GUESTURE : Nat := 0xba
def FSP_CX_NOTIFY_MSG_TYPE_ONE_FINGER_HOLD : Nat := 0xC0

def MFMT_LEFT_BTN_DOWN : Nat := 0x01
def MFMT_RIGHT_BTN_DOWN : Nat := 0x02
def MFMT_FINGER_INDEX : Nat := 0x04
def MFMT_PS2_SPECIFY : Nat := 0x08
def MFMT_LEFT_BTN_OPC : Nat := 0x10
def MFMT_COORD_MODE : Nat := 0x20
def MFMT_SCROLL_RIGHT_BTN : Nat := 0x80
def MFMT_SCROLL_LEFT_BTN : Nat := 0x40
def MFMT_5TH_BTN : Nat := 0x20
def MFMT_4TH_BTN : Nat := 0x10
def MFMT_MID_BTN_DOWN : Nat := 0x04

/-- The `kPS2M_*` message codes the driver uses: the three it is sent by the keyboard
driver and the ones it dispatches for discrete gestures. -/
inductive PS2Message
  | kPS2M_setDisableTouchpad
  | kPS2M_getDisableTouchpad
  | kPS2M_notifyKeyPressed
  | kPS2M_zoomIn
  | kPS2M_zoomOut
  | kPS2M_rotateL
  | kPS2M_rotateR
  | kPS2M_swipeUp
  | kPS2M_swipeDown
  | kPS2M_swipeRight
  | kPS2M_swipeLeft
  | kPS2M_lauchPad
  deriving DecidableEq, Repr

open PS2Message

/-- The two lines the packet path writes with `IOLog`. -/
inductive LogLine
  | oneFingerHold
  | unexpectedGesturePacket
  deriving DecidableEq, Repr

/-- What the packet path hands to its collaborators, in program order. -/
inductive Event
  | relativePointer (dx dy : Int) (buttonState : Nat) (now : Nat)
  | scrollWheel (deltaAxis1 deltaAxis2 deltaAxis3 : Int) (now : Nat)
  | keyboardMessage (message : PS2Message) (now : Nat)
  | timerTimeout (time : Nat)
  | ioLog (line : LogLine)
  deriving DecidableEq, Repr

/-- Conversion of an `int` to the `short` parameter of `dispatchScrollWheelEventX`. -/
def toS16 (x : Int) : Int :=
  if x % 65536 < 32768 then x % 65536 else x % 65536 - 65536

/-- Subtraction of `uint64_t` values. -/
def u64_sub (a b : Nat) : Nat :=
  (a % 18446744073709551616 + (18446744073709551616 - b % 18446744073709551616))
    % 18446744073709551616

def kPacketLengthMax : Nat := 4
def kPacketLengthStandard : Nat := 3
def kPacketLengthLarge : Nat := 4

/-- Modelled from the spec: the fixed-capacity ring buffer between the interrupt routine
and the packet drain, `RingBuffer<UInt8, kPacketLengthMax*32>` (the class template is
declared in a header that is not among the sources), "an explicit fixed-capacity structure
with index+count". `m_head` is the index where the producer writes next, `m_tail` the
index where the consumer reads next, `m_count` the number of unread bytes. -/
structure RingBuffer where
  m_buffer : List Nat
  m_head : Nat
  m_tail : Nat
  m_count : Nat
  deriving DecidableEq, Repr

/-- Modelled from the spec: the capacity `N` of the driver's ring, `kPacketLengthMax*32`. -/
def RingBuffer.N : Nat := kPacketLengthMax * 32

/-- Modelled from the spec: `reset()` empties the ring (the slots are left as they are). -/
def RingBuffer.reset (r : RingBuffer) : RingBuffer :=
  { r with m_head := 0, m_tail := 0, m_count := 0 }

/-- Modelled from the spec: `count()`, the number of unread bytes. -/
def RingBuffer.count (r : RingBuffer) : Nat := r.m_count

/-- Modelled from the spec: `advanceHead(move)`, with wrap-around at the capacity: `move`
more bytes are unread. A buffer overrun, the ring being asked to count more than its
capacity, is "defined as dropping the oldest unread packet rather than corrupting buffer
indices": the tail moves on by `move` with the head and the count stays. -/
def RingBuffer.advanceHead (r : RingBuffer) (move : Nat) : RingBuffer :=
  if r.m_count + move > RingBuffer.N then
    { r with m_head := (r.m_head + move) % RingBuffer.N,
             m_tail := (r.m_tail + move) % RingBuffer.N }
  else { r with m_head := (r.m_head + move) % RingBuffer.N, m_count := r.m_count + move }

/-- Modelled from the spec: `advanceTail(move)`, with wrap-around at the capacity: `move`
bytes have been read. -/
def RingBuffer.advanceTail (r : RingBuffer) (move : Nat) : RingBuffer :=
  { r with m_tail := (r.m_tail + move) % RingBuffer.N, m_count := r.m_count - move }

/-- Modelled from the spec: `head()`, a pointer to the slot at the head, is used by the
driver only to store a byte at an offset from it. -/
def RingBuffer.storeAtHead (r : RingBuffer) (offset data : Nat) : RingBuffer :=
  { r with m_buffer := r.m_buffer.set (r.m_head + offset) data }

/-- Modelled from the spec: `tail()`, a pointer to the slot at the tail; the bytes from
there on. -/
def RingBuffer.tail (r : RingBuffer) : List Nat := r.m_buffer.drop r.m_tail

/-- The members of `ApplePS2SentelicFSP` that the interrupt routine, the packet path and
the message handler read or write. -/
structure ApplePS2SentelicFSP where
  _ringBuffer : RingBuffer
  _packetByteCount : Nat
  _packetSize : Nat
  _touchPadModeByte : Nat
  _modifierdown : Int
  _last_abs_x : Int
  _last_abs_y : Int
  _last_abs_z : Int
  _isInGesture : Bool
  x_avg : SimpleAverage2
  y_avg : SimpleAverage2
  z_avg : ScrollSmoother
  keytime : Nat
  gestureStopTime : Nat
  momentumscrollInteval : Nat
  maxaftertyping : Nat
  scrolllockTime : Nat
  deriving DecidableEq, Repr

/-- The byte `packet[i]` of a packet slot. -/
def pkt (packet : List Nat) (i : Nat) : Nat := packet.getD i 0 % 256

/-- The locals of the `FSP_PKT_TYPE_ABS` case once the packet is decoded. -/
structure AbsLocals where
  abs_x : Int
  abs_y : Int
  lb : Int
  rb : Int
  fi : Int
  opc : Int
  cm : Int
  b4 : Int
  b5 : Int
  sl : Int
  sr : Int
  deriving DecidableEq, Repr

/-- The decoding statements at the head of the `FSP_PKT_TYPE_ABS` case (the same
statements open that case in `fsp_packet_debug`). -/
def fsp_abs_decode (packet : List Nat) : AbsLocals :=
  { abs_x := int_or (int_shl (pkt packet 1) 2) (int_and (int_shr (pkt packet 3) 2) 0x03)
    abs_y := int_or (int_shl (pkt packet 2) 2) (int_and (pkt packet 3) 0x03)
    lb := if (MFMT_LEFT_BTN_DOWN &&& pkt packet 0) ≠ 0 then 1 else 0
    rb := if (MFMT_RIGHT_BTN_DOWN &&& pkt packet 0) ≠ 0 then 1 else 0
    fi := if (MFMT_FINGER_INDEX &&& pkt packet 0) ≠ 0 then 1 else 0
    opc := if (MFMT_LEFT_BTN_OPC &&& pkt packet 0) ≠ 0 then 1 else 0
    cm := if (MFMT_COORD_MODE &&& pkt packet 0) ≠ 0 then 1 else 0
    b4 := if (MFMT_4TH_BTN &&& pkt packet 3) ≠ 0 then 1 else 0
    b5 := if (MFMT_5TH_BTN &&& pkt packet 3) ≠ 0 then 1 else 0
    sl := if (MFMT_SCROLL_LEFT_BTN &&& pkt packet 3) ≠ 0 then 1 else 0
    sr := if (MFMT_SCROLL_RIGHT_BTN &&& pkt packet 3) ≠ 0 then 1 else 0 }

/-- One of the guarded blocks `if(!_isInGesture) { _isInGesture=true; dispatchKeyboardMessage }`
of the gesture switch. -/
def guardedMessage (now_abs : Nat) (acc : ApplePS2SentelicFSP × List Event) (m : PS2Message) :
    ApplePS2SentelicFSP × List Event :=
  if acc.1._isInGesture = false then
    ({ acc.1 with _isInGesture := true }, acc.2 ++ [Event.keyboardMessage m now_abs])
  else acc

/-- The case labels `0x8f .. 0x2c` of the gesture switch in program order, each with the
message of its guarded block. No `break` separates them: control entering at one label
runs every later block too, down to the `break` of `case 0x18`. -/
def fallthroughCases : List (Nat × PS2Message) :=
  [(0x8f, kPS2M_zoomIn), (0x8b, kPS2M_zoomOut), (0xc0, kPS2M_rotateL), (0xc4, kPS2M_rotateR),
   (0x2e, kPS2M_swipeUp), (0x2a, kPS2M_swipeDown), (0x28, kPS2M_swipeRight),
   (0x2c, kPS2M_swipeLeft)]

/-- Negation of an `unsigned int`. -/
def u32_neg (n : Nat) : Nat := (4294967296 - n % 4294967296) % 4294967296

/-- The `switch (packet[2])` of a gesture notification; `dz` is the running delta. -/
def gestureSwitch (s : ApplePS2SentelicFSP) (packet : List Nat) (now_abs now_ns uptime : Nat)
    (dz : Int) : ApplePS2SentelicFSP × List Event :=
  let id := pkt packet 2
  if id = 0x86 then
    let r := (s.z_avg.setDir SCROLL_DIR_UP).filter uptime dz
    ({ s with _isInGesture := true, z_avg := r.1 },
     if r.2 > 0 then [Event.scrollWheel (toS16 r.2) 0 0 now_abs] else [])
  else if id = 0x82 then
    let r := (s.z_avg.setDir SCROLL_DIR_DOWN).filter uptime dz
    ({ s with _isInGesture := true, z_avg := r.1 },
     if r.2 > 0 then [Event.scrollWheel (toS16 (-r.2)) 0 0 now_abs] else [])
  else if id = 0x80 then
    let r := (s.z_avg.setDir SCROLL_DIR_RIGHT).filter uptime dz
    ({ s with _isInGesture := true, z_avg := r.1 },
     if r.2 > 0 then [Event.scrollWheel 0 (toS16 r.2) 0 now_abs] else [])
  else if id = 0x84 then
    let r := (s.z_avg.setDir SCROLL_DIR_LEFT).filter uptime dz
    ({ s with _isInGesture := true, z_avg := r.1 },
     if r.2 > 0 then [Event.scrollWheel 0 (toS16 (-r.2)) 0 now_abs] else [])
  else if id ∈ fallthroughCases.map Prod.fst then
    ((fallthroughCases.dropWhile fun c => c.1 ≠ id).map Prod.snd).foldl
      (guardedMessage now_abs) (s, [])
  else if id = 0x18 ∨ id = 0x19 then (s, [])
  else if id = 0x11 then
    (s, [Event.relativePointer 0 0 0x2 now_abs,
         Event.relativePointer 0 0 0 ((now_abs + 1) % 18446744073709551616)])
  else if id = 0x1a then guardedMessage now_abs (s, []) kPS2M_lauchPad
  else if id = 0x38 then (s, [])
  else if id = 0 then
    let r := s.z_avg.stop
    ({ s with _isInGesture := false, z_avg := r.1, gestureStopTime := now_ns },
     if r.2 > 0 then [Event.timerTimeout s.momentumscrollInteval] else [])
  else (s, [])

/-- Embedding of `ApplePS2SentelicFSP::dispatchRelativePointerEventWithPacket`.
`now_abs` and `now_ns` are what `clock_get_uptime` and `absolutetime_to_nanoseconds`
deliver on entry, `uptime` is the clock value read inside `ScrollSmoother::filter`.
The result is the new state and the events handed out, in order. -/
def dispatchRelativePointerEventWithPacket (s : ApplePS2SentelicFSP) (packet : List Nat)
    (packetSize : Nat) (now_abs now_ns uptime : Nat) : ApplePS2SentelicFSP × List Event :=
  if u64_sub now_ns s.keytime < s.maxaftertyping then (s, [])
  else if pkt packet 0 >>> FSP_PKT_TYPE_SHIFT = FSP_PKT_TYPE_NOTIFY then
    if pkt packet 1 = FSP_CX_NOTIFY_MSG_TYPE_GUESTURE then
      let dz : Int :=
        if s._isInGesture then int_sub (pkt packet 3) s._last_abs_z else (pkt packet 3 : Int)
      let s := { s with _last_abs_x := 0, _last_abs_y := 0, _last_abs_z := (pkt packet 3 : Int) }
      gestureSwitch s packet now_abs now_ns uptime dz
    else if pkt packet 1 = FSP_CX_NOTIFY_MSG_TYPE_ONE_FINGER_HOLD then
      ({ s with _isInGesture := false, gestureStopTime := now_ns },
       [Event.ioLog LogLine.oneFingerHold])
    else
      ({ s with _isInGesture := false, gestureStopTime := now_ns },
       [Event.ioLog LogLine.unexpectedGesturePacket])
  else if pkt packet 0 >>> FSP_PKT_TYPE_SHIFT = FSP_PKT_TYPE_ABS then
    let f := fsp_abs_decode packet
    if s._isInGesture then
      if f.abs_y = 0 ∧ f.abs_x = 0 then
        let r := s.z_avg.stop
        ({ s with _isInGesture := false, gestureStopTime := now_ns, _last_abs_x := 0,
                  _last_abs_y := 0, x_avg := s.x_avg.reset, y_avg := s.y_avg.reset,
                  z_avg := r.1 },
         if r.2 > 0 then [Event.timerTimeout s.momentumscrollInteval] else [])
      else (s, [])
    else if u64_sub now_ns s.gestureStopTime < s.scrolllockTime then (s, [])
    else
      let buttons : Nat :=
        ((if f.lb ≠ 0 then 0x1 else 0) ||| (if f.rb ≠ 0 then 0x2 else 0)) |||
          (if f.lb = 0 ∧ f.opc = 0 then 0x1 else 0)
      if f.abs_y = 0 ∧ f.abs_x = 0 then
        ({ s with x_avg := s.x_avg.reset, y_avg := s.y_avg.reset,
                  _last_abs_x := f.abs_x, _last_abs_y := f.abs_y },
         [Event.relativePointer 0 0 buttons now_abs])
      else if s._last_abs_x = 0 ∧ s._last_abs_y = 0 then
        ({ s with _last_abs_x := f.abs_x, _last_abs_y := f.abs_y },
         [Event.relativePointer 0 0 buttons now_abs])
      else
        let rx := s.x_avg.filter 3 f.abs_x
        let ry := s.y_avg.filter 3 f.abs_y
        ({ s with x_avg := rx.1, y_avg := ry.1, _last_abs_x := rx.2, _last_abs_y := ry.2 },
         [Event.relativePointer (int_sub rx.2 s._last_abs_x) (int_sub ry.2 s._last_abs_y)
            buttons now_abs])
  else
    let buttons : Nat :=
      if s._touchPadModeByte = kModeByteValueGesturesEnabled ∨
          pkt packet 0 >>> FSP_PKT_TYPE_SHIFT ≠ FSP_PKT_TYPE_NORMAL_OPC then
        ((if (pkt packet 0 &&& 0x1) ≠ 0 then 0x1 else 0) |||
          (if (pkt packet 0 &&& 0x2) ≠ 0 then 0x2 else 0)) |||
          (if (pkt packet 0 &&& 0x4) ≠ 0 then 0x4 else 0)
      else 0
    let dx : Int := toS32 ((if (pkt packet 0 &&& 0x10) ≠ 0 then 0xffffff00 else 0) ||| pkt packet 1)
    let dy : Int :=
      toS32 (u32_neg ((if (pkt packet 0 &&& 0x20) ≠ 0 then 0xffffff00 else 0) ||| pkt packet 2))
    (s, [Event.relativePointer dx dy buttons now_abs])

/-- Embedding of `ApplePS2SentelicFSP::onScrollTimer`; `now_abs` is what
`clock_get_uptime` delivers. -/
def onScrollTimer (s : ApplePS2SentelicFSP) (now_abs : Nat) : ApplePS2SentelicFSP × List Event :=
  let r := s.z_avg.getFlingDelta
  let s := { s with z_avg := r.1 }
  let dz := r.2
  if dz > 0 then
    let scroll : List Event :=
      if s.z_avg.getDir = SCROLL_DIR_UP then [Event.scrollWheel (toS16 dz) 0 0 now_abs]
      else if s.z_avg.getDir = SCROLL_DIR_DOWN then [Event.scrollWheel (toS16 (-dz)) 0 0 now_abs]
      else if s.z_avg.getDir = SCROLL_DIR_LEFT then [Event.scrollWheel 0 (toS16 dz) 0 now_abs]
      else if s.z_avg.getDir = SCROLL_DIR_RIGHT then
        [Event.scrollWheel 0 (toS16 (-dz)) 0 now_abs]
      else []
    (s, scroll ++ [Event.timerTimeout s.momentumscrollInteval])
  else (s, [])

/-- The state `ApplePS2SentelicFSP::init` sets up. The members it does not assign (the
filters and the smoother, whose constructors assign at most the counters) are zero: the
memory of the object is zero-filled when it is allocated. -/
def ApplePS2SentelicFSP.init : ApplePS2SentelicFSP :=
  { _ringBuffer := { m_buffer := List.replicate RingBuffer.N 0, m_head := 0, m_tail := 0,
                     m_count := 0 }
    _packetByteCount := 0
    _packetSize := 0
    _touchPadModeByte := kModeByteValueGesturesEnabled
    _modifierdown := 0
    _last_abs_x := 0
    _last_abs_y := 0
    _last_abs_z := 0
    _isInGesture := false
    x_avg := { m_buffer := [0, 0, 0], m_count := 0, m_sum := 0, m_index := 0 }
    y_avg := { m_buffer := [0, 0, 0], m_count := 0, m_sum := 0, m_index := 0 }
    z_avg := { lastinputTime := 0, lastspeedCalcTime := 0, direction := 0, history := [0, 0],
               lastDelta := 0, cur_history_index := 0, deltaDir := 0, inputCount := 0,
               stopDelta := 0, decDelta := 0, maxDelta := 0 }
    keytime := 0
    gestureStopTime := 0
    momentumscrollInteval := 20000000
    maxaftertyping := 500000000
    scrolllockTime := 500000000 }

/-! ## Interrupt routine, packet drain and keyboard messages (`VoodooPS2SentelicFSP.cpp`) -/

/-- Modelled from the spec: the acknowledge byte of the bus (`kSC_Acknowledge` of
`ApplePS2Device.h`, which is not among the sources), 0xFA on a PS/2 port. -/
def kSC_Acknowledge : Nat := 0xFA

/-- The two results the interrupt routine returns. -/
inductive PS2InterruptResult
  | kPS2IR_packetBuffering
  | kPS2IR_packetReady
  deriving DecidableEq, Repr

open PS2InterruptResult

/-- Embedding of `ApplePS2SentelicFSP::interruptOccurred`; `data` is a `UInt8`. The
byte is stored at offset `_packetByteCount` from the head of the ring (with packet
sizes 3 and 4 and a head on a multiple of 4 the offset stays inside the ring). -/
def interruptOccurred (s : ApplePS2SentelicFSP) (data : Nat) :
    ApplePS2SentelicFSP × PS2InterruptResult :=
  let data := data % 256
  if s._packetByteCount = 0 ∧ (data = kSC_Acknowledge ∨ (data &&& 0x08) = 0) then
    (s, kPS2IR_packetBuffering)
  else
    let ring := s._ringBuffer.storeAtHead s._packetByteCount data
    let count := (s._packetByteCount + 1) % 4294967296
    if count = s._packetSize then
      ({ s with _ringBuffer := ring.advanceHead kPacketLengthMax, _packetByteCount := 0 },
       kPS2IR_packetReady)
    else ({ s with _ringBuffer := ring, _packetByteCount := count }, kPS2IR_packetBuffering)

/-- The clock values one run of the packet routine reads: `clock_get_uptime` on entry,
its conversion to nanoseconds, and the value read inside `ScrollSmoother::filter`. -/
structure ClockReading where
  now_abs : Nat
  now_ns : Nat
  uptime : Nat
  deriving DecidableEq, Repr

/-- The `while` loop of `packetReady`: `k` counts the turns already taken, the turn
numbered `k` reads the clock values `clock k`. The first argument bounds the number of
turns. -/
def packetReadyLoop (clock : Nat → ClockReading) :
    Nat → Nat → ApplePS2SentelicFSP → ApplePS2SentelicFSP × List Event
  | 0, _, s => (s, [])
  | fuel + 1, k, s =>
    if s._ringBuffer.count ≥ kPacketLengthMax then
      let r := dispatchRelativePointerEventWithPacket s s._ringBuffer.tail s._packetSize
        (clock k).now_abs (clock k).now_ns (clock k).uptime
      let s1 := { r.1 with _ringBuffer := r.1._ringBuffer.advanceTail kPacketLengthMax }
      let r2 := packetReadyLoop clock fuel (k + 1) s1
      (r2.1, r.2 ++ r2.2)
    else (s, [])

/-- Embedding of `ApplePS2SentelicFSP::packetReady`. The ring never counts more than
`N` bytes, so `N / kPacketLengthMax` turns are enough. -/
def packetReady (s : ApplePS2SentelicFSP) (clock : Nat → ClockReading) :
    ApplePS2SentelicFSP × List Event :=
  packetReadyLoop clock (RingBuffer.N / kPacketLengthMax) 0 s

/-- Modelled from the spec: the fields of `PS2KeyInfo` that `receiveMessage` reads (the
record is declared in `ApplePS2Device.h`, which is not among the sources): the timestamp
of the key event, the key code and whether the key goes down. -/
structure PS2KeyInfo where
  time : Nat
  adbKeyCode : Nat
  goingDown : Bool
  deriving DecidableEq, Repr

/-- The table `masks` of `receiveMessage`, indexed by `adbKeyCode - 0x36`. -/
def masks : List Int := [0x10, 0x100000, 0, 0, 0x080000, 0x040000, 0, 0x08, 0x04, 0x200000]

/-- The case labels of the modifier keys in `receiveMessage`: the shift, control, option
and command keys of both sides and the function key. -/
def modifierKeyCodes : List Nat := [0x38, 0x3c, 0x3b, 0x3e, 0x3a, 0x3d, 0x37, 0x36, 0x3f]

/-- Embedding of `ApplePS2SentelicFSP::receiveMessage`; `pInfo` is what `data` points to
when the message is `kPS2M_notifyKeyPressed`. -/
def receiveMessage (s : ApplePS2SentelicFSP) (message : PS2Message) (pInfo : PS2KeyInfo) :
    ApplePS2SentelicFSP :=
  match message with
  | kPS2M_getDisableTouchpad => s
  | kPS2M_setDisableTouchpad => s
  | kPS2M_notifyKeyPressed =>
    if pInfo.adbKeyCode ∈ modifierKeyCodes then
      if pInfo.goingDown then
        { s with _modifierdown :=
            int_or s._modifierdown (masks.getD (pInfo.adbKeyCode - 0x36) 0) }
      else
        { s with _modifierdown :=
            int_and s._modifierdown (int_not (masks.getD (pInfo.adbKeyCode - 0x36) 0)),
                 keytime := pInfo.time % 18446744073709551616 }
    else { s with gestureStopTime := 0, keytime := pInfo.time % 18446744073709551616 }
  | _ => s

/-! ## Register mangling of the Linux reference driver (`sentelic.c`) -/

namespace Linux

/-- Embedding of `fsp_test_swap_cmd` (`unsigned char` in, `unsigned char` out; the
operands of `>>`, `<<` and `|` are promoted to `int`). -/
def fsp_test_swap_cmd (reg_val : Nat) : Nat :=
  if reg_val = 10 ∨ reg_val = 20 ∨ reg_val = 40 ∨ reg_val = 60 ∨ reg_val = 80 ∨
      reg_val = 100 ∨ reg_val = 200 then
    toU8 (int_or (int_shr reg_val 4) (int_shl reg_val 4))
  else reg_val

/-- Embedding of `fsp_test_invert_cmd`. -/
def fsp_test_invert_cmd (reg_val : Nat) : Nat :=
  if reg_val = 0xe9 ∨ reg_val = 0xee ∨ reg_val = 0xf2 ∨ reg_val = 0xff then
    toU8 (int_not reg_val)
  else reg_val

/-- The byte that `fsp_reg_read` (as `addr`) and `fsp_reg_write` (as `v`) of the Linux
driver send for `x`, as left by the chain
`if ((v = fsp_test_invert_cmd(x)) != x) .. else if ((v = fsp_test_swap_cmd(x)) != x) ..`. -/
def mangled (x : Nat) : Nat :=
  if fsp_test_invert_cmd x ≠ x then fsp_test_invert_cmd x else fsp_test_swap_cmd x

end Linux

/-! ## Sample devices -/

/-- A device that carries out every request completely, every reply byte being 0. -/
def quietDevice : ApplePS2MouseDevice := ⟨fun _ request => request⟩

/-- A device that gives a short reply to the second request it sees (the request
stops after two of its steps) and carries out every other request completely. -/
def shortReplyDevice : ApplePS2MouseDevice :=
  ⟨fun log request => if log.length = 1 then { request with commandsCount := 2 } else request⟩

/-- A device that carries out every request completely and answers the
Get-Mouse-Information request with the three reply bytes 0x12, 0x34, 0x5A. -/
def replyingDevice : ApplePS2MouseDevice :=
  ⟨fun _ request =>
    if request.commandsCount = 4 then
      { request with commands := request.commands.take 1 ++
          [⟨kPS2C_ReadDataPort, 0x12⟩, ⟨kPS2C_ReadDataPort, 0x34⟩,
           ⟨kPS2C_ReadDataPort, 0x5A⟩] }
    else request⟩

/-- A device that does not acknowledge the Get-Mouse-Information command (the
four-step request stops at its first step, index 0) while single-byte requests are
carried out completely. -/
def noInfoDevice : ApplePS2MouseDevice :=
  ⟨fun _ request =>
    if request.commandsCount = 4 then { request with commandsCount := 0 } else request⟩

/-! ## The register codec as the specification words it -/

namespace Spec

/-- The confirmation-byte set. -/
def confirmationSet : List Nat := [0xE9, 0xEE, 0xF2, 0xFF]

/-- The sample-rate set. -/
def sampleRateSet : List Nat := [10, 20, 40, 60, 80, 100, 200]

/-- The three transforms of the codec. -/
inductive Transform
  | invert
  | swap
  | plain
  deriving DecidableEq, Repr

/-- The three places where a byte is mangled. -/
inductive Context
  | readAddress
  | writeAddress
  | writeValue
  deriving DecidableEq, Repr

/-- The three-way rule: which transform a byte gets. -/
def transform (v : Nat) : Transform :=
  if v ∈ confirmationSet then Transform.invert
  else if v ∈ sampleRateSet then Transform.swap
  else Transform.plain

/-- A byte with its nibbles swapped. -/
def nibbleSwap (v : Nat) : Nat := ((v >>> 4) ||| (v <<< 4)) % 256

/-- The 8-bit complement of a byte. -/
def complement (v : Nat) : Nat := 255 - v

/-- The wire byte of the three-way rule. -/
def wire (v : Nat) : Nat :=
  match transform v with
  | Transform.invert => complement v
  | Transform.swap => nibbleSwap v
  | Transform.plain => v

/-- The selector constants. -/
def selector : Context → Transform → Nat
  | Context.readAddress, Transform.invert => 0x68
  | Context.writeAddress, Transform.invert => 0x74
  | Context.writeValue, Transform.invert => 0x47
  | Context.readAddress, Transform.swap => 0xCC
  | Context.writeAddress, Transform.swap => 0x77
  | Context.writeValue, Transform.swap => 0x44
  | Context.readAddress, Transform.plain => 0x66
  | Context.writeAddress, Transform.plain => 0x55
  | Context.writeValue, Transform.plain => 0x33

/-- The device-side inverse named by a selector byte: complement for an invert
selector, nibble swap for a swap selector, identity for any other selector. -/
def decode (sel w : Nat) : Nat :=
  if sel ∈ [0x68, 0x74, 0x47] then complement w
  else if sel ∈ [0xCC, 0x77, 0x44] then nibbleSwap w
  else w

end Spec

/-! ## What a register operation puts on the wire -/

/-- The bytes `fsp_reg_read` sends to the pad. -/
def readBytes (device : ApplePS2MouseDevice) (log : List PS2Request) (reg : Int) : List Nat :=
  mouseBytes ((fsp_reg_read device log reg).1.drop log.length)

/-- The bytes `fsp_reg_write` sends to the pad. -/
def writeBytes (device : ApplePS2MouseDevice) (log : List PS2Request) (reg val : Int) :
    List Nat :=
  mouseBytes ((fsp_reg_write device log reg val).drop log.length)

/-- The value of `register_value` after the mangling test, for the byte `x`. -/
def mangled_value (x : Int) : Int :=
  if x = 10 ∨ x = 20 ∨ x = 40 ∨ x = 60 ∨ x = 80 ∨ x = 100 ∨ x = 200 then
    int_or (int_shr x 4) (int_shl x 4)
  else if x = 0xe9 ∨ x = 0xee ∨ x = 0xf2 ∨ x = 0xff then int_not x
  else x

/-- The value of `register_select` after the mangling test, for the byte `x` and the
three selector constants of the place. -/
def mangled_select (swap invert plain : Int) (x : Int) : Int :=
  if x = 10 ∨ x = 20 ∨ x = 40 ∨ x = 60 ∨ x = 80 ∨ x = 100 ∨ x = 200 then swap
  else if x = 0xe9 ∨ x = 0xee ∨ x = 0xf2 ∨ x = 0xff then invert
  else plain

/-- The request that sends the byte `b` to the pad and reads one reply byte. -/
def sendByteRequest (b : Nat) : PS2Request :=
  { commandsCount := 3
    commands := [⟨kPS2C_WriteCommandPort, kCP_TransmitToMouse⟩,
                 ⟨kPS2C_WriteDataPort, b⟩,
                 ⟨kPS2C_ReadDataPort, 0⟩] }

/-- Among the requests of `full` submitted after the first `n`, every request sending
the command byte 0xF3 ran to its end on `device`. -/
def f3Complete (device : ApplePS2MouseDevice) (n : Nat) (full : List PS2Request) : Prop :=
  ∀ i < full.length, n ≤ i → full.getD i fsp_getinfo_request = sendByteRequest 0xF3 →
    (device.complete (full.take i) (sendByteRequest 0xF3)).commandsCount = 3

instance (device : ApplePS2MouseDevice) (n : Nat) (full : List PS2Request) :
    Decidable (f3Complete device n full) := by
  unfold f3Complete
  infer_instance

/-! ## Call sequences on the filters -/

/-- A value that fits an `int`. -/
def inIntRange (v : Int) : Prop := -2147483648 ≤ v ∧ v ≤ 2147483647

instance (v : Int) : Decidable (inIntRange v) := by
  unfold inIntRange
  infer_instance

/-- The filter after `filter` has been called with the inputs `xs`, in order. -/
def SimpleAverage2.feed (N : Int) : SimpleAverage2 → List Int → SimpleAverage2
  | a, [] => a
  | a, x :: xs => SimpleAverage2.feed N (a.filter N x).1 xs

/-- The values returned by `filter` called with the inputs `xs`, in order. -/
def SimpleAverage2.outputs (N : Int) : SimpleAverage2 → List Int → List Int
  | _, [] => []
  | a, x :: xs => (a.filter N x).2 :: SimpleAverage2.outputs N (a.filter N x).1 xs

/-- A `ScrollSmoother` whose memory is zero-filled (its constructor assigns nothing). -/
def ScrollSmoother.zero : ScrollSmoother :=
  { lastinputTime := 0, lastspeedCalcTime := 0, direction := 0, history := [0, 0],
    lastDelta := 0, cur_history_index := 0, deltaDir := 0, inputCount := 0,
    stopDelta := 0, decDelta := 0, maxDelta := 0 }

/-- The smoother after `filter` has been called with the inputs `ins`, in order; each
input comes with the clock value its call reads. -/
def ScrollSmoother.feed : ScrollSmoother → List (Nat × Int) → ScrollSmoother
  | s, [] => s
  | s, i :: ins => ScrollSmoother.feed (s.filter i.1 i.2).1 ins

/-- The values returned by `filter` called with the inputs `ins`, in order. -/
def ScrollSmoother.outputs : ScrollSmoother → List (Nat × Int) → List Int
  | _, [] => []
  | s, i :: ins => (s.filter i.1 i.2).2 :: ScrollSmoother.outputs (s.filter i.1 i.2).1 ins

/-- The value returned by the call number `i + 1` of a run of successive
`getFlingDelta` calls. -/
def ScrollSmoother.nthFling : ScrollSmoother → Nat → Int
  | s, 0 => s.getFlingDelta.2
  | s, i + 1 => ScrollSmoother.nthFling s.getFlingDelta.1 i

/-- A call of one of the methods of the smoother. -/
inductive SmootherCall
  | filter (uptime : Nat) (z : Int)
  | stop
  | setDir (dir : Int)
  | getFlingDelta
  deriving DecidableEq, Repr

/-- The smoother after one method call. -/
def ScrollSmoother.call (s : ScrollSmoother) : SmootherCall → ScrollSmoother
  | SmootherCall.filter uptime z => (s.filter uptime z).1
  | SmootherCall.stop => s.stop.1
  | SmootherCall.setDir dir => s.setDir dir
  | SmootherCall.getFlingDelta => s.getFlingDelta.1

/-- The smoother after the method calls `cs`, in order. -/
def ScrollSmoother.run (s : ScrollSmoother) (cs : List SmootherCall) : ScrollSmoother :=
  cs.foldl ScrollSmoother.call s

/-- The clock value a `filter` call reads is not 0 (the uptime clock is running). -/
def SmootherCall.clockRuns : SmootherCall → Prop
  | SmootherCall.filter uptime _ => uptime % 18446744073709551616 ≠ 0
  | _ => True

instance (c : SmootherCall) : Decidable c.clockRuns := by
  cases c <;> unfold SmootherCall.clockRuns <;> infer_instance

/-- The counters are clear whenever no input has arrived since the last stop. -/
def ScrollSmoother.Tidy (t : ScrollSmoother) : Prop :=
  t.history.length = 2 ∧
    (t.lastinputTime = 0 → t.inputCount = 0 ∧ t.cur_history_index = 0)

/-- What the filter holds after the inputs `pre` (fed since a reset): the fill count, the
next slot, the running sum and the slots written so far. -/
def SimpleAverage2.Holds (a : SimpleAverage2) (pre : List Int) : Prop :=
  (∃ b0 b1 b2, pre = [] ∧ a = ⟨[b0, b1, b2], 0, 0, 0⟩) ∨
  (∃ p b1 b2, pre = [p] ∧ a = ⟨[p, b1, b2], 1, p, 1⟩) ∨
  (∃ p q b2, pre = [p, q] ∧ a = ⟨[p, q, b2], 2, p + q, 2⟩) ∨
  (∃ ys p q r, pre = ys ++ [p, q, r] ∧
    (a = ⟨[p, q, r], 3, p + q + r, 0⟩ ∨ a = ⟨[r, p, q], 3, p + q + r, 1⟩ ∨
      a = ⟨[q, r, p], 3, p + q + r, 2⟩))

/-- Two filters that agree on the counters and on the slots written since the reset. -/
def SimpleAverage2.Agree (a b : SimpleAverage2) : Prop :=
  (∃ b0 b1 b2 c0 c1 c2, a = ⟨[b0, b1, b2], 0, 0, 0⟩ ∧ b = ⟨[c0, c1, c2], 0, 0, 0⟩) ∨
  (∃ p sm b1 b2 c1 c2, a = ⟨[p, b1, b2], 1, sm, 1⟩ ∧ b = ⟨[p, c1, c2], 1, sm, 1⟩) ∨
  (∃ p q sm b2 c2, a = ⟨[p, q, b2], 2, sm, 2⟩ ∧ b = ⟨[p, q, c2], 2, sm, 2⟩) ∨
  a = b

namespace Spec

/-- The sum of the last `min n k` of the `k` inputs `xs`. -/
def windowSum (n : Nat) (xs : List Int) : Int := (xs.drop (xs.length - n)).sum

/-- The mean of the last `min n k` of the `k` inputs `xs`, the division truncating
toward zero. -/
def windowMean (n : Nat) (xs : List Int) : Int :=
  Int.tdiv (windowSum n xs) ((min n xs.length : Nat) : Int)

end Spec

/-! ## Gesture notifications, absolute packets and packet assembly -/

/-- The running delta of a gesture notification: `packet[3] - _last_abs_z` while a session
is active, `packet[3]` otherwise. -/
def runningDelta (s : ApplePS2SentelicFSP) (packet : List Nat) : Int :=
  if s._isInGesture then int_sub (pkt packet 3) s._last_abs_z else (pkt packet 3 : Int)

/-- The four scroll labels of the gesture switch, each with the direction its case hands
to `setDir`. -/
def scrollCodes : List (Nat × Int) :=
  [(0x86, SCROLL_DIR_UP), (0x82, SCROLL_DIR_DOWN), (0x80, SCROLL_DIR_RIGHT),
   (0x84, SCROLL_DIR_LEFT)]

/-- The button mask the `FSP_PKT_TYPE_ABS` case builds from the decoded flags. -/
def absButtons (f : AbsLocals) : Nat :=
  ((if f.lb ≠ 0 then 0x1 else 0) ||| (if f.rb ≠ 0 then 0x2 else 0)) |||
    (if f.lb = 0 ∧ f.opc = 0 then 0x1 else 0)

/-- A finger resting on the pad: the driver has taken the Absolute packet with
coordinates (400, 200) from its initial state, one second after start. -/
def contactStarted : ApplePS2SentelicFSP :=
  (dispatchRelativePointerEventWithPacket ApplePS2SentelicFSP.init [0x48, 100, 50, 0] 4
    1000000000 1000000000 1000000000).1

/-- A scroll session just opened: the driver has taken one 2-finger-up notification with
magnitude 4 from its initial state, one second after start. -/
def scrollStarted : ApplePS2SentelicFSP :=
  (dispatchRelativePointerEventWithPacket ApplePS2SentelicFSP.init [0x88, 0xBA, 0x86, 4] 4
    1000000000 1000000000 1000000000).1

/-- A scroll session one second after start: the driver has taken the two 2-finger-up
notifications with magnitudes 10 and 7 from its initial state. -/
def liftScenario : ApplePS2SentelicFSP :=
  (dispatchRelativePointerEventWithPacket
    (dispatchRelativePointerEventWithPacket ApplePS2SentelicFSP.init [0x88, 0xBA, 0x86, 10] 4
      1000000000 1000000000 1000000000).1
    [0x88, 0xBA, 0x86, 7] 4 1010000000 1010000000 1010000000).1

/-- A scroll session one second after start: the driver has taken the two 2-finger-up
notifications with magnitudes 10 and 20 from its initial state. -/
def flingScenario : ApplePS2SentelicFSP :=
  (dispatchRelativePointerEventWithPacket
    (dispatchRelativePointerEventWithPacket ApplePS2SentelicFSP.init [0x88, 0xBA, 0x86, 10] 4
      1000000000 1000000000 1000000000).1
    [0x88, 0xBA, 0x86, 20] 4 1010000000 1010000000 1010000000).1

/-- The interrupt routine run over a stream of bytes, one call per byte: the state
reached and the results returned, in order. -/
def interruptStream :
    ApplePS2SentelicFSP → List Nat → ApplePS2SentelicFSP × List PS2InterruptResult
  | s, [] => (s, [])
  | s, b :: bs =>
    ((interruptStream (interruptOccurred s b).1 bs).1,
     (interruptOccurred s b).2 :: (interruptStream (interruptOccurred s b).1 bs).2)

/-- The packet routine called on the packets `ps` one after the other, each call followed
by `advanceTail(kPacketLengthMax)`; the call numbered `k` reads the clock values
`clock k`. -/
def dispatchPackets (clock : Nat → ClockReading) :
    Nat → ApplePS2SentelicFSP → List (List Nat) → ApplePS2SentelicFSP × List Event
  | _, s, [] => (s, [])
  | k, s, p :: ps =>
    let r := dispatchRelativePointerEventWithPacket s p s._packetSize
      (clock k).now_abs (clock k).now_ns (clock k).uptime
    let s1 := { r.1 with _ringBuffer := r.1._ringBuffer.advanceTail kPacketLengthMax }
    let r2 := dispatchPackets clock (k + 1) s1 ps
    (r2.1, r.2 ++ r2.2)

/-- The slots the ring counts, from the tail on: one pointer into the buffer for each
`kPacketLengthMax` unread bytes. -/
def RingBuffer.slots (r : RingBuffer) : List (List Nat) :=
  (List.range (r.count / kPacketLengthMax)).map fun j =>
    r.m_buffer.drop ((r.m_tail + kPacketLengthMax * j) % RingBuffer.N)

/-- A clock that reads one second after start at every call. -/
def sampleClock : Nat → ClockReading :=
  fun _ => { now_abs := 1000000000, now_ns := 1000000000, uptime := 1000000000 }

namespace Spec

/-- The scroll axes as the specification words them: the smoothed delta `d` goes to the
vertical axis for up (`d`) and down (`-d`), to the horizontal axis for right (`d`) and
left (`-d`). -/
def scrollAxes (dir d : Int) : Int × Int :=
  if dir = SCROLL_DIR_UP then (d, 0)
  else if dir = SCROLL_DIR_DOWN then (-d, 0)
  else if dir = SCROLL_DIR_RIGHT then (0, d)
  else (0, -d)

/-- The discrete gestures as the specification words them: an explicit table from the
gesture code to the notification. -/
def gestureTable : List (Nat × PS2Message) :=
  [(0x8F, kPS2M_zoomIn), (0x8B, kPS2M_zoomOut), (0xC0, kPS2M_rotateL), (0xC4, kPS2M_rotateR),
   (0x2E, kPS2M_swipeUp), (0x2A, kPS2M_swipeDown), (0x28, kPS2M_swipeRight),
   (0x2C, kPS2M_swipeLeft), (0x1A, kPS2M_lauchPad)]

/-- What a packet assembler has made of a byte stream: the packets completed, the bytes of
the packet in progress, and the signal returned for each byte. -/
structure Assembly where
  packets : List (List Nat)
  inProgress : List Nat
  results : List PS2InterruptResult
  deriving DecidableEq, Repr

/-- A byte can open a packet when it is not the acknowledge byte 0xFA and has bit 3 set. -/
def startsPacket (b : Nat) : Bool := b != 0xFA && b.testBit 3

/-- Packet assembly as the specification words it, for packets of `n` bytes: with no
packet in progress a byte that cannot open one is dropped; any other byte is appended to
the packet in progress, and the `n`-th byte completes the packet and signals "ready". -/
def assemble (n : Nat) : List Nat → List Nat → Assembly
  | cur, [] => { packets := [], inProgress := cur, results := [] }
  | cur, b :: bs =>
    if cur = [] ∧ startsPacket (b % 256) = false then
      { assemble n [] bs with
        results := kPS2IR_packetBuffering :: (assemble n [] bs).results }
    else if cur.length + 1 = n then
      { assemble n [] bs with
        packets := (cur ++ [b % 256]) :: (assemble n [] bs).packets
        results := kPS2IR_packetReady :: (assemble n [] bs).results }
    else
      { assemble n (cur ++ [b % 256]) bs with
        results := kPS2IR_packetBuffering :: (assemble n (cur ++ [b % 256]) bs).results }

end Spec

/-- What the driver holds while packets of `n` bytes are assembled into a ring that was
`r0` at the start: `done` are the packets completed since then, `cur` the bytes of the
packet in progress. The head has moved on by one slot for each completed packet, the
count is capped at the capacity, and tail, count and head fit together. As long as the
ring has room for the unread packets and for the packet in progress, the slots of the
completed packets hold their bytes and the slots unread at the start are as they were. -/
def Assembling (n : Nat) (r0 : RingBuffer) (s : ApplePS2SentelicFSP) (done : List (List Nat))
    (cur : List Nat) : Prop :=
  s._packetSize = n ∧ s._packetByteCount = cur.length ∧ cur.length < n ∧
    s._ringBuffer.m_buffer.length = RingBuffer.N ∧
    s._ringBuffer.m_head = (r0.m_head + kPacketLengthMax * done.length) % RingBuffer.N ∧
    (∀ p ∈ done, p.length = n) ∧
    (∀ i, i < cur.length → s._ringBuffer.m_buffer.getD (s._ringBuffer.m_head + i) 0 =
      cur.getD i 0) ∧
    s._ringBuffer.m_count = min RingBuffer.N (r0.m_count + kPacketLengthMax * done.length) ∧
    s._ringBuffer.m_tail < RingBuffer.N ∧
    (s._ringBuffer.m_tail + s._ringBuffer.m_count) % RingBuffer.N = s._ringBuffer.m_head ∧
    (r0.m_count + kPacketLengthMax * done.length +
        (if cur = [] then 0 else kPacketLengthMax) ≤ RingBuffer.N →
      s._ringBuffer.m_tail = r0.m_tail ∧
      (∀ j i, j < done.length → i < n →
        s._ringBuffer.m_buffer.getD
            ((r0.m_head + kPacketLengthMax * j) % RingBuffer.N + i) 0 =
          (done.getD j []).getD i 0) ∧
      (∀ j i, kPacketLengthMax * j < r0.m_count → i < kPacketLengthMax →
        s._ringBuffer.m_buffer.getD
            ((r0.m_tail + kPacketLengthMax * j) % RingBuffer.N + i) 0 =
          r0.m_buffer.getD ((r0.m_tail + kPacketLengthMax * j) % RingBuffer.N + i) 0))

/-- The ring is in order: 128 slots of one byte, head and tail inside it and the head on a
multiple of 4, a count of whole 4-byte slots within the capacity, and the head `m_count`
bytes after the tail. -/
def RingBuffer.InOrder (r : RingBuffer) : Prop :=
  r.m_buffer.length = RingBuffer.N ∧
    r.m_head % kPacketLengthMax = 0 ∧ r.m_head < RingBuffer.N ∧
    r.m_tail < RingBuffer.N ∧
    r.m_count % kPacketLengthMax = 0 ∧ r.m_count ≤ RingBuffer.N ∧
    (r.m_tail + r.m_count) % RingBuffer.N = r.m_head

/-- Thirty-two whole 3-byte packets 08 01 02 (no button, dx 1, dy -2) followed by the first
byte 09 (left button down) of a further packet. -/
def overrunStream : List Nat :=
  (List.replicate 32 [0x08, 0x01, 0x02]).flatten ++ [0x09]

/-- The driver assembling 3-byte packets, right after `init`. -/
def threeByteDriver : ApplePS2SentelicFSP :=
  { ApplePS2SentelicFSP.init with _packetSize := 3 }

/-! ## The register helpers of the Linux reference driver (`sentelic.c`) -/

namespace Linux

/-- The three `PSMOUSE_CMD_*` commands the register helpers issue through `ps2_command`
and `__ps2_command`. -/
inductive PSMouseCmd
  | PSMOUSE_CMD_DISABLE
  | PSMOUSE_CMD_ENABLE
  | PSMOUSE_CMD_GETINFO
  deriving DecidableEq, Repr

open PSMouseCmd

/-- What a register helper does to the command mutex and on the bus, in program order. -/
inductive Op
  | mutex_lock
  | mutex_unlock
  | ps2_sendbyte (byte : Nat)
  | ps2_command (command : PSMouseCmd)
  deriving DecidableEq, Repr

/-- The label `out:` of `fsp_reg_read` and `fsp_page_reg_read`: the mutex is released and
the device is enabled again. -/
def readOut (t : List Op) (rc : Int) : List Op × Int :=
  (t ++ [Op.mutex_unlock, Op.ps2_command PSMOUSE_CMD_ENABLE], rc)

/-- The label `out:` of `fsp_reg_write` and `fsp_page_reg_write`: the mutex is released. -/
def writeOut (t : List Op) (rc : Int) : List Op × Int :=
  (t ++ [Op.mutex_unlock], rc)

/-- Embedding of `fsp_reg_read` of the Linux driver: the operations carried out, in order,
and the value `rc` returned. `bus t` tells whether the bus call issued after the
operations `t` succeeds (returns 0) or fails (returns a negative value); the value stored
through `reg_val` is not followed, and `psmouse_set_state` and `dev_dbg`, which touch
neither the bus nor the mutex, are left out. The argument of the `unsigned char` helpers
is `reg_addr` converted to `unsigned char`; the comparisons with `reg_addr` are on `int`. -/
def fsp_reg_read (bus : List Op → Bool) (reg_addr : Int) : List Op × Int :=
  let t := [Op.ps2_command PSMOUSE_CMD_DISABLE, Op.mutex_lock]
  if bus t = false then readOut (t ++ [Op.ps2_sendbyte 0xf3]) (-1)
  else
    let t := t ++ [Op.ps2_sendbyte 0xf3]
    let t := t ++ [Op.ps2_sendbyte 0x66]
    let t := t ++ [Op.ps2_sendbyte 0x88]
    if bus t = false then readOut (t ++ [Op.ps2_sendbyte 0xf3]) (-1)
    else
      let t := t ++ [Op.ps2_sendbyte 0xf3]
      let t :=
        if (fsp_test_invert_cmd (toU8 reg_addr) : Int) ≠ reg_addr then
          t ++ [Op.ps2_sendbyte 0x68]
        else if (fsp_test_swap_cmd (toU8 reg_addr) : Int) ≠ reg_addr then
          t ++ [Op.ps2_sendbyte 0xcc]
        else t ++ [Op.ps2_sendbyte 0x66]
      let addr : Nat :=
        if (fsp_test_invert_cmd (toU8 reg_addr) : Int) ≠ reg_addr then
          fsp_test_invert_cmd (toU8 reg_addr)
        else fsp_test_swap_cmd (toU8 reg_addr)
      let t := t ++ [Op.ps2_sendbyte addr]
      if bus t = false then readOut (t ++ [Op.ps2_command PSMOUSE_CMD_GETINFO]) (-1)
      else readOut (t ++ [Op.ps2_command PSMOUSE_CMD_GETINFO]) 0

/-- Embedding of `fsp_reg_write` of the Linux driver, in the same terms as
`Linux.fsp_reg_read`. A failure of the second `0xf3` leaves through `return -1`, not
through the label `out:`. -/
def fsp_reg_write (bus : List Op → Bool) (reg_addr reg_val : Int) : List Op × Int :=
  let t := [Op.mutex_lock]
  if bus t = false then writeOut (t ++ [Op.ps2_sendbyte 0xf3]) (-1)
  else
    let t := t ++ [Op.ps2_sendbyte 0xf3]
    let t :=
      if (fsp_test_invert_cmd (toU8 reg_addr) : Int) ≠ reg_addr then
        t ++ [Op.ps2_sendbyte 0x74]
      else if (fsp_test_swap_cmd (toU8 reg_addr) : Int) ≠ reg_addr then
        t ++ [Op.ps2_sendbyte 0x77]
      else t ++ [Op.ps2_sendbyte 0x55]
    let v : Nat :=
      if (fsp_test_invert_cmd (toU8 reg_addr) : Int) ≠ reg_addr then
        fsp_test_invert_cmd (toU8 reg_addr)
      else fsp_test_swap_cmd (toU8 reg_addr)
    let t := t ++ [Op.ps2_sendbyte v]
    if bus t = false then (t ++ [Op.ps2_sendbyte 0xf3], -1)
    else
      let t := t ++ [Op.ps2_sendbyte 0xf3]
      let t :=
        if (fsp_test_invert_cmd (toU8 reg_val) : Int) ≠ reg_val then
          t ++ [Op.ps2_sendbyte 0x47]
        else if (fsp_test_swap_cmd (toU8 reg_val) : Int) ≠ reg_val then
          t ++ [Op.ps2_sendbyte 0x44]
        else t ++ [Op.ps2_sendbyte 0x33]
      let v : Nat :=
        if (fsp_test_invert_cmd (toU8 reg_val) : Int) ≠ reg_val then
          fsp_test_invert_cmd (toU8 reg_val)
        else fsp_test_swap_cmd (toU8 reg_val)
      writeOut (t ++ [Op.ps2_sendbyte v]) 0

/-- Embedding of `fsp_page_reg_write` of the Linux driver, in the same terms. -/
def fsp_page_reg_write (bus : List Op → Bool) (reg_val : Int) : List Op × Int :=
  let t := [Op.mutex_lock]
  if bus t = false then writeOut (t ++ [Op.ps2_sendbyte 0xf3]) (-1)
  else
    let t := t ++ [Op.ps2_sendbyte 0xf3]
    let t := t ++ [Op.ps2_sendbyte 0x38]
    let t := t ++ [Op.ps2_sendbyte 0x88]
    if bus t = false then (t ++ [Op.ps2_sendbyte 0xf3], -1)
    else
      let t := t ++ [Op.ps2_sendbyte 0xf3]
      let t :=
        if (fsp_test_invert_cmd (toU8 reg_val) : Int) ≠ reg_val then
          t ++ [Op.ps2_sendbyte 0x47]
        else if (fsp_test_swap_cmd (toU8 reg_val) : Int) ≠ reg_val then
          t ++ [Op.ps2_sendbyte 0x44]
        else t ++ [Op.ps2_sendbyte 0x33]
      let v : Nat :=
        if (fsp_test_invert_cmd (toU8 reg_val) : Int) ≠ reg_val then
          fsp_test_invert_cmd (toU8 reg_val)
        else fsp_test_swap_cmd (toU8 reg_val)
      writeOut (t ++ [Op.ps2_sendbyte v]) 0

/-- Whether the command mutex, free at the start, is held after the operations `t`. -/
def mutexHeld (t : List Op) : Bool :=
  t.foldl (fun held op =>
    match op with
    | Op.mutex_lock => true
    | Op.mutex_unlock => false
    | _ => held) false

/-- Modelled from the spec: the byte each of the three commands puts on the wire (the
`PSMOUSE_CMD_*` codes are declared in the kernel header `psmouse.h`, which is not among
the sources): the standard "get info" bus command 0xE9 and, for the evaluation of sample
traces, the standard PS/2 bytes of disable, 0xF5, and enable, 0xF4. -/
def commandByte : PSMouseCmd → Nat
  | PSMOUSE_CMD_DISABLE => 0xF5
  | PSMOUSE_CMD_ENABLE => 0xF4
  | PSMOUSE_CMD_GETINFO => 0xE9

/-- The bytes the operations `t` transmit to the pad, in order, `cmd` giving the byte of
each command. -/
def wireBytes (cmd : PSMouseCmd → Nat) (t : List Op) : List Nat :=
  t.filterMap fun op =>
    match op with
    | Op.ps2_sendbyte b => some (b % 256)
    | Op.ps2_command c => some (cmd c)
    | _ => none

/-- The operations of `t` carried out while the mutex is held: those after the first
`mutex_lock` and before the `mutex_unlock` that follows it. -/
def underMutex (t : List Op) : List Op :=
  ((t.dropWhile fun op => op ≠ Op.mutex_lock).drop 1).takeWhile fun op => op ≠ Op.mutex_unlock

/-- A bus on which every call succeeds. -/
def reliable : List Op → Bool := fun _ => true

/-- A bus on which exactly the call issued after `n` operations fails. -/
def failsAfter (n : Nat) : List Op → Bool := fun t => t.length != n

end Linux

/-! ## Call sequences on the motion filter and on the driver -/

/-- A call of one of the two state-changing methods of `SimpleAverage2<int, 3>`. -/
inductive AverageCall
  | reset
  | filter (data : Int)
  deriving DecidableEq, Repr

/-- The filter after one method call. -/
def SimpleAverage2.call (a : SimpleAverage2) : AverageCall → SimpleAverage2
  | AverageCall.reset => a.reset
  | AverageCall.filter data => (a.filter 3 data).1

/-- The filter after the method calls `cs`, in order. -/
def SimpleAverage2.run (a : SimpleAverage2) (cs : List AverageCall) : SimpleAverage2 :=
  cs.foldl SimpleAverage2.call a

/-- The inputs of the `filter` calls of `cs` made since the last `reset` of `cs`. -/
def AverageCall.sinceReset (cs : List AverageCall) : List Int :=
  cs.foldl (fun acc c =>
    match c with
    | AverageCall.reset => []
    | AverageCall.filter data => acc ++ [data]) []

/-- An entry point of the driver together with what it reads: a packet handed to the
packet routine (with the three clock values), a tick of the momentum timer, or a message
from the keyboard driver. -/
inductive DriverCall
  | packet (packet : List Nat) (now_abs now_ns uptime : Nat)
  | timer (now_abs : Nat)
  | message (message : PS2Message) (pInfo : PS2KeyInfo)
  deriving DecidableEq, Repr

/-- The driver after one call, and the events the call hands out. -/
def ApplePS2SentelicFSP.call (s : ApplePS2SentelicFSP) :
    DriverCall → ApplePS2SentelicFSP × List Event
  | DriverCall.packet packet now_abs now_ns uptime =>
    dispatchRelativePointerEventWithPacket s packet s._packetSize now_abs now_ns uptime
  | DriverCall.timer now_abs => onScrollTimer s now_abs
  | DriverCall.message message pInfo => (receiveMessage s message pInfo, [])

/-- The driver after the calls `cs`, in order. -/
def ApplePS2SentelicFSP.run (s : ApplePS2SentelicFSP) (cs : List DriverCall) :
    ApplePS2SentelicFSP :=
  cs.foldl (fun st c => (st.call c).1) s

/-- The deltas of a scroll event (the three `short` parameters of
`dispatchScrollWheelEventX`); no delta for the other events. -/
def Event.scrollDeltas : Event → List Int
  | Event.scrollWheel deltaAxis1 deltaAxis2 deltaAxis3 _ => [deltaAxis1, deltaAxis2, deltaAxis3]
  | _ => []

/-- The deltas of the event fit: each is at most 8160 (= 255 * 32) in absolute value. -/
def Event.fits (e : Event) : Prop := ∀ d ∈ e.scrollDeltas, -8160 ≤ d ∧ d ≤ 8160

/-- The bounds that hold for the members of the smoother: the two history slots and the
tracked maximum are running deltas of bytes, the held delta is 0 and the fling delta is at
most 255 * 32 in absolute value. -/
def ScrollSmoother.Bounded (z : ScrollSmoother) : Prop :=
  (∃ h0 h1 : Int, z.history = [h0, h1] ∧ (-255 ≤ h0 ∧ h0 ≤ 255) ∧ (-255 ≤ h1 ∧ h1 ≤ 255)) ∧
    z.lastDelta = 0 ∧
    (-255 ≤ z.maxDelta ∧ z.maxDelta ≤ 255) ∧
    (-8160 ≤ z.stopDelta ∧ z.stopDelta ≤ 8160)

/-- The bounds that hold for the scroll members of the driver: the stored magnitude is a
byte and the smoother is within its bounds. -/
def ScrollBounded (s : ApplePS2SentelicFSP) : Prop :=
  (0 ≤ s._last_abs_z ∧ s._last_abs_z ≤ 255) ∧ s.z_avg.Bounded

/-! ## Lemmas on the register operations -/

theorem fsp_reg_read_log (device : ApplePS2MouseDevice) (log : List PS2Request) (reg : Int) :
    (fsp_reg_read device log reg).1 =
      log ++ [fsp_ps2_request 0xf3, fsp_ps2_request 0x66, fsp_ps2_request 0x88,
              fsp_ps2_request 0xf3, fsp_ps2_request (mangled_select 0xCC 0x68 0x66 reg),
              fsp_ps2_request (mangled_value reg), fsp_getinfo_request] := by
  simp [fsp_reg_read, fsp_ps2_command, submitRequestAndBlock, mangled_select, mangled_value]

theorem fsp_reg_write_log (device : ApplePS2MouseDevice) (log : List PS2Request)
    (reg val : Int) :
    fsp_reg_write device log reg val =
      log ++ [fsp_ps2_request 0xf3, fsp_ps2_request (mangled_select 0x77 0x74 0x55 reg),
              fsp_ps2_request (mangled_value reg),
              fsp_ps2_request 0xf3, fsp_ps2_request (mangled_select 0x44 0x47 0x33 val),
              fsp_ps2_request (mangled_value val)] := by
  simp [fsp_reg_write, fsp_ps2_command, submitRequestAndBlock, mangled_select, mangled_value]

theorem mouseBytes_cons_ps2 (cmd : Int) (l : List PS2Request) :
    mouseBytes (fsp_ps2_request cmd :: l) = toU8 cmd :: mouseBytes l := by
  simp [mouseBytes, fsp_ps2_request]

theorem mouseBytes_getinfo : mouseBytes [fsp_getinfo_request] = [kDP_GetMouseInformation] := by
  simp [mouseBytes, fsp_getinfo_request]

theorem readBytes_eq (device : ApplePS2MouseDevice) (log : List PS2Request) (reg : Int) :
    readBytes device log reg =
      [0xF3, 0x66, 0x88, 0xF3, toU8 (mangled_select 0xCC 0x68 0x66 reg),
       toU8 (mangled_value reg), kDP_GetMouseInformation] := by
  have h3 : toU8 0xf3 = 0xF3 := by decide
  have h6 : toU8 0x66 = 0x66 := by decide
  have h8 : toU8 0x88 = 0x88 := by decide
  simp only [readBytes, fsp_reg_read_log, List.drop_left, mouseBytes_cons_ps2,
    mouseBytes_getinfo, h3, h6, h8]

theorem writeBytes_eq (device : ApplePS2MouseDevice) (log : List PS2Request) (reg val : Int) :
    writeBytes device log reg val =
      [0xF3, toU8 (mangled_select 0x77 0x74 0x55 reg), toU8 (mangled_value reg),
       0xF3, toU8 (mangled_select 0x44 0x47 0x33 val), toU8 (mangled_value val)] := by
  have h3 : toU8 0xf3 = 0xF3 := by decide
  have hn : mouseBytes [] = [] := rfl
  simp only [writeBytes, fsp_reg_write_log, List.drop_left, mouseBytes_cons_ps2, h3, hn]

theorem toU8_mangled_value (v : Nat) (hv : v < 256) :
    toU8 (mangled_value (v : Int)) = Spec.wire v := by
  interval_cases v <;> decide

theorem toU8_mangled_select_read (v : Nat) (hv : v < 256) :
    toU8 (mangled_select 0xCC 0x68 0x66 (v : Int)) =
      Spec.selector Spec.Context.readAddress (Spec.transform v) := by
  interval_cases v <;> decide

theorem toU8_mangled_select_writeAddress (v : Nat) (hv : v < 256) :
    toU8 (mangled_select 0x77 0x74 0x55 (v : Int)) =
      Spec.selector Spec.Context.writeAddress (Spec.transform v) := by
  interval_cases v <;> decide

theorem toU8_mangled_select_writeValue (v : Nat) (hv : v < 256) :
    toU8 (mangled_select 0x44 0x47 0x33 (v : Int)) =
      Spec.selector Spec.Context.writeValue (Spec.transform v) := by
  interval_cases v <;> decide

/-! ## The register codec -/

/-- C1: for every byte `v` and each of the three transmit contexts the wire byte and
the selector sent are those of the three-way rule: complement and invert selector
(0x68 / 0x74 / 0x47) for the confirmation bytes, nibble swap and swap selector
(0xCC / 0x77 / 0x44) for the sample-rate bytes, the byte itself and the plain
selector (0x66 / 0x55 / 0x33) otherwise. -/
theorem C1_three_way_rule (device : ApplePS2MouseDevice) (log : List PS2Request)
    (v : Nat) (hv : v < 256) :
    readBytes device log v =
        [0xF3, 0x66, 0x88, 0xF3,
         Spec.selector Spec.Context.readAddress (Spec.transform v), Spec.wire v,
         kDP_GetMouseInformation] ∧
      (∀ x : Int, (writeBytes device log v x).take 3 =
        [0xF3, Spec.selector Spec.Context.writeAddress (Spec.transform v), Spec.wire v]) ∧
      (∀ a : Int, (writeBytes device log a v).drop 3 =
        [0xF3, Spec.selector Spec.Context.writeValue (Spec.transform v), Spec.wire v]) := by
  refine ⟨?_, ?_, ?_⟩
  · rw [readBytes_eq, toU8_mangled_value v hv, toU8_mangled_select_read v hv]
  · intro x
    rw [writeBytes_eq, toU8_mangled_value v hv, toU8_mangled_select_writeAddress v hv]
    rfl
  · intro a
    rw [writeBytes_eq, toU8_mangled_value v hv, toU8_mangled_select_writeValue v hv]
    rfl

/-- C1 at the address 0xE9 read from a quiet device: invert selector 0x68, wire byte 0x16. -/
theorem C1_three_way_rule_witness :
    readBytes quietDevice [] ((0xE9 : Nat) : Int) = [0xF3, 0x66, 0x88, 0xF3, 0x68, 0x16, 0xE9] :=
  (C1_three_way_rule quietDevice [] 0xE9 (by decide)).1

theorem decode_selector_wire (c : Spec.Context) (v : Nat) (hv : v < 256) :
    Spec.decode (Spec.selector c (Spec.transform v)) (Spec.wire v) = v := by
  interval_cases v <;> cases c <;> decide

/-- C2: round trip of the register mangling. In each of the three contexts, applying to
the transmitted wire byte the device-side inverse named by the transmitted selector
gives back `v`; and for the Linux helpers, a nibble swap undoes `fsp_test_swap_cmd`
and a complement undoes `fsp_test_invert_cmd` wherever these change their argument. -/
theorem C2_round_trip (device : ApplePS2MouseDevice) (log : List PS2Request)
    (v : Nat) (hv : v < 256) :
    Spec.decode ((readBytes device log v).getD 4 0) ((readBytes device log v).getD 5 0) = v ∧
      (∀ x : Int, Spec.decode ((writeBytes device log v x).getD 1 0)
        ((writeBytes device log v x).getD 2 0) = v) ∧
      (∀ a : Int, Spec.decode ((writeBytes device log a v).getD 4 0)
        ((writeBytes device log a v).getD 5 0) = v) ∧
      (Linux.fsp_test_swap_cmd v ≠ v → Spec.nibbleSwap (Linux.fsp_test_swap_cmd v) = v) ∧
      (Linux.fsp_test_invert_cmd v ≠ v →
        Spec.complement (Linux.fsp_test_invert_cmd v) = v) := by
  refine ⟨?_, ?_, ?_, ?_, ?_⟩
  · rw [readBytes_eq, toU8_mangled_value v hv, toU8_mangled_select_read v hv]
    exact decode_selector_wire _ v hv
  · intro x
    rw [writeBytes_eq, toU8_mangled_value v hv, toU8_mangled_select_writeAddress v hv]
    exact decode_selector_wire _ v hv
  · intro a
    rw [writeBytes_eq, toU8_mangled_value v hv, toU8_mangled_select_writeValue v hv]
    exact decode_selector_wire _ v hv
  · interval_cases v <;> decide
  · interval_cases v <;> decide

/-- C2 at the byte 200 (0xC8), which the swap helper turns into 0x8C. -/
theorem C2_round_trip_witness :
    Linux.fsp_test_swap_cmd 200 ≠ 200 ∧ Spec.nibbleSwap (Linux.fsp_test_swap_cmd 200) = 200 :=
  ⟨by decide, (C2_round_trip quietDevice [] 200 (by decide)).2.2.2.1 (by decide)⟩

theorem wire_not_reserved (v : Nat) (hv : v < 256) :
    Spec.wire v ∉ Spec.sampleRateSet ∧ Spec.wire v ∉ Spec.confirmationSet := by
  interval_cases v <;> decide

/-- C3: collision freedom. For every byte `v`, the wire byte transmitted for `v` as the
address of a read, as the address of a write or as the value of a write is in neither
reserved set; the same holds for the byte the Linux driver sends for `v`. -/
theorem C3_collision_free (device : ApplePS2MouseDevice) (log : List PS2Request)
    (v : Nat) (hv : v < 256) :
    ((readBytes device log v).getD 5 0 ∉ Spec.sampleRateSet ∧
        (readBytes device log v).getD 5 0 ∉ Spec.confirmationSet) ∧
      (∀ x : Int, (writeBytes device log v x).getD 2 0 ∉ Spec.sampleRateSet ∧
        (writeBytes device log v x).getD 2 0 ∉ Spec.confirmationSet) ∧
      (∀ a : Int, (writeBytes device log a v).getD 5 0 ∉ Spec.sampleRateSet ∧
        (writeBytes device log a v).getD 5 0 ∉ Spec.confirmationSet) ∧
      (Linux.mangled v ∉ Spec.sampleRateSet ∧ Linux.mangled v ∉ Spec.confirmationSet) := by
  refine ⟨?_, ?_, ?_, ?_⟩
  · rw [readBytes_eq, toU8_mangled_value v hv]
    exact wire_not_reserved v hv
  · intro x
    rw [writeBytes_eq, toU8_mangled_value v hv]
    exact wire_not_reserved v hv
  · intro a
    rw [writeBytes_eq, toU8_mangled_value v hv]
    exact wire_not_reserved v hv
  · interval_cases v <;> decide

/-- C3 at the byte 0xFF written as a register value: the wire byte is 0x00. -/
theorem C3_collision_free_witness :
    (writeBytes quietDevice [] 0x10 ((0xFF : Nat) : Int)).getD 5 0 ∉ Spec.sampleRateSet ∧
      (writeBytes quietDevice [] 0x10 ((0xFF : Nat) : Int)).getD 5 0 ∉ Spec.confirmationSet :=
  (C3_collision_free quietDevice [] 0xFF (by decide)).2.2.1 0x10

theorem reserved_lt (v : Nat) (hm : v ∈ Spec.sampleRateSet ++ Spec.confirmationSet) :
    v < 256 := by
  simp [Spec.sampleRateSet, Spec.confirmationSet] at hm
  omega

theorem reserved_changed (c : Spec.Context) (v : Nat)
    (hm : v ∈ Spec.sampleRateSet ++ Spec.confirmationSet) :
    Spec.selector c (Spec.transform v) ≠ Spec.selector c Spec.Transform.plain ∧
      Spec.wire v ≠ v := by
  simp [Spec.sampleRateSet, Spec.confirmationSet] at hm
  rcases hm with h | h | h | h | h | h | h | h | h | h | h <;> subst h <;> cases c <;> decide

/-- C4: for every reserved byte `v` (sample-rate set or confirmation set), used as the
address of a read, as the address of a write or as the value of a write, the selector
sent is not the plain selector of that context (0x66, 0x55, 0x33) and the wire byte
differs from `v`. -/
theorem C4_reserved_bytes_are_mangled (device : ApplePS2MouseDevice) (log : List PS2Request)
    (v : Nat) (hm : v ∈ Spec.sampleRateSet ++ Spec.confirmationSet) :
    ((readBytes device log v).getD 4 0 ≠ 0x66 ∧ (readBytes device log v).getD 5 0 ≠ v) ∧
      (∀ x : Int, (writeBytes device log v x).getD 1 0 ≠ 0x55 ∧
        (writeBytes device log v x).getD 2 0 ≠ v) ∧
      (∀ a : Int, (writeBytes device log a v).getD 4 0 ≠ 0x33 ∧
        (writeBytes device log a v).getD 5 0 ≠ v) := by
  have hv : v < 256 := reserved_lt v hm
  refine ⟨?_, ?_, ?_⟩
  · rw [readBytes_eq, toU8_mangled_value v hv, toU8_mangled_select_read v hv]
    exact reserved_changed Spec.Context.readAddress v hm
  · intro x
    rw [writeBytes_eq, toU8_mangled_value v hv, toU8_mangled_select_writeAddress v hv]
    exact reserved_changed Spec.Context.writeAddress v hm
  · intro a
    rw [writeBytes_eq, toU8_mangled_value v hv, toU8_mangled_select_writeValue v hv]
    exact reserved_changed Spec.Context.writeValue v hm

/-- C4 at the sample-rate byte 40 used as a read address. -/
theorem C4_reserved_bytes_are_mangled_witness :
    (readBytes quietDevice [] ((40 : Nat) : Int)).getD 4 0 ≠ 0x66 ∧
      (readBytes quietDevice [] ((40 : Nat) : Int)).getD 5 0 ≠ 40 :=
  (C4_reserved_bytes_are_mangled quietDevice [] 40 (by decide)).1

theorem fsp_ps2_request_eq (cmd : Int) : fsp_ps2_request cmd = sendByteRequest (toU8 cmd) := rfl

/-- C5: write sequence. For every address `a` and value `x`, `fsp_reg_write` submits
exactly six single-byte requests, in this order: 0xF3, the address selector, the mangled
address, 0xF3, the value selector, the mangled value; the address pair is the same
whatever the value, the device and the earlier traffic, and the value pair is the same
whatever the address, the device and the earlier traffic. -/
theorem C5_write_sequence (device : ApplePS2MouseDevice) (log : List PS2Request)
    (a x : Nat) (ha : a < 256) (hx : x < 256) :
    fsp_reg_write device log a x =
        log ++ [sendByteRequest 0xF3,
                sendByteRequest (Spec.selector Spec.Context.writeAddress (Spec.transform a)),
                sendByteRequest (Spec.wire a),
                sendByteRequest 0xF3,
                sendByteRequest (Spec.selector Spec.Context.writeValue (Spec.transform x)),
                sendByteRequest (Spec.wire x)] ∧
      (∀ (device' : ApplePS2MouseDevice) (log' : List PS2Request) (x' : Int),
        (writeBytes device' log' a x').take 3 = (writeBytes device log a x).take 3) ∧
      (∀ (device' : ApplePS2MouseDevice) (log' : List PS2Request) (a' : Int),
        (writeBytes device' log' a' x).drop 3 = (writeBytes device log a x).drop 3) := by
  refine ⟨?_, ?_, ?_⟩
  · rw [fsp_reg_write_log]
    simp only [fsp_ps2_request_eq, toU8_mangled_value a ha, toU8_mangled_value x hx,
      toU8_mangled_select_writeAddress a ha, toU8_mangled_select_writeValue x hx]
    rfl
  · intro device' log' x'
    rw [writeBytes_eq, writeBytes_eq]
    rfl
  · intro device' log' a'
    rw [writeBytes_eq, writeBytes_eq]
    rfl

/-- C5 at the address 0x10 and the value 200 on a quiet device. -/
theorem C5_write_sequence_witness :
    fsp_reg_write quietDevice [] ((0x10 : Nat) : Int) ((200 : Nat) : Int) =
      [] ++ [sendByteRequest 0xF3, sendByteRequest 0x55, sendByteRequest 0x10,
             sendByteRequest 0xF3, sendByteRequest 0x44, sendByteRequest 0x8C] :=
  (C5_write_sequence quietDevice [] 0x10 200 (by decide) (by decide)).1

theorem fsp_reg_read_result (device : ApplePS2MouseDevice) (log : List PS2Request) (reg : Int) :
    (fsp_reg_read device log reg).2 =
      if (device.complete (fsp_reg_read device log reg).1.dropLast fsp_getinfo_request).commandsCount
          = 4 then
        (device.complete (fsp_reg_read device log reg).1.dropLast fsp_getinfo_request).inOrOut 3
      else -1 := by
  have hd : (fsp_reg_read device log reg).1.dropLast =
      log ++ [fsp_ps2_request 0xf3, fsp_ps2_request 0x66, fsp_ps2_request 0x88,
              fsp_ps2_request 0xf3, fsp_ps2_request (mangled_select 0xCC 0x68 0x66 reg),
              fsp_ps2_request (mangled_value reg)] := by
    rw [fsp_reg_read_log]
    simp [List.dropLast_append_of_ne_nil]
  rw [hd]
  simp [fsp_reg_read, fsp_ps2_command, submitRequestAndBlock, mangled_select, mangled_value]

theorem inOrOut_range (request : PS2Request) (i : Nat) :
    0 ≤ request.inOrOut i ∧ request.inOrOut i < 256 := by
  unfold PS2Request.inOrOut
  omega

/-- C6: read sequence. For every address `a`, `fsp_reg_read` submits the single-byte
requests 0xF3, 0x66, 0x88, 0xF3, read selector, mangled address, in this order, and then
one request made of a Get-Mouse-Information command and three reply reads. If that last
request runs to its end, the result is the byte the device has put into its fourth step,
the third reply read (`commands[3].inOrOut`, a `UInt8`), a value in 0..255; otherwise the
result is -1, which is no such value. -/
theorem C6_read_sequence (device : ApplePS2MouseDevice) (log : List PS2Request)
    (a : Nat) (ha : a < 256) :
    (fsp_reg_read device log a).1 =
        log ++ [sendByteRequest 0xF3, sendByteRequest 0x66, sendByteRequest 0x88,
                sendByteRequest 0xF3,
                sendByteRequest (Spec.selector Spec.Context.readAddress (Spec.transform a)),
                sendByteRequest (Spec.wire a),
                ⟨4, [⟨kPS2C_SendMouseCommandAndCompareAck, kDP_GetMouseInformation⟩,
                     ⟨kPS2C_ReadDataPort, 0⟩, ⟨kPS2C_ReadDataPort, 0⟩,
                     ⟨kPS2C_ReadDataPort, 0⟩]⟩] ∧
      (((device.complete (fsp_reg_read device log a).1.dropLast fsp_getinfo_request).commandsCount
            = 4 →
          (fsp_reg_read device log a).2 =
              ((((device.complete (fsp_reg_read device log a).1.dropLast
                fsp_getinfo_request).commands.getD 3 ⟨kPS2C_ReadDataPort, 0⟩).inOrOut % 256 :
                  Nat) : Int) ∧
          (∀ reply : PS2Command,
            (device.complete (fsp_reg_read device log a).1.dropLast
              fsp_getinfo_request).commands[3]? = some reply →
            (fsp_reg_read device log a).2 = ((reply.inOrOut % 256 : Nat) : Int)) ∧
            0 ≤ (fsp_reg_read device log a).2 ∧ (fsp_reg_read device log a).2 < 256 ∧
            (fsp_reg_read device log a).2 ≠ -1) ∧
        ((device.complete (fsp_reg_read device log a).1.dropLast fsp_getinfo_request).commandsCount
            ≠ 4 →
          (fsp_reg_read device log a).2 = -1)) := by
  refine ⟨?_, ?_, ?_⟩
  · rw [fsp_reg_read_log]
    simp only [fsp_ps2_request_eq, toU8_mangled_value a ha, toU8_mangled_select_read a ha]
    rfl
  · intro h
    rw [fsp_reg_read_result, if_pos h]
    have hr := inOrOut_range
      (device.complete (fsp_reg_read device log a).1.dropLast fsp_getinfo_request) 3
    refine ⟨rfl, ?_, hr.1, hr.2, by omega⟩
    intro reply hreply
    unfold PS2Request.inOrOut
    rw [List.getD_eq_getElem?_getD, hreply]
    rfl
  · intro h
    rw [fsp_reg_read_result, if_neg h]

/-- C6 at the address 0x10: the requests submitted, the result 0x5A = 90 on a device that
replies 0x12, 0x34, 0x5A, and the result -1 on a device that does not acknowledge the
Get-Mouse-Information command. -/
theorem C6_read_sequence_witness :
    (0x10 : Nat) < 256 ∧
      (fsp_reg_read replyingDevice [] ((0x10 : Nat) : Int)).1 =
        [] ++ [sendByteRequest 0xF3, sendByteRequest 0x66, sendByteRequest 0x88,
               sendByteRequest 0xF3, sendByteRequest 0x66, sendByteRequest 0x10,
               ⟨4, [⟨kPS2C_SendMouseCommandAndCompareAck, kDP_GetMouseInformation⟩,
                    ⟨kPS2C_ReadDataPort, 0⟩, ⟨kPS2C_ReadDataPort, 0⟩,
                    ⟨kPS2C_ReadDataPort, 0⟩]⟩] ∧
      (replyingDevice.complete (fsp_reg_read replyingDevice [] ((0x10 : Nat) : Int)).1.dropLast
          fsp_getinfo_request).commandsCount = 4 ∧
      (replyingDevice.complete (fsp_reg_read replyingDevice [] ((0x10 : Nat) : Int)).1.dropLast
          fsp_getinfo_request).commands[3]? = some ⟨kPS2C_ReadDataPort, 0x5A⟩ ∧
      (fsp_reg_read replyingDevice [] ((0x10 : Nat) : Int)).2 = 90 ∧
      (noInfoDevice.complete (fsp_reg_read noInfoDevice [] ((0x10 : Nat) : Int)).1.dropLast
          fsp_getinfo_request).commandsCount ≠ 4 ∧
      (fsp_reg_read noInfoDevice [] ((0x10 : Nat) : Int)).2 = -1 :=
  ⟨by decide,
   (C6_read_sequence replyingDevice [] 0x10 (by decide)).1,
   by decide, by decide,
   ((C6_read_sequence replyingDevice [] 0x10 (by decide)).2.1 (by decide)).2.1
     ⟨kPS2C_ReadDataPort, 0x5A⟩ (by decide),
   by decide,
   (C6_read_sequence noInfoDevice [] 0x10 (by decide)).2.2 (by decide)⟩

/-- C7 (as stated) fails: on a device that gives a short reply to the second byte of the
sequence, that send step fails (`fsp_ps2_command` yields -1), yet `fsp_reg_write` and
`fsp_reg_read` go on to transmit every later byte, and `fsp_reg_read` hands its caller
the value 0 instead of the failure value -1. -/
theorem C7_abort_on_failure_counterexample :
    (fsp_ps2_command shortReplyDevice [sendByteRequest 0xF3] 0x55).2 = -1 ∧
      writeBytes shortReplyDevice [] 0x10 0x20 = [0xF3, 0x55, 0x10, 0xF3, 0x33, 0x20] ∧
      (fsp_ps2_command shortReplyDevice [sendByteRequest 0xF3] 0x66).2 = -1 ∧
      readBytes shortReplyDevice [] 0x10 = [0xF3, 0x66, 0x88, 0xF3, 0x66, 0x10, 0xE9] ∧
      (fsp_reg_read shortReplyDevice [] 0x10).2 = 0 := by
  decide

/-- C7 (amended): a failed reply to a byte other than the command byte 0xF3 does not
abort a register operation. Provided the 0xF3 steps run to their end, `fsp_reg_read`
transmits its whole sequence and `fsp_reg_write` its six bytes whatever replies the
other bytes get, and `fsp_reg_read` reports failure (-1) exactly when its final
Get-Mouse-Information request does not run to its end. -/
theorem C7_data_byte_failure_does_not_abort (device : ApplePS2MouseDevice)
    (log : List PS2Request) (a x : Nat) (ha : a < 256) (hx : x < 256)
    (hr : f3Complete device log.length (fsp_reg_read device log a).1)
    (hw : f3Complete device log.length (fsp_reg_write device log a x)) :
    readBytes device log a =
        [0xF3, 0x66, 0x88, 0xF3,
         Spec.selector Spec.Context.readAddress (Spec.transform a), Spec.wire a,
         kDP_GetMouseInformation] ∧
      writeBytes device log a x =
        [0xF3, Spec.selector Spec.Context.writeAddress (Spec.transform a), Spec.wire a,
         0xF3, Spec.selector Spec.Context.writeValue (Spec.transform x), Spec.wire x] ∧
      ((fsp_reg_read device log a).2 = -1 ↔
        (device.complete (fsp_reg_read device log a).1.dropLast
          fsp_getinfo_request).commandsCount ≠ 4) := by
  refine ⟨?_, ?_, ?_⟩
  · rw [readBytes_eq, toU8_mangled_value a ha, toU8_mangled_select_read a ha]
  · rw [writeBytes_eq, toU8_mangled_value a ha, toU8_mangled_value x hx,
      toU8_mangled_select_writeAddress a ha, toU8_mangled_select_writeValue x hx]
  · constructor
    · intro h hc
      rw [fsp_reg_read_result, if_pos hc] at h
      have := (inOrOut_range
        (device.complete (fsp_reg_read device log a).1.dropLast fsp_getinfo_request) 3).1
      omega
    · intro h
      rw [fsp_reg_read_result, if_neg h]

/-- C7 (amended) on the device that gives a short reply to the selector byte: both 0xF3
steps run to their end, and the write of 0x20 to register 0x10 transmits all six bytes. -/
theorem C7_data_byte_failure_does_not_abort_witness :
    f3Complete shortReplyDevice 0 (fsp_reg_read shortReplyDevice [] ((0x10 : Nat) : Int)).1 ∧
      f3Complete shortReplyDevice 0
        (fsp_reg_write shortReplyDevice [] ((0x10 : Nat) : Int) ((0x20 : Nat) : Int)) ∧
      writeBytes shortReplyDevice [] ((0x10 : Nat) : Int) ((0x20 : Nat) : Int) =
        [0xF3, 0x55, 0x10, 0xF3, 0x33, 0x20] :=
  ⟨by decide, by decide,
   (C7_data_byte_failure_does_not_abort shortReplyDevice [] 0x10 0x20 (by decide) (by decide)
      (by decide) (by decide)).2.1⟩

/-- C8 fails on the code: when the Get-Mouse-Information request of the register read
does not run to its end, `fsp_reg_read` returns -1, and `fsp_write_enable` and
`fsp_opctag_enable` nevertheless go on to write the register, sending the value byte
0xFF (the low byte of -1) with the plain selector 0x33. -/
theorem C8_write_after_failed_read :
    (fsp_reg_read noInfoDevice [] FSP_REG_SYSCTL1).2 = -1 ∧
      mouseBytes (fsp_write_enable noInfoDevice [] 1) =
        [0xF3, 0x66, 0x88, 0xF3, 0x66, 0x10, 0xE9, 0xF3, 0x55, 0x10, 0xF3, 0x33, 0xFF] ∧
      mouseBytes (fsp_write_enable noInfoDevice [] 0) =
        [0xF3, 0x66, 0x88, 0xF3, 0x66, 0x10, 0xE9, 0xF3, 0x55, 0x10, 0xF3, 0x33, 0xDF] ∧
      (mouseBytes (fsp_opctag_enable noInfoDevice [] 1)).drop 13 =
        [0xF3, 0x66, 0x88, 0xF3, 0x66, 0x31, 0xE9, 0xF3, 0x55, 0x31, 0xF3, 0x33, 0xFF,
         0xF3, 0x66, 0x88, 0xF3, 0x66, 0x10, 0xE9, 0xF3, 0x55, 0x10, 0xF3, 0x33, 0xDF] := by
  decide

/-! ## Packet decoding -/

theorem toU32_natCast (n : Nat) (h : n < 4294967296) : toU32 (n : Int) = n := by
  unfold toU32
  omega

theorem toS32_natCast (n : Nat) (h : n < 2147483648) : toS32 n = (n : Int) := by
  unfold toS32
  have : n % 4294967296 = n := Nat.mod_eq_of_lt (by omega)
  rw [this, if_pos h]

theorem int_shr_natCast (n k : Nat) : int_shr (n : Int) k = ((n >>> k : Nat) : Int) := by
  unfold int_shr
  rfl

theorem pkt_lt (packet : List Nat) (i : Nat) : pkt packet i < 256 := by
  unfold pkt
  omega

theorem int_and_three (lo : Nat) (hlo : lo < 256) :
    int_and (lo : Int) 0x03 = ((lo % 4 : Nat) : Int) := by
  have h3 : toU32 (0x03 : Int) = 3 := by decide
  have hm : lo &&& 3 = lo % 4 := Nat.and_pow_two_sub_one_eq_mod lo 2
  unfold int_and
  rw [h3, toU32_natCast lo (by omega), hm, toS32_natCast _ (by omega)]

theorem int_shl_two (hi : Nat) (hhi : hi < 256) :
    int_shl (hi : Int) 2 = ((4 * hi : Nat) : Int) := by
  unfold int_shl
  rw [toU32_natCast hi (by omega), Nat.shiftLeft_eq, toS32_natCast _ (by omega)]
  congr 1
  omega

theorem abs_coordinate (hi lo : Nat) (hhi : hi < 256) (hlo : lo < 256) :
    int_or (int_shl (hi : Int) 2) (int_and (lo : Int) 0x03) = ((4 * hi + lo % 4 : Nat) : Int) := by
  have hor : 4 * hi ||| lo % 4 = 4 * hi + lo % 4 :=
    (Nat.mul_add_lt_is_or (show lo % 4 < 2 ^ 2 by omega) hi).symm
  rw [int_shl_two hi hhi, int_and_three lo hlo]
  unfold int_or
  rw [toU32_natCast _ (by omega), toU32_natCast _ (by omega), hor, toS32_natCast _ (by omega)]

/-- C9: for every Absolute packet (`byte0 >> 6 = 1`) the decoded coordinates are
`abs_x = 4*byte1 + ((byte3 >> 2) & 3)` and `abs_y = 4*byte2 + (byte3 & 3)`; both lie in
0..1023, `abs_x >> 2 = byte1` and `abs_y >> 2 = byte2`. These are the coordinates the
dispatch routine works with: on first contact (no session, outside both time windows,
stored previous coordinates (0,0)) it stores exactly them. -/
theorem C9_absolute_coordinates (packet : List Nat)
    (ht : pkt packet 0 >>> FSP_PKT_TYPE_SHIFT = FSP_PKT_TYPE_ABS) :
    (fsp_abs_decode packet).abs_x =
        ((4 * pkt packet 1 + ((pkt packet 3 >>> 2) &&& 3) : Nat) : Int) ∧
      (fsp_abs_decode packet).abs_y = ((4 * pkt packet 2 + (pkt packet 3 &&& 3) : Nat) : Int) ∧
      (0 ≤ (fsp_abs_decode packet).abs_x ∧ (fsp_abs_decode packet).abs_x ≤ 1023) ∧
      (0 ≤ (fsp_abs_decode packet).abs_y ∧ (fsp_abs_decode packet).abs_y ≤ 1023) ∧
      int_shr (fsp_abs_decode packet).abs_x 2 = (pkt packet 1 : Int) ∧
      int_shr (fsp_abs_decode packet).abs_y 2 = (pkt packet 2 : Int) ∧
      (∀ (s : ApplePS2SentelicFSP) (packetSize now_abs now_ns uptime : Nat),
        ¬ u64_sub now_ns s.keytime < s.maxaftertyping → s._isInGesture = false →
        ¬ u64_sub now_ns s.gestureStopTime < s.scrolllockTime →
        s._last_abs_x = 0 → s._last_abs_y = 0 →
        (dispatchRelativePointerEventWithPacket s packet packetSize now_abs now_ns
            uptime).1._last_abs_x = (fsp_abs_decode packet).abs_x ∧
          (dispatchRelativePointerEventWithPacket s packet packetSize now_abs now_ns
            uptime).1._last_abs_y = (fsp_abs_decode packet).abs_y) := by
  have h1 := pkt_lt packet 1
  have h2 := pkt_lt packet 2
  have h3 := pkt_lt packet 3
  have hs : pkt packet 3 >>> 2 < 256 := by
    rw [Nat.shiftRight_eq_div_pow]
    omega
  have hx : (fsp_abs_decode packet).abs_x =
      ((4 * pkt packet 1 + (pkt packet 3 >>> 2) % 4 : Nat) : Int) := by
    show int_or (int_shl (pkt packet 1 : Int) 2) (int_and (int_shr (pkt packet 3 : Int) 2) 0x03) = _
    rw [int_shr_natCast, abs_coordinate _ _ h1 hs]
  have hy : (fsp_abs_decode packet).abs_y =
      ((4 * pkt packet 2 + pkt packet 3 % 4 : Nat) : Int) :=
    abs_coordinate _ _ h2 h3
  have ex : (pkt packet 3 >>> 2) &&& 3 = (pkt packet 3 >>> 2) % 4 :=
    Nat.and_pow_two_sub_one_eq_mod _ 2
  have ey : pkt packet 3 &&& 3 = pkt packet 3 % 4 := Nat.and_pow_two_sub_one_eq_mod _ 2
  have hn : ¬ pkt packet 0 >>> FSP_PKT_TYPE_SHIFT = FSP_PKT_TYPE_NOTIFY := by
    rw [ht]
    decide
  refine ⟨?_, ?_, ⟨?_, ?_⟩, ⟨?_, ?_⟩, ?_, ?_, ?_⟩
  · rw [ex, hx]
  · rw [ey, hy]
  · rw [hx]; omega
  · rw [hx]; omega
  · rw [hy]; omega
  · rw [hy]; omega
  · rw [hx, int_shr_natCast, Nat.shiftRight_eq_div_pow]; omega
  · rw [hy, int_shr_natCast, Nat.shiftRight_eq_div_pow]; omega
  · intro s packetSize now_abs now_ns uptime hk hg hl hlx hly
    simp only [dispatchRelativePointerEventWithPacket, if_neg hk, if_neg hn, if_pos ht, hg,
      if_neg hl]
    by_cases hz : (fsp_abs_decode packet).abs_y = 0 ∧ (fsp_abs_decode packet).abs_x = 0
    · simp [hz]
    · simp [hz, hlx, hly]

/-- C9 at the Absolute packet 0x48 0xFF 0x01 0xF7. -/
theorem C9_absolute_coordinates_witness :
    pkt [0x48, 0xFF, 0x01, 0xF7] 0 >>> FSP_PKT_TYPE_SHIFT = FSP_PKT_TYPE_ABS ∧
      (fsp_abs_decode [0x48, 0xFF, 0x01, 0xF7]).abs_x = 1021 ∧
      (fsp_abs_decode [0x48, 0xFF, 0x01, 0xF7]).abs_y = 7 :=
  ⟨by decide, (C9_absolute_coordinates [0x48, 0xFF, 0x01, 0xF7] (by decide)).1,
   (C9_absolute_coordinates [0x48, 0xFF, 0x01, 0xF7] (by decide)).2.1⟩

theorem and_mask_ne_zero_iff_testBit (b k : Nat) (hb : b < 256) (hk : k < 8) :
    (b &&& 2 ^ k) ≠ 0 ↔ b.testBit k = true := by
  interval_cases k <;> interval_cases b <;> decide

theorem sign_extend (c : Prop) [Decidable c] (b : Nat) (hb : b < 256) :
    toS32 ((if c then 0xffffff00 else 0) ||| b) = if c then (b : Int) - 256 else (b : Int) := by
  by_cases h : c
  · simp only [if_pos h]
    interval_cases b <;> decide
  · simp only [if_neg h, Nat.zero_or]
    exact toS32_natCast b (by omega)

theorem neg_sign_extend (c : Prop) [Decidable c] (b : Nat) (hb : b < 256) :
    toS32 (u32_neg ((if c then 0xffffff00 else 0) ||| b)) =
      -(if c then (b : Int) - 256 else (b : Int)) := by
  by_cases h : c
  · simp only [if_pos h]
    interval_cases b <;> decide
  · simp only [if_neg h, Nat.zero_or]
    interval_cases b <;> decide

/-- C10: for every Normal or Normal-with-OnPad-click packet (`byte0 >> 6` is 0 or 3)
dispatched outside the typing-suppression window, exactly one pointer event is emitted;
its dx is `byte1 - 256` if bit 4 of byte0 is set and `byte1` otherwise, its dy is the
negation of (`byte2 - 256` if bit 5 of byte0 is set, `byte2` otherwise); hence
`-256 ≤ dx ≤ 255` and `-255 ≤ dy ≤ 256`. Inside the window nothing is emitted. -/
theorem C10_normal_packet_deltas (s : ApplePS2SentelicFSP) (packet : List Nat)
    (packetSize now_abs now_ns uptime : Nat)
    (ht : pkt packet 0 >>> FSP_PKT_TYPE_SHIFT = FSP_PKT_TYPE_NORMAL ∨
      pkt packet 0 >>> FSP_PKT_TYPE_SHIFT = FSP_PKT_TYPE_NORMAL_OPC) :
    (∃ buttons : Nat,
      (dispatchRelativePointerEventWithPacket s packet packetSize now_abs now_ns uptime).2 =
        if u64_sub now_ns s.keytime < s.maxaftertyping then []
        else [Event.relativePointer
          (if (pkt packet 0).testBit 4 then (pkt packet 1 : Int) - 256 else (pkt packet 1 : Int))
          (-(if (pkt packet 0).testBit 5 then (pkt packet 2 : Int) - 256
             else (pkt packet 2 : Int)))
          buttons now_abs]) ∧
      (-256 ≤ (if (pkt packet 0).testBit 4 then (pkt packet 1 : Int) - 256
          else (pkt packet 1 : Int)) ∧
        (if (pkt packet 0).testBit 4 then (pkt packet 1 : Int) - 256
          else (pkt packet 1 : Int)) ≤ 255) ∧
      (-255 ≤ -(if (pkt packet 0).testBit 5 then (pkt packet 2 : Int) - 256
          else (pkt packet 2 : Int)) ∧
        -(if (pkt packet 0).testBit 5 then (pkt packet 2 : Int) - 256
          else (pkt packet 2 : Int)) ≤ 256) := by
  have h0 := pkt_lt packet 0
  have h1 := pkt_lt packet 1
  have h2 := pkt_lt packet 2
  have hn : ¬ pkt packet 0 >>> FSP_PKT_TYPE_SHIFT = FSP_PKT_TYPE_NOTIFY := by
    rcases ht with h | h <;> rw [h] <;> decide
  have ha : ¬ pkt packet 0 >>> FSP_PKT_TYPE_SHIFT = FSP_PKT_TYPE_ABS := by
    rcases ht with h | h <;> rw [h] <;> decide
  have e4 : ((pkt packet 0 &&& 0x10) ≠ 0) ↔ (pkt packet 0).testBit 4 = true :=
    and_mask_ne_zero_iff_testBit _ 4 h0 (by decide)
  have e5 : ((pkt packet 0 &&& 0x20) ≠ 0) ↔ (pkt packet 0).testBit 5 = true :=
    and_mask_ne_zero_iff_testBit _ 5 h0 (by decide)
  refine ⟨?_, ?_, ?_⟩
  · by_cases hk : u64_sub now_ns s.keytime < s.maxaftertyping
    · exact ⟨0, by simp only [dispatchRelativePointerEventWithPacket, if_pos hk]⟩
    · simp only [dispatchRelativePointerEventWithPacket, if_neg hk, if_neg hn, if_neg ha,
        sign_extend _ _ h1, neg_sign_extend _ _ h2]
      simp only [e4, e5]
      exact ⟨_, rfl⟩
  · split_ifs <;> omega
  · split_ifs <;> omega

/-- C10 at the Normal packet 0x38 0x05 0xFE dispatched from the initial state one second
after start: dx = 5 - 256 and dy = -(0xFE - 256). -/
theorem C10_normal_packet_deltas_witness :
    (pkt [0x38, 0x05, 0xFE, 0] 0 >>> FSP_PKT_TYPE_SHIFT = FSP_PKT_TYPE_NORMAL ∨
        pkt [0x38, 0x05, 0xFE, 0] 0 >>> FSP_PKT_TYPE_SHIFT = FSP_PKT_TYPE_NORMAL_OPC) ∧
      ∃ buttons : Nat,
        (dispatchRelativePointerEventWithPacket ApplePS2SentelicFSP.init [0x38, 0x05, 0xFE, 0] 4
            1000000000 1000000000 1000000000).2 =
          if u64_sub 1000000000 ApplePS2SentelicFSP.init.keytime <
              ApplePS2SentelicFSP.init.maxaftertyping then []
          else [Event.relativePointer
            (if (pkt [0x38, 0x05, 0xFE, 0] 0).testBit 4
              then (pkt [0x38, 0x05, 0xFE, 0] 1 : Int) - 256
              else (pkt [0x38, 0x05, 0xFE, 0] 1 : Int))
            (-(if (pkt [0x38, 0x05, 0xFE, 0] 0).testBit 5
              then (pkt [0x38, 0x05, 0xFE, 0] 2 : Int) - 256
              else (pkt [0x38, 0x05, 0xFE, 0] 2 : Int)))
            buttons 1000000000] :=
  ⟨by decide,
   (C10_normal_packet_deltas ApplePS2SentelicFSP.init [0x38, 0x05, 0xFE, 0] 4 1000000000
      1000000000 1000000000 (by decide)).1⟩

/-! ## Normal packets, flags and the typing window -/

theorem button_mask (b : Nat) (hb : b < 256) :
    (((if (b &&& 0x1) ≠ 0 then 0x1 else 0) ||| (if (b &&& 0x2) ≠ 0 then 0x2 else 0)) |||
      (if (b &&& 0x4) ≠ 0 then 0x4 else 0)) = b &&& 7 := by
  interval_cases b <;> decide

/-- C11: outside the typing-suppression window, a Normal or Normal-with-OnPad-click packet
emits exactly one relative pointer event and leaves the whole driver state as it was. The
button mask of the event is `byte0 & 7` when the packet type is Normal or when clicking
is enabled (`_touchPadModeByte` = gestures enabled); for a Normal-with-OnPad-click packet
while clicking is disabled the mask is 0. -/
theorem C11_normal_packet_event (s : ApplePS2SentelicFSP) (packet : List Nat)
    (packetSize now_abs now_ns uptime : Nat)
    (ht : pkt packet 0 >>> FSP_PKT_TYPE_SHIFT = FSP_PKT_TYPE_NORMAL ∨
      pkt packet 0 >>> FSP_PKT_TYPE_SHIFT = FSP_PKT_TYPE_NORMAL_OPC)
    (hk : ¬ u64_sub now_ns s.keytime < s.maxaftertyping) :
    ∃ dx dy : Int,
      dispatchRelativePointerEventWithPacket s packet packetSize now_abs now_ns uptime =
        (s, [Event.relativePointer dx dy
          (if s._touchPadModeByte = kModeByteValueGesturesEnabled ∨
              pkt packet 0 >>> FSP_PKT_TYPE_SHIFT = FSP_PKT_TYPE_NORMAL
            then pkt packet 0 &&& 7 else 0)
          now_abs]) := by
  have h0 := pkt_lt packet 0
  have hn : ¬ pkt packet 0 >>> FSP_PKT_TYPE_SHIFT = FSP_PKT_TYPE_NOTIFY := by
    rcases ht with h | h <;> rw [h] <;> decide
  have ha : ¬ pkt packet 0 >>> FSP_PKT_TYPE_SHIFT = FSP_PKT_TYPE_ABS := by
    rcases ht with h | h <;> rw [h] <;> decide
  have hc : (pkt packet 0 >>> FSP_PKT_TYPE_SHIFT ≠ FSP_PKT_TYPE_NORMAL_OPC) ↔
      pkt packet 0 >>> FSP_PKT_TYPE_SHIFT = FSP_PKT_TYPE_NORMAL := by
    rcases ht with h | h <;> rw [h] <;> decide
  simp only [dispatchRelativePointerEventWithPacket, if_neg hk, if_neg hn, if_neg ha,
    button_mask _ h0, hc]
  exact ⟨_, _, rfl⟩

/-- C11 at the on-pad-click packet 0xC1 0x00 0x00 sent while clicking is disabled: the
event carries no button. -/
theorem C11_normal_packet_event_witness :
    (pkt [0xC1, 0, 0, 0] 0 >>> FSP_PKT_TYPE_SHIFT = FSP_PKT_TYPE_NORMAL ∨
        pkt [0xC1, 0, 0, 0] 0 >>> FSP_PKT_TYPE_SHIFT = FSP_PKT_TYPE_NORMAL_OPC) ∧
      ¬ u64_sub 1000000000
          ({ ApplePS2SentelicFSP.init with
              _touchPadModeByte := kModeByteValueGesturesDisabled }).keytime <
        ({ ApplePS2SentelicFSP.init with
              _touchPadModeByte := kModeByteValueGesturesDisabled }).maxaftertyping ∧
      ∃ dx dy : Int,
        dispatchRelativePointerEventWithPacket
            { ApplePS2SentelicFSP.init with _touchPadModeByte := kModeByteValueGesturesDisabled }
            [0xC1, 0, 0, 0] 4 1000000000 1000000000 1000000000 =
          ({ ApplePS2SentelicFSP.init with _touchPadModeByte := kModeByteValueGesturesDisabled },
           [Event.relativePointer dx dy
             (if ({ ApplePS2SentelicFSP.init with
                      _touchPadModeByte := kModeByteValueGesturesDisabled })._touchPadModeByte =
                    kModeByteValueGesturesEnabled ∨
                  pkt [0xC1, 0, 0, 0] 0 >>> FSP_PKT_TYPE_SHIFT = FSP_PKT_TYPE_NORMAL
               then pkt [0xC1, 0, 0, 0] 0 &&& 7 else 0)
             1000000000]) :=
  ⟨by decide, by decide,
   C11_normal_packet_event
     { ApplePS2SentelicFSP.init with _touchPadModeByte := kModeByteValueGesturesDisabled }
     [0xC1, 0, 0, 0] 4 1000000000 1000000000 1000000000 (by decide) (by decide)⟩

/-- C12 (as stated) fails: one second after start, the Normal packet 0x09 0x05 0xFE
dispatched from the initial state yields the single pointer event dx = 5, dy = -254,
left button; no event with dy = 2 is emitted. -/
theorem C12_normal_packet_example_counterexample :
    (dispatchRelativePointerEventWithPacket ApplePS2SentelicFSP.init [0x09, 0x05, 0xFE, 0] 4
        1000000000 1000000000 1000000000).2 = [Event.relativePointer 5 (-254) 1 1000000000] ∧
      Event.relativePointer 5 2 1 1000000000 ∉
        (dispatchRelativePointerEventWithPacket ApplePS2SentelicFSP.init [0x09, 0x05, 0xFE, 0] 4
          1000000000 1000000000 1000000000).2 := by
  decide

/-- C12 (amended): with no typing suppression in effect, dispatching the Normal packet
whose first three bytes are 0x09, 0x05, 0xFE emits exactly one pointer event, with dx = 5,
dy = -254 (byte2 = 254 with a clear sign bit, negated) and button mask = left button only,
and leaves the state as it was. -/
theorem C12_normal_packet_example (s : ApplePS2SentelicFSP) (b3 packetSize now_abs now_ns
    uptime : Nat) (hk : ¬ u64_sub now_ns s.keytime < s.maxaftertyping) :
    dispatchRelativePointerEventWithPacket s [0x09, 0x05, 0xFE, b3] packetSize now_abs now_ns
        uptime = (s, [Event.relativePointer 5 (-254) 1 now_abs]) := by
  have e0 : pkt [0x09, 0x05, 0xFE, b3] 0 = 0x09 := rfl
  have e1 : pkt [0x09, 0x05, 0xFE, b3] 1 = 0x05 := rfl
  have e2 : pkt [0x09, 0x05, 0xFE, b3] 2 = 0xFE := rfl
  have hn : ¬ 0x09 >>> FSP_PKT_TYPE_SHIFT = FSP_PKT_TYPE_NOTIFY := by decide
  have ha : ¬ 0x09 >>> FSP_PKT_TYPE_SHIFT = FSP_PKT_TYPE_ABS := by decide
  have hc : s._touchPadModeByte = kModeByteValueGesturesEnabled ∨
      0x09 >>> FSP_PKT_TYPE_SHIFT ≠ FSP_PKT_TYPE_NORMAL_OPC := Or.inr (by decide)
  have hx : toS32 ((if (0x09 &&& 0x10) ≠ 0 then 0xffffff00 else 0) ||| 0x05) = 5 := by decide
  have hy : toS32 (u32_neg ((if (0x09 &&& 0x20) ≠ 0 then 0xffffff00 else 0) ||| 0xFE)) = -254 := by
    decide
  have hb : (((if (0x09 &&& 0x1) ≠ 0 then 0x1 else 0) |||
      (if (0x09 &&& 0x2) ≠ 0 then 0x2 else 0)) ||| (if (0x09 &&& 0x4) ≠ 0 then 0x4 else 0)) = 1 := by
    decide
  simp only [dispatchRelativePointerEventWithPacket, if_neg hk, e0, e1, e2, if_neg hn, if_neg ha,
    if_pos hc, hx, hy, hb]

/-- C12 (amended) from the initial state, one second after start. -/
theorem C12_normal_packet_example_witness :
    ¬ u64_sub 1000000000 ApplePS2SentelicFSP.init.keytime <
        ApplePS2SentelicFSP.init.maxaftertyping ∧
      dispatchRelativePointerEventWithPacket ApplePS2SentelicFSP.init [0x09, 0x05, 0xFE, 0] 4
          1000000000 1000000000 1000000000 =
        (ApplePS2SentelicFSP.init, [Event.relativePointer 5 (-254) 1 1000000000]) :=
  ⟨by decide,
   C12_normal_packet_example ApplePS2SentelicFSP.init 0 4 1000000000 1000000000 1000000000
     (by decide)⟩

theorem mask_flag (b k : Nat) (hb : b < 256) (hk : k < 8) :
    (if (2 ^ k &&& b) ≠ 0 then (1 : Int) else 0) = if b.testBit k then 1 else 0 := by
  interval_cases k <;> interval_cases b <;> decide

/-- C13 (as stated) fails: in the Absolute packet with byte0 = 0x48, bit 3 of byte0 is set
but the decoded on-pad-click flag is 0. -/
theorem C13_onpad_flag_counterexample :
    pkt [0x48, 0, 0, 0] 0 >>> FSP_PKT_TYPE_SHIFT = FSP_PKT_TYPE_ABS ∧
      (pkt [0x48, 0, 0, 0] 0).testBit 3 = true ∧
      (fsp_abs_decode [0x48, 0, 0, 0]).opc = 0 := by
  decide

/-- C13 (amended): in the decoding of an Absolute packet, the flags left, right,
fingerIndex, onpadClick and coordMode equal bits 0, 1, 2, 4 and 5 of byte0 respectively
(the on-pad-click tag is bit 4, mask 0x10), and the flags 4th-button, 5th-button,
left-scroll and right-scroll equal bits 4, 5, 6 and 7 of byte3 respectively, for every
value of byte0 and byte3. -/
theorem C13_absolute_flags (packet : List Nat) :
    (fsp_abs_decode packet).lb = (if (pkt packet 0).testBit 0 then 1 else 0) ∧
      (fsp_abs_decode packet).rb = (if (pkt packet 0).testBit 1 then 1 else 0) ∧
      (fsp_abs_decode packet).fi = (if (pkt packet 0).testBit 2 then 1 else 0) ∧
      (fsp_abs_decode packet).opc = (if (pkt packet 0).testBit 4 then 1 else 0) ∧
      (fsp_abs_decode packet).cm = (if (pkt packet 0).testBit 5 then 1 else 0) ∧
      (fsp_abs_decode packet).b4 = (if (pkt packet 3).testBit 4 then 1 else 0) ∧
      (fsp_abs_decode packet).b5 = (if (pkt packet 3).testBit 5 then 1 else 0) ∧
      (fsp_abs_decode packet).sl = (if (pkt packet 3).testBit 6 then 1 else 0) ∧
      (fsp_abs_decode packet).sr = (if (pkt packet 3).testBit 7 then 1 else 0) := by
  have h0 := pkt_lt packet 0
  have h3 := pkt_lt packet 3
  exact ⟨mask_flag _ 0 h0 (by decide), mask_flag _ 1 h0 (by decide),
    mask_flag _ 2 h0 (by decide), mask_flag _ 4 h0 (by decide), mask_flag _ 5 h0 (by decide),
    mask_flag _ 4 h3 (by decide), mask_flag _ 5 h3 (by decide), mask_flag _ 6 h3 (by decide),
    mask_flag _ 7 h3 (by decide)⟩

theorem u64_sub_of_le (a b : Nat) (ha : a < 18446744073709551616) (hb : b ≤ a) :
    u64_sub a b = a - b := by
  unfold u64_sub
  omega

/-- C20: typing suppression. For every packet and every driver state whose window is the
500,000,000 ns that `init` sets, if `0 ≤ now - keytime < 500,000,000` the dispatch routine
hands out nothing at all (no pointer, scroll or gesture event, no timer, no log line) and
returns the state unchanged. -/
theorem C20_typing_suppression (s : ApplePS2SentelicFSP) (packet : List Nat)
    (packetSize now_abs now_ns uptime : Nat)
    (hmax : s.maxaftertyping = 500000000) (hnow : now_ns < 18446744073709551616)
    (hle : s.keytime ≤ now_ns) (hlt : now_ns - s.keytime < 500000000) :
    dispatchRelativePointerEventWithPacket s packet packetSize now_abs now_ns uptime =
      (s, []) := by
  have hk : u64_sub now_ns s.keytime < s.maxaftertyping := by
    rw [u64_sub_of_le _ _ hnow hle, hmax]
    exact hlt
  simp only [dispatchRelativePointerEventWithPacket, if_pos hk]

/-- C20 for a gesture packet arriving 0.1 s after a key press at time 2 s. -/
theorem C20_typing_suppression_witness :
    ({ ApplePS2SentelicFSP.init with keytime := 2000000000 }).maxaftertyping = 500000000 ∧
      2100000000 < 18446744073709551616 ∧
      ({ ApplePS2SentelicFSP.init with keytime := 2000000000 }).keytime ≤ 2100000000 ∧
      2100000000 - ({ ApplePS2SentelicFSP.init with keytime := 2000000000 }).keytime
        < 500000000 ∧
      dispatchRelativePointerEventWithPacket
          { ApplePS2SentelicFSP.init with keytime := 2000000000 } [0x88, 0xba, 0x86, 7] 4
          2100000000 2100000000 2100000000 =
        ({ ApplePS2SentelicFSP.init with keytime := 2000000000 }, []) :=
  ⟨by decide, by decide, by decide, by decide,
   C20_typing_suppression { ApplePS2SentelicFSP.init with keytime := 2000000000 }
     [0x88, 0xba, 0x86, 7] 4 2100000000 2100000000 2100000000 (by decide) (by decide)
     (by decide) (by decide)⟩

/-! ## The motion filter -/

theorem wrap_of_inIntRange (v : Int) (h : inIntRange v) : toS32 (toU32 v) = v := by
  unfold inIntRange at h
  unfold toS32 toU32
  split_ifs <;> omega

theorem int_add_eq (a b : Int) (h : inIntRange (a + b)) : int_add a b = a + b :=
  wrap_of_inIntRange _ h

theorem int_sub_int_add (a b c : Int) : int_sub (int_add a b) c = toS32 (toU32 (a + b - c)) := by
  unfold int_sub int_add toS32 toU32
  split_ifs <;> omega

theorem SimpleAverage2.feed_append (N : Int) (a : SimpleAverage2) (xs : List Int) (x : Int) :
    SimpleAverage2.feed N a (xs ++ [x]) =
      (SimpleAverage2.filter N (SimpleAverage2.feed N a xs) x).1 := by
  induction xs generalizing a with
  | nil => rfl
  | cons y ys ih => exact ih _

theorem windowSum_one (p : Int) : Spec.windowSum 3 [p] = p := by
  simp [Spec.windowSum]

theorem windowSum_two (p q : Int) : Spec.windowSum 3 [p, q] = p + q := by
  simp [Spec.windowSum]

theorem windowSum_three (ys : List Int) (p q r : Int) :
    Spec.windowSum 3 (ys ++ [p, q, r]) = p + q + r := by
  simp [Spec.windowSum, add_assoc]

theorem windowMean_one (p : Int) : Spec.windowMean 3 [p] = Int.tdiv p 1 := by
  simp [Spec.windowMean, windowSum_one]

theorem windowMean_two (p q : Int) : Spec.windowMean 3 [p, q] = Int.tdiv (p + q) 2 := by
  simp [Spec.windowMean, windowSum_two]

theorem windowMean_three (ys : List Int) (p q r : Int) :
    Spec.windowMean 3 (ys ++ [p, q, r]) = Int.tdiv (p + q + r) 3 := by
  have hm : min 3 (ys ++ [p, q, r]).length = 3 := by
    simp
  rw [Spec.windowMean, windowSum_three, hm]
  rfl

theorem snoc_three (ys : List Int) (p q r x : Int) :
    ys ++ [p, q, r] ++ [x] = (ys ++ [p]) ++ [q, r, x] := by
  simp

theorem snoc_four (ys : List Int) (p q r x : Int) :
    ys ++ [p, q, r, x] = (ys ++ [p]) ++ [q, r, x] := by
  simp

theorem SimpleAverage2.holds_step (a : SimpleAverage2) (pre : List Int) (x : Int)
    (h : a.Holds pre) (hr : inIntRange (Spec.windowSum 3 (pre ++ [x]))) :
    (SimpleAverage2.filter 3 a x).1.Holds (pre ++ [x]) ∧
      (SimpleAverage2.filter 3 a x).2 = Spec.windowMean 3 (pre ++ [x]) := by
  have e01 : int_add 0 1 = 1 := by decide
  have e11 : int_add 1 1 = 2 := by decide
  have e21 : int_add 2 1 = 3 := by decide
  rcases h with ⟨b0, b1, b2, rfl, rfl⟩ | ⟨p, b1, b2, rfl, rfl⟩ | ⟨p, q, b2, rfl, rfl⟩ |
    ⟨ys, p, q, r, rfl, rfl | rfl | rfl⟩
  · have hx : int_add 0 x = x := by
      rw [int_add_eq 0 x (by simpa [windowSum_one] using hr)]; simp
    refine ⟨Or.inr (Or.inl ⟨x, b1, b2, rfl, ?_⟩), ?_⟩
    · simp [SimpleAverage2.filter, hx, e01]
    · simp [SimpleAverage2.filter, hx, e01, windowMean_one]
  · have hx : int_add p x = p + x :=
      int_add_eq p x (by simpa [windowSum_two] using hr)
    refine ⟨Or.inr (Or.inr (Or.inl ⟨p, x, b2, rfl, ?_⟩)), ?_⟩
    · simp [SimpleAverage2.filter, hx, e11]
    · simp [SimpleAverage2.filter, hx, e11]
      exact (windowMean_two p x).symm
  · have hr3 : inIntRange (p + q + x) := by
      have := windowSum_three [] p q x
      simp only [List.nil_append] at this
      simpa [this] using hr
    have hx : int_add (p + q) x = p + q + x := int_add_eq _ x hr3
    refine ⟨Or.inr (Or.inr (Or.inr ⟨[], p, q, x, rfl, Or.inl ?_⟩)), ?_⟩
    · simp [SimpleAverage2.filter, hx, e21]
    · simp [SimpleAverage2.filter, hx, e21]
      exact (windowMean_three [] p q x).symm
  · have hr3 : inIntRange (q + r + x) := by
      rw [snoc_three, windowSum_three] at hr
      exact hr
    have hx : int_sub (int_add (p + q + r) x) p = q + r + x := by
      rw [int_sub_int_add]
      have : p + q + r + x - p = q + r + x := by ring
      rw [this]
      exact wrap_of_inIntRange _ hr3
    refine ⟨Or.inr (Or.inr (Or.inr ⟨ys ++ [p], q, r, x, snoc_three ys p q r x,
      Or.inr (Or.inl ?_)⟩)), ?_⟩
    · simp [SimpleAverage2.filter, hx, e01]
    · simp [SimpleAverage2.filter, hx, e01]
      rw [snoc_four, windowMean_three]
  · have hr3 : inIntRange (q + r + x) := by
      rw [snoc_three, windowSum_three] at hr
      exact hr
    have hx : int_sub (int_add (p + q + r) x) p = q + r + x := by
      rw [int_sub_int_add]
      have : p + q + r + x - p = q + r + x := by ring
      rw [this]
      exact wrap_of_inIntRange _ hr3
    refine ⟨Or.inr (Or.inr (Or.inr ⟨ys ++ [p], q, r, x, snoc_three ys p q r x,
      Or.inr (Or.inr ?_)⟩)), ?_⟩
    · simp [SimpleAverage2.filter, hx, e11]
    · simp [SimpleAverage2.filter, hx, e11]
      rw [snoc_four, windowMean_three]
  · have hr3 : inIntRange (q + r + x) := by
      rw [snoc_three, windowSum_three] at hr
      exact hr
    have hx : int_sub (int_add (p + q + r) x) p = q + r + x := by
      rw [int_sub_int_add]
      have : p + q + r + x - p = q + r + x := by ring
      rw [this]
      exact wrap_of_inIntRange _ hr3
    refine ⟨Or.inr (Or.inr (Or.inr ⟨ys ++ [p], q, r, x, snoc_three ys p q r x,
      Or.inl ?_⟩)), ?_⟩
    · simp [SimpleAverage2.filter, hx, e21]
    · simp [SimpleAverage2.filter, hx, e21]
      rw [snoc_four, windowMean_three]

theorem SimpleAverage2.holds_reset (a : SimpleAverage2) (hbuf : a.m_buffer.length = 3) :
    a.reset.Holds [] := by
  obtain ⟨buf, c, sm, i⟩ := a
  match buf, hbuf with
  | [b0, b1, b2], _ => exact Or.inl ⟨b0, b1, b2, rfl, rfl⟩

theorem take_snoc_of_le (xs : List Int) (x : Int) (k : Nat) (hk : k ≤ xs.length) :
    (xs ++ [x]).take k = xs.take k :=
  List.take_append_of_le_length hk

theorem SimpleAverage2.holds_feed (a : SimpleAverage2) (hbuf : a.m_buffer.length = 3)
    (xs : List Int) (hr : ∀ k ≤ xs.length, inIntRange (Spec.windowSum 3 (xs.take k))) :
    (SimpleAverage2.feed 3 a.reset xs).Holds xs := by
  induction xs using List.reverseRecOn with
  | nil => exact SimpleAverage2.holds_reset a hbuf
  | append_singleton xs x ih =>
    rw [SimpleAverage2.feed_append]
    have hpre : ∀ k ≤ xs.length, inIntRange (Spec.windowSum 3 (xs.take k)) := by
      intro k hk
      have := hr k (by simp; omega)
      rwa [take_snoc_of_le xs x k hk] at this
    have hlast : inIntRange (Spec.windowSum 3 (xs ++ [x])) := by
      have := hr (xs ++ [x]).length le_rfl
      rwa [List.take_length] at this
    exact (SimpleAverage2.holds_step _ xs x (ih hpre) hlast).1

/-- C14: the motion filter returns the mean of the inputs it holds. For
`SimpleAverage2<int,3>`, after a reset (or construction) and the inputs `xs`, the call
`filter(x)`, call number `k = |xs| + 1`, returns the sum of the last `min(3,k)` inputs
divided by `min(3,k)`, truncating toward zero, provided the running sum stays within the
`int` range after every call; so it divides by 1 and 2 while the buffer is filling and
by 3 from the third input on. -/
theorem C14_filter_mean (a : SimpleAverage2) (hbuf : a.m_buffer.length = 3) (xs : List Int)
    (x : Int)
    (hr : ∀ k ≤ (xs ++ [x]).length, inIntRange (Spec.windowSum 3 ((xs ++ [x]).take k))) :
    (SimpleAverage2.filter 3 (SimpleAverage2.feed 3 a.reset xs) x).2 =
        Int.tdiv ((xs ++ [x]).drop ((xs ++ [x]).length - 3)).sum
          ((min 3 (xs ++ [x]).length : Nat) : Int) ∧
      (SimpleAverage2.filter 3 (SimpleAverage2.feed 3 a.reset xs) x).1.m_count =
        ((min 3 (xs ++ [x]).length : Nat) : Int) := by
  have hpre : ∀ k ≤ xs.length, inIntRange (Spec.windowSum 3 (xs.take k)) := by
    intro k hk
    have := hr k (by simp; omega)
    rwa [take_snoc_of_le xs x k hk] at this
  have hlast : inIntRange (Spec.windowSum 3 (xs ++ [x])) := by
    have := hr (xs ++ [x]).length le_rfl
    rwa [List.take_length] at this
  have hs := SimpleAverage2.holds_step _ xs x (SimpleAverage2.holds_feed a hbuf xs hpre) hlast
  refine ⟨hs.2, ?_⟩
  rcases hs.1 with ⟨_, _, _, h, e⟩ | ⟨_, _, _, h, e⟩ | ⟨_, _, _, h, e⟩ |
    ⟨_, _, _, _, h, e | e | e⟩ <;> rw [e, h] <;> simp

/-- C14 for the inputs 10, 20, 40, 70 fed to a filter reset from a used state: the fourth
call returns (20 + 40 + 70) / 3. -/
theorem C14_filter_mean_witness :
    (⟨[9, 9, 9], 2, 2, 2⟩ : SimpleAverage2).m_buffer.length = 3 ∧
      (∀ k ≤ ([10, 20, 40] ++ [70]).length,
        inIntRange (Spec.windowSum 3 (([10, 20, 40] ++ [70]).take k))) ∧
      (SimpleAverage2.filter 3
          (SimpleAverage2.feed 3 (SimpleAverage2.reset ⟨[9, 9, 9], 2, 2, 2⟩) [10, 20, 40]) 70).2 =
        Int.tdiv (([10, 20, 40] ++ [70]).drop (([10, 20, 40] ++ [70]).length - 3)).sum
          ((min 3 ([10, 20, 40] ++ [70]).length : Nat) : Int) :=
  ⟨by decide, by decide,
   (C14_filter_mean ⟨[9, 9, 9], 2, 2, 2⟩ (by decide) [10, 20, 40] 70 (by decide)).1⟩

theorem SimpleAverage2.agree_step (a b : SimpleAverage2) (x : Int) (h : a.Agree b) :
    (SimpleAverage2.filter 3 a x).2 = (SimpleAverage2.filter 3 b x).2 ∧
      (SimpleAverage2.filter 3 a x).1.Agree (SimpleAverage2.filter 3 b x).1 := by
  have e01 : int_add 0 1 = 1 := by decide
  have e11 : int_add 1 1 = 2 := by decide
  have e21 : int_add 2 1 = 3 := by decide
  rcases h with ⟨b0, b1, b2, c0, c1, c2, rfl, rfl⟩ | ⟨p, sm, b1, b2, c1, c2, rfl, rfl⟩ |
    ⟨p, q, sm, b2, c2, rfl, rfl⟩ | rfl
  · refine ⟨by simp [SimpleAverage2.filter], Or.inr (Or.inl ⟨x, int_add 0 x, b1, b2, c1, c2, ?_, ?_⟩)⟩
    · simp [SimpleAverage2.filter, e01]
    · simp [SimpleAverage2.filter, e01]
  · refine ⟨by simp [SimpleAverage2.filter],
      Or.inr (Or.inr (Or.inl ⟨p, x, int_add sm x, b2, c2, ?_, ?_⟩))⟩
    · simp [SimpleAverage2.filter, e11]
    · simp [SimpleAverage2.filter, e11]
  · refine ⟨by simp [SimpleAverage2.filter], Or.inr (Or.inr (Or.inr ?_))⟩
    simp [SimpleAverage2.filter, e21]
  · exact ⟨rfl, Or.inr (Or.inr (Or.inr rfl))⟩

theorem SimpleAverage2.agree_outputs (a b : SimpleAverage2) (ys : List Int) (h : a.Agree b) :
    SimpleAverage2.outputs 3 a ys = SimpleAverage2.outputs 3 b ys := by
  induction ys generalizing a b with
  | nil => rfl
  | cons y ys ih =>
    have hs := SimpleAverage2.agree_step a b y h
    simp only [SimpleAverage2.outputs, hs.1]
    rw [ih _ _ hs.2]

theorem SimpleAverage2.filter_buffer_length (N : Int) (a : SimpleAverage2) (x : Int) :
    (SimpleAverage2.filter N a x).1.m_buffer.length = a.m_buffer.length := by
  simp [SimpleAverage2.filter]

theorem SimpleAverage2.feed_buffer_length (N : Int) (a : SimpleAverage2) (xs : List Int) :
    (SimpleAverage2.feed N a xs).m_buffer.length = a.m_buffer.length := by
  induction xs generalizing a with
  | nil => rfl
  | cons y ys ih =>
    simp only [SimpleAverage2.feed]
    rw [ih, SimpleAverage2.filter_buffer_length]

theorem SimpleAverage2.agree_reset (a b : SimpleAverage2) (ha : a.m_buffer.length = 3)
    (hb : b.m_buffer.length = 3) : a.reset.Agree b.reset := by
  obtain ⟨bufa, ca, sa, ia⟩ := a
  obtain ⟨bufb, cb, sb, ib⟩ := b
  match bufa, ha, bufb, hb with
  | [b0, b1, b2], _, [c0, c1, c2], _ => exact Or.inl ⟨b0, b1, b2, c0, c1, c2, rfl, rfl⟩

/-- C15: reset forgets the history. Feeding any inputs `h` to a `SimpleAverage2<int,3>`,
calling `reset()` and then feeding `ys` returns for `ys` exactly what a freshly
constructed filter (a reset on whatever the buffer memory holds) returns for `ys`; the
outputs after the reset are the same for every `h`, although `reset()` leaves the old
samples in the buffer. -/
theorem C15_reset_forgets_history (a fresh : SimpleAverage2) (ha : a.m_buffer.length = 3)
    (hf : fresh.m_buffer.length = 3) (h ys : List Int) :
    SimpleAverage2.outputs 3 (SimpleAverage2.feed 3 a h).reset ys =
        SimpleAverage2.outputs 3 fresh.reset ys ∧
      (∀ h' : List Int, SimpleAverage2.outputs 3 (SimpleAverage2.feed 3 a h).reset ys =
        SimpleAverage2.outputs 3 (SimpleAverage2.feed 3 a h').reset ys) ∧
      (SimpleAverage2.feed 3 a h).reset.m_buffer = (SimpleAverage2.feed 3 a h).m_buffer := by
  have hl : ∀ l : List Int, (SimpleAverage2.feed 3 a l).m_buffer.length = 3 := by
    intro l
    rw [SimpleAverage2.feed_buffer_length, ha]
  exact ⟨SimpleAverage2.agree_outputs _ _ ys (SimpleAverage2.agree_reset _ _ (hl h) hf),
    fun h' => SimpleAverage2.agree_outputs _ _ ys (SimpleAverage2.agree_reset _ _ (hl h) (hl h')),
    rfl⟩

/-- C15 for the history 900, 800, 700, 600 and the new inputs 10, 20, 40, 70. -/
theorem C15_reset_forgets_history_witness :
    (⟨[0, 0, 0], 0, 0, 0⟩ : SimpleAverage2).m_buffer.length = 3 ∧
      (⟨[5, 6, 7], 0, 0, 0⟩ : SimpleAverage2).m_buffer.length = 3 ∧
      SimpleAverage2.outputs 3 (SimpleAverage2.feed 3 ⟨[0, 0, 0], 0, 0, 0⟩
          [900, 800, 700, 600]).reset [10, 20, 40, 70] =
        SimpleAverage2.outputs 3 (SimpleAverage2.reset ⟨[5, 6, 7], 0, 0, 0⟩) [10, 20, 40, 70] :=
  ⟨by decide, by decide,
   (C15_reset_forgets_history ⟨[0, 0, 0], 0, 0, 0⟩ ⟨[5, 6, 7], 0, 0, 0⟩ (by decide) (by decide)
      [900, 800, 700, 600] [10, 20, 40, 70]).1⟩

/-! ## The scroll smoother -/

theorem ScrollSmoother.filter_inputCount (s : ScrollSmoother) (u : Nat) (z : Int) :
    (s.filter u z).1.inputCount = int_add s.inputCount 1 := by
  unfold ScrollSmoother.filter
  simp only
  split_ifs <;> rfl

theorem ScrollSmoother.filter_stopDelta (s : ScrollSmoother) (u : Nat) (z : Int) :
    (s.filter u z).1.stopDelta = if z > 0 ∧ s.stopDelta > 0 then 0 else s.stopDelta := by
  unfold ScrollSmoother.filter
  simp only
  split_ifs <;> rfl

theorem ScrollSmoother.filter_history_length (s : ScrollSmoother) (u : Nat) (z : Int) :
    (s.filter u z).1.history.length = s.history.length := by
  unfold ScrollSmoother.filter
  simp only
  split_ifs <;> simp

theorem ScrollSmoother.filter_lastinputTime (s : ScrollSmoother) (u : Nat) (z : Int) :
    (s.filter u z).1.lastinputTime = u % 18446744073709551616 := by
  unfold ScrollSmoother.filter
  simp only
  split_ifs <;> rfl

/-- The first of a pair of inputs: slot 0 is written, nothing is computed. -/
theorem ScrollSmoother.filter_first (s : ScrollSmoother) (u : Nat) (a : Int) (n : Nat)
    (h0 h1 : Int) (hh : s.history = [h0, h1])
    (hi : s.cur_history_index = 0 ∨ s.cur_history_index = 2)
    (hc : s.inputCount = 2 * (n : Int)) (hb : 2 * n + 1 < 2147483648) :
    (s.filter u a).1.history = [a, h1] ∧ (s.filter u a).1.cur_history_index = 1 ∧
      (s.filter u a).1.inputCount = 2 * (n : Int) + 1 ∧
      (s.filter u a).2 = if n = 0 then 0 else int_mul s.lastDelta SCROLL_DELTA_FACTOR := by
  have hcnt : int_add s.inputCount 1 = 2 * (n : Int) + 1 := by
    rw [hc]
    exact int_add_eq _ _ (by unfold inIntRange; omega)
  have hodd : Int.tmod (2 * (n : Int) + 1) 2 = 1 := by
    rw [Int.tmod_eq_emod (by omega) (by omega)]
    omega
  have e01 : int_add 0 1 = 1 := by decide
  have hidx : (if s.cur_history_index < 0 ∨ s.cur_history_index ≥ 2 then 0
      else s.cur_history_index) = 0 := by
    rcases hi with h | h <;> rw [h] <;> decide
  unfold ScrollSmoother.filter
  simp only [hidx, hcnt, hodd, hh, e01]
  by_cases hn : n = 0
  · subst hn
    simp
  · have : (2 * (n : Int) + 1 > 2) := by omega
    simp [this, hn]

/-- The second of a pair of inputs: slot 1 is written and 32 times the mean of the two
slots is returned. -/
theorem ScrollSmoother.filter_second (s : ScrollSmoother) (u : Nat) (a b : Int) (n : Nat)
    (h1 : Int) (hh : s.history = [a, h1]) (hi : s.cur_history_index = 1)
    (hc : s.inputCount = 2 * (n : Int) + 1) (hb : 2 * n + 2 < 2147483648) :
    (s.filter u b).1.history = [a, b] ∧ (s.filter u b).1.cur_history_index = 2 ∧
      (s.filter u b).1.inputCount = 2 * ((n + 1 : Nat) : Int) ∧
      (s.filter u b).2 = int_mul (Int.tdiv (int_add b a) 2) SCROLL_DELTA_FACTOR := by
  have hcnt : int_add s.inputCount 1 = 2 * (n : Int) + 2 := by
    rw [hc]
    have := int_add_eq (2 * (n : Int) + 1) 1 (by unfold inIntRange; omega)
    rw [this]
    ring
  have heven : ¬ Int.tmod (2 * (n : Int) + 2) 2 = 1 := by
    rw [Int.tmod_eq_emod (by omega) (by omega)]
    omega
  have e11 : int_add 1 1 = 2 := by decide
  have hidx : (if s.cur_history_index < 0 ∨ s.cur_history_index ≥ 2 then 0
      else s.cur_history_index) = 1 := by
    rw [hi]; decide
  unfold ScrollSmoother.filter
  simp only [hidx, hcnt, heven, hh, e11]
  simp
  ring

theorem ScrollSmoother.outputs_pair (k : Nat) :
    ∀ (s : ScrollSmoother) (n : Nat) (ins : List (Nat × Int)),
      s.history.length = 2 → (s.cur_history_index = 0 ∨ s.cur_history_index = 2) →
      s.inputCount = 2 * (n : Int) → 2 * n + ins.length < 2147483648 →
      ∀ (ua : Nat) (a : Int) (ub : Nat) (b : Int),
        ins[2 * k]? = some (ua, a) → ins[2 * k + 1]? = some (ub, b) →
        inIntRange (a + b) → inIntRange (32 * Int.tdiv (a + b) 2) →
        (ScrollSmoother.outputs s ins)[2 * k + 1]? = some (32 * Int.tdiv (a + b) 2) := by
  induction k with
  | zero =>
    intro s n ins hl hi hc hb ua a ub b h1 h2 hsum hmul
    match ins, h1, h2, hb with
    | i1 :: i2 :: rest, h1, h2, hb =>
      simp only [Nat.mul_zero, List.getElem?_cons_zero, Option.some.injEq] at h1
      simp only [Nat.mul_zero, Nat.zero_add, List.getElem?_cons_succ, List.getElem?_cons_zero,
        Option.some.injEq] at h2
      subst h1 h2
      simp only [List.length_cons] at hb
      match hs : s.history, hl with
      | [h0, h1'], _ =>
        have f1 := ScrollSmoother.filter_first s ua a n h0 h1' hs hi hc (by omega)
        have f2 := ScrollSmoother.filter_second (s.filter ua a).1 ub a b n h1' f1.1 f1.2.1
          f1.2.2.1 (by omega)
        simp only [ScrollSmoother.outputs, Nat.mul_zero, Nat.zero_add, List.getElem?_cons_succ,
          List.getElem?_cons_zero, Option.some.injEq]
        rw [f2.2.2.2, int_add_eq b a (by rwa [add_comm]), add_comm b a]
        have : int_mul (Int.tdiv (a + b) 2) SCROLL_DELTA_FACTOR = 32 * Int.tdiv (a + b) 2 := by
          unfold int_mul SCROLL_DELTA_FACTOR
          rw [mul_comm]
          exact wrap_of_inIntRange _ hmul
        exact this
  | succ k ih =>
    intro s n ins hl hi hc hb ua a ub b h1 h2 hsum hmul
    match ins, h1, h2, hb with
    | i1 :: i2 :: rest, h1, h2, hb =>
      have e1 : 2 * (k + 1) = 2 * k + 1 + 1 := by ring
      have e2 : 2 * (k + 1) + 1 = (2 * k + 1) + 1 + 1 := by ring
      rw [e1] at h1
      rw [e2] at h2
      simp only [List.getElem?_cons_succ] at h1 h2
      simp only [List.length_cons] at hb
      match hs : s.history, hl with
      | [h0, h1'], _ =>
        have f1 := ScrollSmoother.filter_first s i1.1 i1.2 n h0 h1' hs hi hc (by omega)
        have f2 := ScrollSmoother.filter_second (s.filter i1.1 i1.2).1 i2.1 i1.2 i2.2 n h1'
          f1.1 f1.2.1 f1.2.2.1 (by omega)
        rw [e2]
        simp only [ScrollSmoother.outputs, List.getElem?_cons_succ]
        exact ih _ (n + 1) rest (by rw [f2.1]; rfl) (Or.inr f2.2.1) f2.2.2.1
          (by omega) ua a ub b h1 h2 hsum hmul

theorem ScrollSmoother.outputs_first (s : ScrollSmoother) (hl : s.history.length = 2)
    (hi : s.cur_history_index = 0) (hc : s.inputCount = 0) (i : Nat × Int)
    (ins : List (Nat × Int)) : (ScrollSmoother.outputs s (i :: ins))[0]? = some 0 := by
  match hs : s.history, hl with
  | [h0, h1'], _ =>
    have f1 := ScrollSmoother.filter_first s i.1 i.2 0 h0 h1' hs (Or.inl hi) (by simpa using hc)
      (by omega)
    simp only [ScrollSmoother.outputs, List.getElem?_cons_zero, Option.some.injEq]
    rw [f1.2.2.2]
    rfl

theorem ScrollSmoother.tidy_call (t : ScrollSmoother) (c : SmootherCall) (h : t.Tidy)
    (hc : c.clockRuns) : (t.call c).Tidy := by
  cases c with
  | filter u z =>
    refine ⟨by rw [ScrollSmoother.call, ScrollSmoother.filter_history_length]; exact h.1, ?_⟩
    intro h0
    rw [ScrollSmoother.call, ScrollSmoother.filter_lastinputTime] at h0
    exact absurd h0 hc
  | stop =>
    unfold ScrollSmoother.call ScrollSmoother.stop
    by_cases hz : t.lastinputTime ≠ 0
    · simp only [if_pos hz]
      exact ⟨rfl, fun _ => ⟨rfl, rfl⟩⟩
    · simp only [if_neg hz]
      exact h
  | setDir d => exact h
  | getFlingDelta =>
    unfold ScrollSmoother.call ScrollSmoother.getFlingDelta
    split_ifs
    · exact h
    · exact h

theorem ScrollSmoother.tidy_run (cs : List SmootherCall) :
    ∀ t : ScrollSmoother, t.Tidy → (∀ c ∈ cs, c.clockRuns) → (t.run cs).Tidy := by
  induction cs with
  | nil => intro t h _; exact h
  | cons c cs ih =>
    intro t h hc
    exact ih (t.call c) (ScrollSmoother.tidy_call t c h (hc c (List.mem_cons_self _ _)))
      (fun c' hc' => hc c' (List.mem_cons_of_mem _ hc'))

theorem ScrollSmoother.start_clear (cs : List SmootherCall) (hclock : ∀ c ∈ cs, c.clockRuns)
    (s : ScrollSmoother)
    (hs : s = ScrollSmoother.zero ∨ s = (ScrollSmoother.zero.run cs).stop.1) :
    s.history.length = 2 ∧ s.cur_history_index = 0 ∧ s.inputCount = 0 := by
  rcases hs with rfl | rfl
  · exact ⟨rfl, rfl, rfl⟩
  · have ht := ScrollSmoother.tidy_run cs ScrollSmoother.zero ⟨rfl, fun _ => ⟨rfl, rfl⟩⟩ hclock
    unfold ScrollSmoother.stop
    by_cases hz : (ScrollSmoother.zero.run cs).lastinputTime ≠ 0
    · rw [if_pos hz]
      exact ⟨rfl, rfl, rfl⟩
    · rw [if_neg hz]
      have hz' : (ScrollSmoother.zero.run cs).lastinputTime = 0 := by
        simpa using hz
      exact ⟨ht.1, (ht.2 hz').2, (ht.2 hz').1⟩

/-- C16: pairing. Start from a zero-initialised smoother or from the smoother as `stop()`
leaves it after any earlier calls (the clock never reading 0). Then the first `filter()`
input returns 0, and for every `k` the input number `2k+2` returns 32 times the mean,
truncated toward zero, of the inputs number `2k+1` and `2k+2`, whenever their sum and
the scaled mean fit an `int`; in particular for inputs `a` then `b` the second call
returns `32*((a+b)/2)`. -/
theorem C16_pairing (cs : List SmootherCall) (hclock : ∀ c ∈ cs, c.clockRuns)
    (s : ScrollSmoother)
    (hs : s = ScrollSmoother.zero ∨ s = (ScrollSmoother.zero.run cs).stop.1)
    (ins : List (Nat × Int)) (hlen : ins.length < 2147483648) :
    (ins ≠ [] → (ScrollSmoother.outputs s ins)[0]? = some 0) ∧
      (∀ (k ua : Nat) (a : Int) (ub : Nat) (b : Int),
        ins[2 * k]? = some (ua, a) → ins[2 * k + 1]? = some (ub, b) →
        inIntRange (a + b) → inIntRange (32 * Int.tdiv (a + b) 2) →
        (ScrollSmoother.outputs s ins)[2 * k + 1]? = some (32 * Int.tdiv (a + b) 2)) := by
  obtain ⟨hl, hi, hc⟩ := ScrollSmoother.start_clear cs hclock s hs
  constructor
  · intro hne
    match ins, hne with
    | i :: rest, _ => exact ScrollSmoother.outputs_first s hl hi hc i rest
  · intro k ua a ub b h1 h2 hsum hmul
    exact ScrollSmoother.outputs_pair k s 0 ins hl (Or.inl hi) (by simpa using hc)
      (by omega) ua a ub b h1 h2 hsum hmul


/-- C16 after the earlier calls `filter(5)`, `filter(5)`, `stop()`: for the inputs 3 then 8
the first call returns 0 and the second 32 * ((3 + 8) / 2) = 160. -/
theorem C16_pairing_witness :
    (∀ c ∈ [SmootherCall.filter 1 5, SmootherCall.filter 2 5, SmootherCall.stop],
        c.clockRuns) ∧
      [((3 : Nat), (3 : Int)), (4, 8)].length < 2147483648 ∧
      inIntRange (3 + 8) ∧ inIntRange (32 * Int.tdiv (3 + 8) 2) ∧
      (ScrollSmoother.outputs
        (ScrollSmoother.zero.run
          [SmootherCall.filter 1 5, SmootherCall.filter 2 5, SmootherCall.stop]).stop.1
        [(3, 3), (4, 8)])[2 * 0 + 1]? = some (32 * Int.tdiv (3 + 8) 2) :=
  ⟨by decide, by decide, by decide, by decide,
   (C16_pairing [SmootherCall.filter 1 5, SmootherCall.filter 2 5, SmootherCall.stop]
      (by decide) _ (Or.inr rfl) [(3, 3), (4, 8)] (by decide)).2 0 3 3 4 8 rfl rfl
      (by decide) (by decide)⟩

theorem ScrollSmoother.feed_inputCount (ins : List (Nat × Int)) :
    ∀ (s : ScrollSmoother) (n : Nat), s.inputCount = (n : Int) →
      n + ins.length < 2147483648 →
      (ScrollSmoother.feed s ins).inputCount = ((n + ins.length : Nat) : Int) := by
  induction ins with
  | nil => intro s n h _; simpa [ScrollSmoother.feed] using h
  | cons i ins ih =>
    intro s n h hb
    simp only [List.length_cons] at hb
    have h1 : (s.filter i.1 i.2).1.inputCount = ((n + 1 : Nat) : Int) := by
      rw [ScrollSmoother.filter_inputCount, h, int_add_eq _ _ (by unfold inIntRange; omega)]
      push_cast
      rfl
    have := ih (s.filter i.1 i.2).1 (n + 1) h1 (by omega)
    simp only [ScrollSmoother.feed, List.length_cons]
    rw [this]
    congr 1
    omega

theorem ScrollSmoother.feed_stopDelta_zero (ins : List (Nat × Int)) :
    ∀ s : ScrollSmoother, s.stopDelta = 0 → (ScrollSmoother.feed s ins).stopDelta = 0 := by
  induction ins with
  | nil => intro s h; exact h
  | cons i ins ih =>
    intro s h
    refine ih (s.filter i.1 i.2).1 ?_
    rw [ScrollSmoother.filter_stopDelta, h]
    simp

theorem ScrollSmoother.feed_stopDelta_cancel (ins : List (Nat × Int)) :
    ∀ s : ScrollSmoother, 0 < s.stopDelta → (∃ i ∈ ins, 0 < i.2) →
      (ScrollSmoother.feed s ins).stopDelta = 0 := by
  induction ins with
  | nil => intro s _ h; simp at h
  | cons i ins ih =>
    intro s hp hex
    by_cases hi : 0 < i.2
    · refine ScrollSmoother.feed_stopDelta_zero ins (s.filter i.1 i.2).1 ?_
      rw [ScrollSmoother.filter_stopDelta, if_pos ⟨hi, hp⟩]
    · refine ih (s.filter i.1 i.2).1 ?_ ?_
      · rw [ScrollSmoother.filter_stopDelta, if_neg (fun h => hi h.1)]
        exact hp
      · obtain ⟨j, hj, hjp⟩ := hex
        rcases List.mem_cons.mp hj with rfl | hj'
        · exact absurd hjp hi
        · exact ⟨j, hj', hjp⟩

/-- C17 (as stated) fails: from a zero-initialised smoother, after the inputs 5, 5 and a
`stop()` that returns the fling seed 160, ten further inputs 0 followed by `stop()`
return 160 again, not 0. -/
theorem C17_stale_fling_counterexample :
    (ScrollSmoother.feed ScrollSmoother.zero [(1, 5), (2, 5)]).stop.2 = 160 ∧
      (List.replicate 10 ((3 : Nat), (0 : Int))).length = 10 ∧
      (ScrollSmoother.feed (ScrollSmoother.feed ScrollSmoother.zero [(1, 5), (2, 5)]).stop.1
        (List.replicate 10 (3, 0))).stop.2 = 160 := by
  decide

/-- C17 (amended): for every sequence of at least 10 `filter()` inputs since construction
or the previous `stop()`, `stop()` returns 0 provided no earlier fling delta is left
pending: the fling delta was 0 when the sequence began, or it was positive and one of the
inputs was positive (which cancels it). -/
theorem C17_long_session_no_fling (cs : List SmootherCall) (hclock : ∀ c ∈ cs, c.clockRuns)
    (s : ScrollSmoother)
    (hs : s = ScrollSmoother.zero ∨ s = (ScrollSmoother.zero.run cs).stop.1)
    (ins : List (Nat × Int)) (h10 : 10 ≤ ins.length) (hlen : ins.length < 2147483648)
    (hp : s.stopDelta = 0 ∨ (0 < s.stopDelta ∧ ∃ i ∈ ins, 0 < i.2)) :
    (ScrollSmoother.feed s ins).stop.2 = 0 := by
  obtain ⟨_, _, hc⟩ := ScrollSmoother.start_clear cs hclock s hs
  have hcount := ScrollSmoother.feed_inputCount ins s 0 (by simpa using hc) (by omega)
  have hdelta : (ScrollSmoother.feed s ins).stopDelta = 0 := by
    rcases hp with h | ⟨h, hex⟩
    · exact ScrollSmoother.feed_stopDelta_zero ins s h
    · exact ScrollSmoother.feed_stopDelta_cancel ins s h hex
  unfold ScrollSmoother.stop
  by_cases hz : (ScrollSmoother.feed s ins).lastinputTime ≠ 0
  · have hge : ¬ (ScrollSmoother.feed s ins).inputCount < 10 := by
      rw [hcount]
      push_cast
      omega
    rw [if_pos hz]
    simp only [if_neg hge]
    exact hdelta
  · rw [if_neg hz]

/-- C17 (amended) for ten inputs 1 to a smoother that an earlier `stop()` left with the
pending fling delta 160: the first positive input cancels it. -/
theorem C17_long_session_no_fling_witness :
    (∀ c ∈ [SmootherCall.filter 1 5, SmootherCall.filter 2 5], c.clockRuns) ∧
      10 ≤ (List.replicate 10 ((3 : Nat), (1 : Int))).length ∧
      (List.replicate 10 ((3 : Nat), (1 : Int))).length < 2147483648 ∧
      (0 < (ScrollSmoother.zero.run
          [SmootherCall.filter 1 5, SmootherCall.filter 2 5]).stop.1.stopDelta ∧
        ∃ i ∈ List.replicate 10 ((3 : Nat), (1 : Int)), 0 < i.2) ∧
      (ScrollSmoother.feed
        (ScrollSmoother.zero.run [SmootherCall.filter 1 5, SmootherCall.filter 2 5]).stop.1
        (List.replicate 10 (3, 1))).stop.2 = 0 :=
  ⟨by decide, by decide, by decide, by decide,
   C17_long_session_no_fling [SmootherCall.filter 1 5, SmootherCall.filter 2 5] (by decide) _
     (Or.inr rfl) (List.replicate 10 (3, 1)) (by decide) (by decide) (Or.inr (by decide))⟩

/-- C18 fails on the code: after the two inputs 5 then 1, `stop()` returns 32 (32 times
the last raw input, stored because the pair mean 3 exceeded the tracked value 0), not
32 * max(5, 1) = 160; and after the single input 7 it returns 0, not 224. -/
theorem C18_fling_seed_is_not_the_maximum :
    (ScrollSmoother.feed ScrollSmoother.zero [(1, 5), (2, 1)]).stop.2 = 32 ∧
      (ScrollSmoother.feed ScrollSmoother.zero [(1, 5), (2, 1)]).maxDelta = 1 ∧
      (ScrollSmoother.feed ScrollSmoother.zero [(1, 7)]).stop.2 = 0 := by
  decide

/-! ## The fling decay -/

theorem excessBits_spec (fuel : Nat) :
    ∀ n, n ≤ fuel → n / 2 ^ excessBits fuel n < 9007199254740992 ∧
      (1 ≤ excessBits fuel n → 4503599627370496 ≤ n / 2 ^ excessBits fuel n) := by
  induction fuel with
  | zero =>
    intro n hn
    have : n = 0 := by omega
    subst this
    simp [excessBits]
  | succ fuel ih =>
    intro n hn
    by_cases hlt : n < 9007199254740992
    · simp [excessBits, hlt]
    · have hrec : excessBits (fuel + 1) n = excessBits fuel (n / 2) + 1 := by
        simp [excessBits, hlt]
      have hdiv : n / 2 ^ (excessBits fuel (n / 2) + 1) = n / 2 / 2 ^ excessBits fuel (n / 2) := by
        rw [Nat.div_div_eq_div_mul, pow_succ, mul_comm]
      obtain ⟨h1, h2⟩ := ih (n / 2) (by omega)
      rw [hrec, hdiv]
      refine ⟨h1, fun _ => ?_⟩
      by_cases he : 1 ≤ excessBits fuel (n / 2)
      · exact h2 he
      · have : excessBits fuel (n / 2) = 0 := by omega
        rw [this]
        simp
        omega

theorem excessBits_le (n : Nat) (hn : n < 2 ^ 84) : excessBits n n ≤ 31 := by
  by_contra hgt
  have hge : 32 ≤ excessBits n n := by omega
  have h2 := (excessBits_spec n n le_rfl).2 (by omega)
  have hpow : 2 ^ 32 ≤ 2 ^ excessBits n n := Nat.pow_le_pow_right (by decide) hge
  have hmul : 4503599627370496 * 2 ^ excessBits n n ≤ n :=
    (Nat.le_div_iff_mul_le (by positivity)).mp h2
  have : 4503599627370496 * 2 ^ 32 ≤ n := le_trans (Nat.mul_le_mul_left _ hpow) hmul
  norm_num at this hn
  omega

/-- The C expression `(int)(x * 0.6)`, evaluated in binary64 arithmetic, is the integer
part of `3x/5` for every positive `int` `x`. -/
theorem mul_0_6_eq (x : Nat) (hx : x < 2147483648) : mul_0_6 x = 3 * x / 5 := by
  have hn : x * DBL_0_6 < 2 ^ 84 := by
    unfold DBL_0_6
    norm_num
    omega
  have hle := excessBits_le _ hn
  obtain ⟨h1, h2⟩ := excessBits_spec (x * DBL_0_6) (x * DBL_0_6) le_rfl
  unfold mul_0_6 roundDouble
  simp only
  generalize excessBits (x * DBL_0_6) (x * DBL_0_6) = sh at hle h1 h2 ⊢
  unfold DBL_0_6 at *
  interval_cases sh <;> norm_num only at h1 h2 ⊢ <;> split_ifs <;> omega


theorem tdiv_three_fifths (v : Int) (h : 0 ≤ v) : Int.tdiv (3 * v) 5 = 3 * v / 5 :=
  Int.tdiv_eq_ediv (by omega) (by omega)

theorem ScrollSmoother.getFlingDelta_eq (s : ScrollSmoother) (h0 : 0 ≤ s.stopDelta)
    (h1 : s.stopDelta ≤ 2147483647) :
    s.getFlingDelta.2 = Int.tdiv (3 * s.stopDelta) 5 ∧
      s.getFlingDelta.1.stopDelta = Int.tdiv (3 * s.stopDelta) 5 := by
  rw [tdiv_three_fifths _ h0]
  unfold ScrollSmoother.getFlingDelta
  by_cases hp : s.stopDelta > 0
  · have hm := mul_0_6_eq s.stopDelta.toNat (by omega)
    simp only [if_pos hp, hm]
    constructor <;> omega
  · have hz : s.stopDelta = 0 := by omega
    rw [if_neg hp]
    constructor
    · show (0 : Int) = 3 * s.stopDelta / 5
      omega
    · show s.stopDelta = 3 * s.stopDelta / 5
      omega

theorem ScrollSmoother.nthFling_zero (s : ScrollSmoother) (h0 : 0 ≤ s.stopDelta)
    (h1 : s.stopDelta ≤ 2147483647) :
    ScrollSmoother.nthFling s 0 = Int.tdiv (3 * s.stopDelta) 5 :=
  (ScrollSmoother.getFlingDelta_eq s h0 h1).1

theorem ScrollSmoother.nthFling_succ (i : Nat) :
    ∀ s : ScrollSmoother, 0 ≤ s.stopDelta → s.stopDelta ≤ 2147483647 →
      ScrollSmoother.nthFling s (i + 1) = Int.tdiv (3 * ScrollSmoother.nthFling s i) 5 := by
  induction i with
  | zero =>
    intro s h0 h1
    obtain ⟨e1, e2⟩ := ScrollSmoother.getFlingDelta_eq s h0 h1
    have hv := tdiv_three_fifths _ h0
    show ScrollSmoother.nthFling s.getFlingDelta.1 0 = _
    rw [ScrollSmoother.nthFling_zero _ (by rw [e2, hv]; omega) (by rw [e2, hv]; omega), e2,
      ScrollSmoother.nthFling_zero s h0 h1]
  | succ i ih =>
    intro s h0 h1
    obtain ⟨e1, e2⟩ := ScrollSmoother.getFlingDelta_eq s h0 h1
    have hv := tdiv_three_fifths _ h0
    show ScrollSmoother.nthFling s.getFlingDelta.1 (i + 1) = _
    rw [ih _ (by rw [e2, hv]; omega) (by rw [e2, hv]; omega)]
    rfl

theorem ScrollSmoother.nthFling_bound (i : Nat) :
    ∀ s : ScrollSmoother, 0 ≤ s.stopDelta → s.stopDelta ≤ 2147483647 →
      0 ≤ ScrollSmoother.nthFling s i ∧
        (ScrollSmoother.nthFling s i ≤ s.stopDelta - 1 - i ∨ ScrollSmoother.nthFling s i = 0) := by
  induction i with
  | zero =>
    intro s h0 h1
    rw [ScrollSmoother.nthFling_zero s h0 h1, tdiv_three_fifths _ h0]
    omega
  | succ i ih =>
    intro s h0 h1
    obtain ⟨hn, hb⟩ := ih s h0 h1
    rw [ScrollSmoother.nthFling_succ i s h0 h1, tdiv_three_fifths _ hn]
    omega

theorem ScrollSmoother.stop_stopDelta (st : ScrollSmoother) (h : 0 < st.stop.2) :
    st.stop.1.stopDelta = st.stop.2 := by
  unfold ScrollSmoother.stop at h ⊢
  by_cases hz : st.lastinputTime ≠ 0
  · rw [if_pos hz]
  · rw [if_neg hz] at h
    exact absurd h (lt_irrefl 0)

/-- C19: fling decay. After `stop()` has returned a fling seed `s > 0`, and with no
`filter()` call in between, every `getFlingDelta()` call returns the previous fling delta
multiplied by 0.6 and truncated to an integer (the integer part of three fifths of it);
the returned values are strictly decreasing while positive, 0 is reached after finitely
many calls, and every later call returns 0. -/
theorem C19_fling_decay (st : ScrollSmoother) (hseed : 0 < st.stop.2)
    (hint : st.stop.2 ≤ 2147483647) :
    ScrollSmoother.nthFling st.stop.1 0 = Int.tdiv (3 * st.stop.2) 5 ∧
      (∀ i, ScrollSmoother.nthFling st.stop.1 (i + 1) =
        Int.tdiv (3 * ScrollSmoother.nthFling st.stop.1 i) 5) ∧
      ScrollSmoother.nthFling st.stop.1 0 < st.stop.2 ∧
      (∀ i, 0 < ScrollSmoother.nthFling st.stop.1 i →
        ScrollSmoother.nthFling st.stop.1 (i + 1) < ScrollSmoother.nthFling st.stop.1 i) ∧
      (∃ N, ScrollSmoother.nthFling st.stop.1 N = 0 ∧
        ∀ m, N ≤ m → ScrollSmoother.nthFling st.stop.1 m = 0) := by
  have hsd := ScrollSmoother.stop_stopDelta st hseed
  have h0 : 0 ≤ st.stop.1.stopDelta := by rw [hsd]; omega
  have h1 : st.stop.1.stopDelta ≤ 2147483647 := by rw [hsd]; exact hint
  have hfirst := ScrollSmoother.nthFling_zero st.stop.1 h0 h1
  rw [hsd] at hfirst
  refine ⟨hfirst, fun i => ScrollSmoother.nthFling_succ i _ h0 h1, ?_, ?_, ?_⟩
  · rw [hfirst, tdiv_three_fifths _ (by omega)]
    omega
  · intro i hpos
    rw [ScrollSmoother.nthFling_succ i _ h0 h1, tdiv_three_fifths _ (by omega)]
    omega
  · have hz : ∀ m, st.stop.2.toNat ≤ m → ScrollSmoother.nthFling st.stop.1 m = 0 := by
      intro m hm
      obtain ⟨hn, hb⟩ := ScrollSmoother.nthFling_bound m st.stop.1 h0 h1
      rw [hsd] at hb
      omega
    exact ⟨st.stop.2.toNat, hz _ le_rfl, hz⟩

/-- C19 after the inputs 5, 5: `stop()` returns the seed 160 and the first
`getFlingDelta()` call returns 96. -/
theorem C19_fling_decay_witness :
    0 < (ScrollSmoother.feed ScrollSmoother.zero [(1, 5), (2, 5)]).stop.2 ∧
      (ScrollSmoother.feed ScrollSmoother.zero [(1, 5), (2, 5)]).stop.2 ≤ 2147483647 ∧
      ScrollSmoother.nthFling (ScrollSmoother.feed ScrollSmoother.zero [(1, 5), (2, 5)]).stop.1 0
        = Int.tdiv (3 * (ScrollSmoother.feed ScrollSmoother.zero [(1, 5), (2, 5)]).stop.2) 5 :=
  ⟨by decide, by decide,
   (C19_fling_decay (ScrollSmoother.feed ScrollSmoother.zero [(1, 5), (2, 5)]) (by decide)
      (by decide)).1⟩

/-! ## Keyboard messages and the typing window -/

/-- C21 (as stated) fails: a modifier key going down does not start the typing window.
After the notification "left shift (0x38) down" with timestamp 1,000,000,000 delivered to
the initial state, `keytime` is still 0, and a Normal packet as well as an Absolute packet
dispatched 1 ns later each emit a pointer event. -/
theorem C21_modifier_key_counterexample :
    (receiveMessage ApplePS2SentelicFSP.init kPS2M_notifyKeyPressed
        { time := 1000000000, adbKeyCode := 0x38, goingDown := true }).keytime = 0 ∧
      (dispatchRelativePointerEventWithPacket
          (receiveMessage ApplePS2SentelicFSP.init kPS2M_notifyKeyPressed
            { time := 1000000000, adbKeyCode := 0x38, goingDown := true })
          [0x09, 0x05, 0x00, 0] 4 1000000001 1000000001 1000000001).2 =
        [Event.relativePointer 5 0 1 1000000001] ∧
      (dispatchRelativePointerEventWithPacket
          (receiveMessage ApplePS2SentelicFSP.init kPS2M_notifyKeyPressed
            { time := 1000000000, adbKeyCode := 0x38, goingDown := true })
          [0x59, 0x10, 0x10, 0] 4 1000000001 1000000001 1000000001).2 =
        [Event.relativePointer 0 0 1 1000000001] := by
  decide

/-- C21 (amended): for every keypress notification delivered to `receiveMessage` that is
not a modifier key going down (any key going up, and any key other than shift, control,
option, command and fn going down), with timestamp `t`: the notification stores `t` in
`keytime`, and every packet dispatched at a time `now` with `0 ≤ now - t < 500,000,000` ns
emits no event and leaves the state as the notification left it. -/
theorem C21_keypress_suppression (s : ApplePS2SentelicFSP) (pInfo : PS2KeyInfo)
    (packet : List Nat) (packetSize now_abs now_ns uptime : Nat)
    (hkey : pInfo.adbKeyCode ∉ modifierKeyCodes ∨ pInfo.goingDown = false)
    (hmax : s.maxaftertyping = 500000000) (hnow : now_ns < 18446744073709551616)
    (hle : pInfo.time ≤ now_ns) (hlt : now_ns - pInfo.time < 500000000) :
    (receiveMessage s kPS2M_notifyKeyPressed pInfo).keytime = pInfo.time ∧
      dispatchRelativePointerEventWithPacket (receiveMessage s kPS2M_notifyKeyPressed pInfo)
          packet packetSize now_abs now_ns uptime =
        (receiveMessage s kPS2M_notifyKeyPressed pInfo, []) := by
  have ht : pInfo.time % 18446744073709551616 = pInfo.time := Nat.mod_eq_of_lt (by omega)
  have hkt : (receiveMessage s kPS2M_notifyKeyPressed pInfo).keytime = pInfo.time := by
    unfold receiveMessage
    rcases hkey with h | h
    · simp only [if_neg h, ht]
    · by_cases hm : pInfo.adbKeyCode ∈ modifierKeyCodes
      · simp [if_pos hm, h, ht]
      · simp only [if_neg hm, ht]
  have hmx : (receiveMessage s kPS2M_notifyKeyPressed pInfo).maxaftertyping = 500000000 := by
    unfold receiveMessage
    simp only
    split_ifs <;> exact hmax
  refine ⟨hkt, ?_⟩
  have hk : u64_sub now_ns (receiveMessage s kPS2M_notifyKeyPressed pInfo).keytime <
      (receiveMessage s kPS2M_notifyKeyPressed pInfo).maxaftertyping := by
    rw [hkt, hmx, u64_sub_of_le _ _ hnow hle]
    exact hlt
  simp only [dispatchRelativePointerEventWithPacket, if_pos hk]

/-- C21 (amended) for the key "a" (code 0) going down one second after start and a Normal
packet 0.2 s later. -/
theorem C21_keypress_suppression_witness :
    ((0 : Nat) ∉ modifierKeyCodes ∨ true = false) ∧
      ApplePS2SentelicFSP.init.maxaftertyping = 500000000 ∧
      1200000000 < 18446744073709551616 ∧ 1000000000 ≤ 1200000000 ∧
      1200000000 - 1000000000 < 500000000 ∧
      (receiveMessage ApplePS2SentelicFSP.init kPS2M_notifyKeyPressed
          { time := 1000000000, adbKeyCode := 0, goingDown := true }).keytime = 1000000000 ∧
      dispatchRelativePointerEventWithPacket
          (receiveMessage ApplePS2SentelicFSP.init kPS2M_notifyKeyPressed
            { time := 1000000000, adbKeyCode := 0, goingDown := true })
          [0x09, 0x05, 0xFE, 0] 4 1200000000 1200000000 1200000000 =
        (receiveMessage ApplePS2SentelicFSP.init kPS2M_notifyKeyPressed
            { time := 1000000000, adbKeyCode := 0, goingDown := true }, []) :=
  ⟨by decide, by decide, by decide, by decide, by decide,
   C21_keypress_suppression ApplePS2SentelicFSP.init
     { time := 1000000000, adbKeyCode := 0, goingDown := true } [0x09, 0x05, 0xFE, 0] 4
     1200000000 1200000000 1200000000 (by decide) (by decide) (by decide) (by decide)
     (by decide)⟩

/-! ## Gesture notifications -/

theorem ScrollSmoother.filter_direction (z : ScrollSmoother) (uptime : Nat) (x : Int) :
    (z.filter uptime x).1.direction = z.direction := by
  unfold ScrollSmoother.filter
  simp only
  split_ifs <;> rfl

theorem toS16_of_fits (d : Int) (h0 : -32768 ≤ d) (h1 : d ≤ 32767) : toS16 d = d := by
  unfold toS16
  split_ifs <;> omega

/-- What the routine does with a scroll notification outside the typing window. -/
theorem scroll_dispatch (s : ApplePS2SentelicFSP) (packet : List Nat)
    (packetSize now_abs now_ns uptime : Nat) (dir : Int)
    (hk : ¬ u64_sub now_ns s.keytime < s.maxaftertyping)
    (hn : pkt packet 0 >>> FSP_PKT_TYPE_SHIFT = FSP_PKT_TYPE_NOTIFY)
    (hg : pkt packet 1 = 0xBA)
    (hid : (pkt packet 2, dir) ∈ scrollCodes) :
    dispatchRelativePointerEventWithPacket s packet packetSize now_abs now_ns uptime =
      ({ s with _last_abs_x := 0, _last_abs_y := 0, _last_abs_z := (pkt packet 3 : Int),
                _isInGesture := true,
                z_avg := ((s.z_avg.setDir dir).filter uptime (runningDelta s packet)).1 },
       if ((s.z_avg.setDir dir).filter uptime (runningDelta s packet)).2 > 0 then
          [Event.scrollWheel
            (toS16 (Spec.scrollAxes dir
              ((s.z_avg.setDir dir).filter uptime (runningDelta s packet)).2).1)
            (toS16 (Spec.scrollAxes dir
              ((s.z_avg.setDir dir).filter uptime (runningDelta s packet)).2).2)
            0 now_abs]
       else []) := by
  have hg1 : pkt packet 1 = FSP_CX_NOTIFY_MSG_TYPE_GUESTURE := hg
  have z0 : toS16 0 = 0 := by decide
  simp only [scrollCodes, List.mem_cons, Prod.mk.injEq, List.mem_singleton, List.not_mem_nil,
    or_false] at hid
  rcases hid with ⟨h2, hd⟩ | ⟨h2, hd⟩ | ⟨h2, hd⟩ | ⟨h2, hd⟩ <;>
    subst hd <;>
    simp [dispatchRelativePointerEventWithPacket, gestureSwitch, runningDelta, hk, hn, hg1, h2,
      Spec.scrollAxes, SCROLL_DIR_UP, SCROLL_DIR_DOWN, SCROLL_DIR_RIGHT, SCROLL_DIR_LEFT, z0]

/-- C22 (as stated) fails: from the initial state, one second after start, the two
2-finger-up notifications with magnitude bytes 9 and 1 emit no event at all; the second
packet's smoothed delta is 32 * (1 / 2) = 0. -/
theorem C22_second_packet_counterexample :
    (dispatchRelativePointerEventWithPacket ApplePS2SentelicFSP.init [0x88, 0xBA, 0x86, 9] 4
        1000000000 1000000000 1000000000).2 = [] ∧
      (dispatchRelativePointerEventWithPacket
        (dispatchRelativePointerEventWithPacket ApplePS2SentelicFSP.init [0x88, 0xBA, 0x86, 9] 4
          1000000000 1000000000 1000000000).1
        [0x88, 0xBA, 0x86, 1] 4 1010000000 1010000000 1010000000).2 = [] := by
  decide

/-- C22 (amended): from an idle state whose smoother holds no input (the initial state is
one), with no typing window in effect, two consecutive gesture notifications with gesture
ID 0x86: the first emits no event; the second, with magnitude byte `m`, emits exactly one
scroll event with vertical delta `32 * (m / 2)` (positive) and horizontal delta 0 when
`m ≥ 2`, and no event when `m` is 0 or 1. The first packet's magnitude does not matter. -/
theorem C22_two_scroll_packets (s : ApplePS2SentelicFSP) (p1 p2 : List Nat)
    (size a1 n1 u1 a2 n2 u2 : Nat)
    (hidle : s._isInGesture = false)
    (hfresh : s.z_avg.history.length = 2 ∧ s.z_avg.cur_history_index = 0 ∧
      s.z_avg.inputCount = 0)
    (hk1 : ¬ u64_sub n1 s.keytime < s.maxaftertyping)
    (hk2 : ¬ u64_sub n2 s.keytime < s.maxaftertyping)
    (hn1 : pkt p1 0 >>> FSP_PKT_TYPE_SHIFT = FSP_PKT_TYPE_NOTIFY) (hg1 : pkt p1 1 = 0xBA)
    (hid1 : pkt p1 2 = 0x86)
    (hn2 : pkt p2 0 >>> FSP_PKT_TYPE_SHIFT = FSP_PKT_TYPE_NOTIFY) (hg2 : pkt p2 1 = 0xBA)
    (hid2 : pkt p2 2 = 0x86) :
    (dispatchRelativePointerEventWithPacket s p1 size a1 n1 u1).2 = [] ∧
      (dispatchRelativePointerEventWithPacket
          (dispatchRelativePointerEventWithPacket s p1 size a1 n1 u1).1 p2 size a2 n2 u2).2 =
        (if 2 ≤ pkt p2 3 then
          [Event.scrollWheel (32 * ((pkt p2 3 / 2 : Nat) : Int)) 0 0 a2]
         else []) := by
  have hm1 := pkt_lt p1 3
  have hm2 := pkt_lt p2 3
  have hc1 : (pkt p1 2, SCROLL_DIR_UP) ∈ scrollCodes := by rw [hid1]; decide
  have hc2 : (pkt p2 2, SCROLL_DIR_UP) ∈ scrollCodes := by rw [hid2]; decide
  obtain ⟨h0, h1, hh⟩ : ∃ h0 h1, s.z_avg.history = [h0, h1] := by
    match hs : s.z_avg.history, hfresh.1 with
    | [x, y], _ => exact ⟨x, y, rfl⟩
  have e1 := scroll_dispatch s p1 size a1 n1 u1 SCROLL_DIR_UP hk1 hn1 hg1 hc1
  have hr1 : runningDelta s p1 = (pkt p1 3 : Int) := by
    simp [runningDelta, hidle]
  rw [hr1] at e1
  have f1 := ScrollSmoother.filter_first (s.z_avg.setDir SCROLL_DIR_UP) u1 (pkt p1 3 : Int) 0
    h0 h1 hh (Or.inl hfresh.2.1) (by simpa using hfresh.2.2) (by norm_num)
  have o1 : ((s.z_avg.setDir SCROLL_DIR_UP).filter u1 (pkt p1 3 : Int)).2 = 0 := by
    simpa using f1.2.2.2
  rw [o1] at e1
  simp only [gt_iff_lt, lt_self_iff_false, if_false] at e1
  refine ⟨by rw [e1], ?_⟩
  generalize dispatchRelativePointerEventWithPacket s p1 size a1 n1 u1 = r1 at e1 ⊢
  have g1 : r1.1._isInGesture = true := by rw [e1]
  have g2 : r1.1._last_abs_z = (pkt p1 3 : Int) := by rw [e1]
  have g3 : r1.1.z_avg = ((s.z_avg.setDir SCROLL_DIR_UP).filter u1 (pkt p1 3 : Int)).1 := by
    rw [e1]
  have g4 : r1.1.keytime = s.keytime := by rw [e1]
  have g5 : r1.1.maxaftertyping = s.maxaftertyping := by rw [e1]
  have hk2' : ¬ u64_sub n2 r1.1.keytime < r1.1.maxaftertyping := by rw [g4, g5]; exact hk2
  have e2 := congrArg Prod.snd
    (scroll_dispatch r1.1 p2 size a2 n2 u2 SCROLL_DIR_UP hk2' hn2 hg2 hc2)
  have hr2 : runningDelta r1.1 p2 = (pkt p2 3 : Int) - (pkt p1 3 : Int) := by
    simp only [runningDelta, g1, if_true, g2]
    exact wrap_of_inIntRange _ (by unfold inIntRange; omega)
  rw [hr2, g3] at e2
  have f2 := ScrollSmoother.filter_second
    ((((s.z_avg.setDir SCROLL_DIR_UP).filter u1 (pkt p1 3 : Int)).1).setDir SCROLL_DIR_UP) u2
    (pkt p1 3 : Int) ((pkt p2 3 : Int) - (pkt p1 3 : Int)) 0 h1 f1.1 f1.2.1
    (by simpa using f1.2.2.1) (by norm_num)
  have hsum : int_add ((pkt p2 3 : Int) - (pkt p1 3 : Int)) (pkt p1 3 : Int) =
      (pkt p2 3 : Int) := by
    rw [int_add_eq _ _ (by unfold inIntRange; omega)]
    ring
  have hdiv : Int.tdiv (pkt p2 3 : Int) 2 = ((pkt p2 3 / 2 : Nat) : Int) := by
    rw [Int.tdiv_eq_ediv (by omega) (by omega)]
    omega
  have hmul : int_mul ((pkt p2 3 / 2 : Nat) : Int) SCROLL_DELTA_FACTOR =
      32 * ((pkt p2 3 / 2 : Nat) : Int) := by
    unfold int_mul SCROLL_DELTA_FACTOR
    rw [wrap_of_inIntRange _ (by unfold inIntRange; omega)]
    ring
  have o2 := f2.2.2.2
  rw [hsum, hdiv, hmul] at o2
  rw [e2, o2]
  have hax : Spec.scrollAxes SCROLL_DIR_UP (32 * ((pkt p2 3 / 2 : Nat) : Int)) =
      (32 * ((pkt p2 3 / 2 : Nat) : Int), 0) := by
    simp [Spec.scrollAxes]
  have hfit : toS16 (32 * ((pkt p2 3 / 2 : Nat) : Int)) = 32 * ((pkt p2 3 / 2 : Nat) : Int) :=
    toS16_of_fits _ (by omega) (by omega)
  have z0 : toS16 0 = 0 := by decide
  simp only [hax, hfit, z0]
  by_cases h : 2 ≤ pkt p2 3
  · rw [if_pos h, if_pos (by omega)]
  · rw [if_neg h, if_neg (by omega)]

/-- C22 (amended) from the initial state with magnitude bytes 9 and 13: no event, then one
scroll event with vertical delta 192. -/
theorem C22_two_scroll_packets_witness :
    ApplePS2SentelicFSP.init._isInGesture = false ∧
      (ApplePS2SentelicFSP.init.z_avg.history.length = 2 ∧
        ApplePS2SentelicFSP.init.z_avg.cur_history_index = 0 ∧
        ApplePS2SentelicFSP.init.z_avg.inputCount = 0) ∧
      ¬ u64_sub 1000000000 ApplePS2SentelicFSP.init.keytime <
          ApplePS2SentelicFSP.init.maxaftertyping ∧
      ¬ u64_sub 1010000000 ApplePS2SentelicFSP.init.keytime <
          ApplePS2SentelicFSP.init.maxaftertyping ∧
      (dispatchRelativePointerEventWithPacket ApplePS2SentelicFSP.init [0x88, 0xBA, 0x86, 9] 4
          1000000000 1000000000 1000000000).2 = [] ∧
      (dispatchRelativePointerEventWithPacket
          (dispatchRelativePointerEventWithPacket ApplePS2SentelicFSP.init
            [0x88, 0xBA, 0x86, 9] 4 1000000000 1000000000 1000000000).1
          [0x88, 0xBA, 0x86, 13] 4 1010000000 1010000000 1010000000).2 =
        (if 2 ≤ pkt [0x88, 0xBA, 0x86, 13] 3 then
          [Event.scrollWheel (32 * ((pkt [0x88, 0xBA, 0x86, 13] 3 / 2 : Nat) : Int)) 0 0
            1010000000]
         else []) :=
  ⟨by decide, by decide, by decide, by decide,
   C22_two_scroll_packets ApplePS2SentelicFSP.init [0x88, 0xBA, 0x86, 9] [0x88, 0xBA, 0x86, 13]
     4 1000000000 1000000000 1000000000 1010000000 1010000000 1010000000 (by decide)
     (by decide) (by decide) (by decide) (by decide) (by decide) (by decide) (by decide)
     (by decide) (by decide)⟩

/-- C23: outside the typing window, a gesture notification (byte1 = 0xBA) with code 0x86,
0x82, 0x80 or 0x84 sets the session flag, sets the smoother direction to UP, DOWN, RIGHT or
LEFT respectively, and feeds the running delta to `ScrollSmoother::filter`. With `d` the
value the filter returns: if `d > 0` exactly one scroll event is emitted, whose axes are
`(d,0)`, `(-d,0)`, `(0,d)`, `(0,-d)` respectively, converted to the `short` parameters of
the event (the conversion changes nothing when `d ≤ 32767`); if `d ≤ 0` no event is
emitted. The stored previous coordinates are cleared and the magnitude byte is stored. -/
theorem C23_scroll_codes (s : ApplePS2SentelicFSP) (packet : List Nat)
    (packetSize now_abs now_ns uptime : Nat) (dir : Int)
    (hk : ¬ u64_sub now_ns s.keytime < s.maxaftertyping)
    (hn : pkt packet 0 >>> FSP_PKT_TYPE_SHIFT = FSP_PKT_TYPE_NOTIFY)
    (hg : pkt packet 1 = 0xBA)
    (hid : (pkt packet 2, dir) ∈ scrollCodes) :
    (dispatchRelativePointerEventWithPacket s packet packetSize now_abs now_ns uptime).1 =
        { s with _last_abs_x := 0, _last_abs_y := 0, _last_abs_z := (pkt packet 3 : Int),
                 _isInGesture := true,
                 z_avg := ((s.z_avg.setDir dir).filter uptime (runningDelta s packet)).1 } ∧
      ((s.z_avg.setDir dir).filter uptime (runningDelta s packet)).1.direction = dir ∧
      (dispatchRelativePointerEventWithPacket s packet packetSize now_abs now_ns uptime).2 =
        (if ((s.z_avg.setDir dir).filter uptime (runningDelta s packet)).2 > 0 then
          [Event.scrollWheel
            (toS16 (Spec.scrollAxes dir
              ((s.z_avg.setDir dir).filter uptime (runningDelta s packet)).2).1)
            (toS16 (Spec.scrollAxes dir
              ((s.z_avg.setDir dir).filter uptime (runningDelta s packet)).2).2)
            0 now_abs]
         else []) ∧
      (((s.z_avg.setDir dir).filter uptime (runningDelta s packet)).2 ≤ 32767 →
        0 < ((s.z_avg.setDir dir).filter uptime (runningDelta s packet)).2 →
        toS16 (Spec.scrollAxes dir
            ((s.z_avg.setDir dir).filter uptime (runningDelta s packet)).2).1 =
          (Spec.scrollAxes dir
            ((s.z_avg.setDir dir).filter uptime (runningDelta s packet)).2).1 ∧
        toS16 (Spec.scrollAxes dir
            ((s.z_avg.setDir dir).filter uptime (runningDelta s packet)).2).2 =
          (Spec.scrollAxes dir
            ((s.z_avg.setDir dir).filter uptime (runningDelta s packet)).2).2) := by
  have e := scroll_dispatch s packet packetSize now_abs now_ns uptime dir hk hn hg hid
  refine ⟨by rw [e], ?_, by rw [e], ?_⟩
  · rw [ScrollSmoother.filter_direction]; rfl
  · intro h1 h0
    generalize ((s.z_avg.setDir dir).filter uptime (runningDelta s packet)).2 = d at h1 h0 ⊢
    have z0 : toS16 0 = 0 := by decide
    have hp := toS16_of_fits d (by omega) h1
    have hm := toS16_of_fits (-d) (by omega) (by omega)
    simp only [scrollCodes, List.mem_cons, Prod.mk.injEq, List.mem_singleton, List.not_mem_nil,
      or_false] at hid
    rcases hid with ⟨h2, hd⟩ | ⟨h2, hd⟩ | ⟨h2, hd⟩ | ⟨h2, hd⟩ <;>
      subst hd <;>
      simp [Spec.scrollAxes, SCROLL_DIR_UP, SCROLL_DIR_DOWN, SCROLL_DIR_RIGHT,
        SCROLL_DIR_LEFT, z0, hp, hm]

/-- C23 inside a session opened by a notification of magnitude 4: the 2-finger-down
notification with magnitude 9 feeds the running delta 5, the filter returns 32 * 4 = 128,
and one scroll event with axes (-128, 0) is emitted. -/
theorem C23_scroll_codes_witness :
    ¬ u64_sub 1010000000 scrollStarted.keytime < scrollStarted.maxaftertyping ∧
      pkt [0x88, 0xBA, 0x82, 9] 0 >>> FSP_PKT_TYPE_SHIFT = FSP_PKT_TYPE_NOTIFY ∧
      pkt [0x88, 0xBA, 0x82, 9] 1 = 0xBA ∧
      (pkt [0x88, 0xBA, 0x82, 9] 2, SCROLL_DIR_DOWN) ∈ scrollCodes ∧
      ((scrollStarted.z_avg.setDir SCROLL_DIR_DOWN).filter 1010000000
        (runningDelta scrollStarted [0x88, 0xBA, 0x82, 9])).1.direction = SCROLL_DIR_DOWN ∧
      (dispatchRelativePointerEventWithPacket scrollStarted [0x88, 0xBA, 0x82, 9] 4
        1010000000 1010000000 1010000000).2 = [Event.scrollWheel (-128) 0 0 1010000000] :=
  ⟨by decide, by decide, by decide, by decide,
   (C23_scroll_codes scrollStarted [0x88, 0xBA, 0x82, 9] 4 1010000000 1010000000 1010000000
     SCROLL_DIR_DOWN (by decide) (by decide) (by decide) (by decide)).2.1,
   by decide⟩

/-- The gesture switch on a code of the table: the table's notification, guarded by
"no session active". -/
theorem gestureSwitch_table (s : ApplePS2SentelicFSP) (packet : List Nat)
    (now_abs now_ns uptime : Nat) (dz : Int) (m : PS2Message)
    (hid : (pkt packet 2, m) ∈ Spec.gestureTable) :
    gestureSwitch s packet now_abs now_ns uptime dz =
      (if s._isInGesture = false then
        ({ s with _isInGesture := true }, [Event.keyboardMessage m now_abs])
       else (s, [])) := by
  simp only [Spec.gestureTable, List.mem_cons, Prod.mk.injEq, List.mem_singleton,
    List.not_mem_nil, or_false] at hid
  rcases hid with ⟨h2, hm⟩ | ⟨h2, hm⟩ | ⟨h2, hm⟩ | ⟨h2, hm⟩ | ⟨h2, hm⟩ | ⟨h2, hm⟩ | ⟨h2, hm⟩ |
      ⟨h2, hm⟩ | ⟨h2, hm⟩ <;>
    subst hm <;>
    rcases hg : s._isInGesture <;>
    simp [gestureSwitch, h2, fallthroughCases, List.dropWhile, guardedMessage, hg]

/-- C24: outside the typing window, a gesture notification whose code is one of 0x8F,
0x8B, 0xC0, 0xC4, 0x2E, 0x2A, 0x28, 0x2C, 0x1A behaves as the explicit table guarded by
"session inactive": with no session active the session flag is set and exactly one
notification is emitted, the one the table gives for the code (zoomIn, zoomOut, rotateL,
rotateR, swipeUp, swipeDown, swipeRight, swipeLeft, lauchPad), the later cases of the
fallthrough adding nothing; with a session active nothing is emitted and the flag stays
set. Either way the stored previous coordinates are cleared and the magnitude byte is
stored. -/
theorem C24_discrete_gestures (s : ApplePS2SentelicFSP) (packet : List Nat)
    (packetSize now_abs now_ns uptime : Nat) (m : PS2Message)
    (hk : ¬ u64_sub now_ns s.keytime < s.maxaftertyping)
    (hn : pkt packet 0 >>> FSP_PKT_TYPE_SHIFT = FSP_PKT_TYPE_NOTIFY)
    (hg : pkt packet 1 = 0xBA)
    (hid : (pkt packet 2, m) ∈ Spec.gestureTable) :
    dispatchRelativePointerEventWithPacket s packet packetSize now_abs now_ns uptime =
      (if s._isInGesture = false then
        ({ s with _last_abs_x := 0, _last_abs_y := 0, _last_abs_z := (pkt packet 3 : Int),
                  _isInGesture := true },
         [Event.keyboardMessage m now_abs])
       else
        ({ s with _last_abs_x := 0, _last_abs_y := 0, _last_abs_z := (pkt packet 3 : Int) },
         [])) := by
  have hg1 : pkt packet 1 = FSP_CX_NOTIFY_MSG_TYPE_GUESTURE := hg
  simp only [dispatchRelativePointerEventWithPacket, if_neg hk, if_pos hn, if_pos hg1]
  rw [gestureSwitch_table _ packet now_abs now_ns uptime _ m hid]

/-- C24 for the code 0x8F (first label of the fallthrough) from the initial state: the
single notification zoomIn. -/
theorem C24_discrete_gestures_witness :
    ¬ u64_sub 1000000000 ApplePS2SentelicFSP.init.keytime <
        ApplePS2SentelicFSP.init.maxaftertyping ∧
      pkt [0x88, 0xBA, 0x8F, 0] 0 >>> FSP_PKT_TYPE_SHIFT = FSP_PKT_TYPE_NOTIFY ∧
      pkt [0x88, 0xBA, 0x8F, 0] 1 = 0xBA ∧
      (pkt [0x88, 0xBA, 0x8F, 0] 2, kPS2M_zoomIn) ∈ Spec.gestureTable ∧
      dispatchRelativePointerEventWithPacket ApplePS2SentelicFSP.init [0x88, 0xBA, 0x8F, 0] 4
          1000000000 1000000000 1000000000 =
        ({ ApplePS2SentelicFSP.init with _isInGesture := true },
         [Event.keyboardMessage kPS2M_zoomIn 1000000000]) :=
  ⟨by decide, by decide, by decide, by decide,
   (C24_discrete_gestures ApplePS2SentelicFSP.init [0x88, 0xBA, 0x8F, 0] 4
     1000000000 1000000000 1000000000 kPS2M_zoomIn (by decide) (by decide) (by decide)
     (by decide)).trans (by decide)⟩

/-- C25 (as stated) fails: after the 2-finger-up notifications with magnitudes 10 and 7
(running deltas 10 and -3) `stop()` returns the fling delta -96, which is not zero, yet the
lift notification (code 0) arms no timer: it emits nothing. -/
theorem C25_lift_counterexample :
    liftScenario._isInGesture = true ∧
      (liftScenario.z_avg.stop).2 = -96 ∧
      dispatchRelativePointerEventWithPacket liftScenario [0x88, 0xBA, 0, 0] 4
          1020000000 1020000000 1020000000 =
        ({ liftScenario with _isInGesture := false, _last_abs_z := 0,
                             z_avg := (liftScenario.z_avg.stop).1,
                             gestureStopTime := 1020000000 }, []) := by
  decide

/-- C25 (amended): for a gesture notification with code 0 (lift) processed outside the
typing window, afterwards the session flag is clear, `gestureStopTime` is the packet's
processing time, the smoother is the one `ScrollSmoother::stop()` leaves (one call), no
pointer, scroll or gesture event is emitted, and the momentum timer is armed (with
`momentumscrollInteval`) if and only if `stop()` returned a positive fling delta. -/
theorem C25_lift (s : ApplePS2SentelicFSP) (packet : List Nat)
    (packetSize now_abs now_ns uptime : Nat)
    (hk : ¬ u64_sub now_ns s.keytime < s.maxaftertyping)
    (hn : pkt packet 0 >>> FSP_PKT_TYPE_SHIFT = FSP_PKT_TYPE_NOTIFY)
    (hg : pkt packet 1 = 0xBA) (h2 : pkt packet 2 = 0) :
    dispatchRelativePointerEventWithPacket s packet packetSize now_abs now_ns uptime =
      ({ s with _last_abs_x := 0, _last_abs_y := 0, _last_abs_z := (pkt packet 3 : Int),
                _isInGesture := false, z_avg := (s.z_avg.stop).1, gestureStopTime := now_ns },
       if (s.z_avg.stop).2 > 0 then [Event.timerTimeout s.momentumscrollInteval] else []) := by
  have hg1 : pkt packet 1 = FSP_CX_NOTIFY_MSG_TYPE_GUESTURE := hg
  simp [dispatchRelativePointerEventWithPacket, gestureSwitch, hk, hn, hg1, h2, fallthroughCases]

/-- C25 (amended) after the magnitudes 10 and 20: `stop()` returns 320 and the lift arms
the timer with the interval 20,000,000. -/
theorem C25_lift_witness :
    ¬ u64_sub 1020000000 flingScenario.keytime < flingScenario.maxaftertyping ∧
      pkt [0x88, 0xBA, 0, 0] 0 >>> FSP_PKT_TYPE_SHIFT = FSP_PKT_TYPE_NOTIFY ∧
      pkt [0x88, 0xBA, 0, 0] 1 = 0xBA ∧ pkt [0x88, 0xBA, 0, 0] 2 = 0 ∧
      (flingScenario.z_avg.stop).2 = 320 ∧
      dispatchRelativePointerEventWithPacket flingScenario [0x88, 0xBA, 0, 0] 4
          1020000000 1020000000 1020000000 =
        ({ flingScenario with _last_abs_z := 0, _isInGesture := false,
                              z_avg := (flingScenario.z_avg.stop).1,
                              gestureStopTime := 1020000000 },
         [Event.timerTimeout 20000000]) :=
  ⟨by decide, by decide, by decide, by decide, by decide,
   (C25_lift flingScenario [0x88, 0xBA, 0, 0] 4 1020000000 1020000000 1020000000
     (by decide) (by decide) (by decide) (by decide)).trans (by decide)⟩

/-! ## Absolute packets -/

theorem abs_type_ne_notify (packet : List Nat)
    (ha : pkt packet 0 >>> FSP_PKT_TYPE_SHIFT = FSP_PKT_TYPE_ABS) :
    ¬ pkt packet 0 >>> FSP_PKT_TYPE_SHIFT = FSP_PKT_TYPE_NOTIFY := by
  rw [ha]; decide

/-- C26: for an Absolute packet processed while a session is active, outside the typing
window: no pointer or scroll event is emitted (the only event there can be is the arming
of the momentum timer). If the decoded coordinates are (0,0) the session flag is cleared,
`gestureStopTime` is set to now, the stored previous coordinates become (0,0), both motion
filters are reset and `ScrollSmoother::stop()` is called, the timer being armed when it
returns a positive delta; otherwise the whole state is left as it was and nothing is
emitted. -/
theorem C26_absolute_in_session (s : ApplePS2SentelicFSP) (packet : List Nat)
    (packetSize now_abs now_ns uptime : Nat)
    (hk : ¬ u64_sub now_ns s.keytime < s.maxaftertyping)
    (ha : pkt packet 0 >>> FSP_PKT_TYPE_SHIFT = FSP_PKT_TYPE_ABS)
    (hs : s._isInGesture = true) :
    (∀ e ∈ (dispatchRelativePointerEventWithPacket s packet packetSize now_abs now_ns uptime).2,
        e = Event.timerTimeout s.momentumscrollInteval) ∧
      ((fsp_abs_decode packet).abs_x = 0 ∧ (fsp_abs_decode packet).abs_y = 0 →
        dispatchRelativePointerEventWithPacket s packet packetSize now_abs now_ns uptime =
          ({ s with _isInGesture := false, gestureStopTime := now_ns, _last_abs_x := 0,
                    _last_abs_y := 0, x_avg := s.x_avg.reset, y_avg := s.y_avg.reset,
                    z_avg := (s.z_avg.stop).1 },
           if (s.z_avg.stop).2 > 0 then [Event.timerTimeout s.momentumscrollInteval] else [])) ∧
      (¬ ((fsp_abs_decode packet).abs_x = 0 ∧ (fsp_abs_decode packet).abs_y = 0) →
        dispatchRelativePointerEventWithPacket s packet packetSize now_abs now_ns uptime =
          (s, [])) := by
  have hn := abs_type_ne_notify packet ha
  have hs1 : s._isInGesture = true := hs
  by_cases hz : (fsp_abs_decode packet).abs_y = 0 ∧ (fsp_abs_decode packet).abs_x = 0
  · have hz1 : (fsp_abs_decode packet).abs_x = 0 ∧ (fsp_abs_decode packet).abs_y = 0 :=
      ⟨hz.2, hz.1⟩
    have e : dispatchRelativePointerEventWithPacket s packet packetSize now_abs now_ns uptime =
        ({ s with _isInGesture := false, gestureStopTime := now_ns, _last_abs_x := 0,
                  _last_abs_y := 0, x_avg := s.x_avg.reset, y_avg := s.y_avg.reset,
                  z_avg := (s.z_avg.stop).1 },
         if (s.z_avg.stop).2 > 0 then [Event.timerTimeout s.momentumscrollInteval] else []) := by
      simp only [dispatchRelativePointerEventWithPacket, if_neg hk, if_neg hn, if_pos ha, hs1,
        if_true, if_pos hz]
    refine ⟨?_, fun _ => e, fun h => absurd hz1 h⟩
    rw [e]
    intro ev hev
    by_cases hp : (s.z_avg.stop).2 > 0
    · rw [if_pos hp] at hev
      simpa using hev
    · rw [if_neg hp] at hev
      simp at hev
  · have hz1 : ¬ ((fsp_abs_decode packet).abs_x = 0 ∧ (fsp_abs_decode packet).abs_y = 0) :=
      fun h => hz ⟨h.2, h.1⟩
    have e : dispatchRelativePointerEventWithPacket s packet packetSize now_abs now_ns uptime =
        (s, []) := by
      simp only [dispatchRelativePointerEventWithPacket, if_neg hk, if_neg hn, if_pos ha, hs1,
        if_true, if_neg hz]
    refine ⟨?_, fun h => absurd h hz1, fun _ => e⟩
    rw [e]
    intro ev hev
    simp at hev

/-- C26 in the session after the magnitudes 10 and 20: the Absolute packet with
coordinates (0,0) closes the session and arms the timer, and emits nothing else. -/
theorem C26_absolute_in_session_witness :
    ¬ u64_sub 1020000000 flingScenario.keytime < flingScenario.maxaftertyping ∧
      pkt [0x48, 0, 0, 0] 0 >>> FSP_PKT_TYPE_SHIFT = FSP_PKT_TYPE_ABS ∧
      flingScenario._isInGesture = true ∧
      ((fsp_abs_decode [0x48, 0, 0, 0]).abs_x = 0 ∧ (fsp_abs_decode [0x48, 0, 0, 0]).abs_y = 0) ∧
      dispatchRelativePointerEventWithPacket flingScenario [0x48, 0, 0, 0] 4
          1020000000 1020000000 1020000000 =
        ({ flingScenario with _isInGesture := false, gestureStopTime := 1020000000,
                              z_avg := (flingScenario.z_avg.stop).1 },
         [Event.timerTimeout 20000000]) :=
  ⟨by decide, by decide, by decide, by decide,
   ((C26_absolute_in_session flingScenario [0x48, 0, 0, 0] 4 1020000000 1020000000 1020000000
     (by decide) (by decide) (by decide)).2.1 (by decide)).trans (by decide)⟩

/-- C27: post-gesture lockout. For an Absolute packet processed while no session is
active, in a state whose lockout is the 500,000,000 ns that `init` sets, if
`0 ≤ now - gestureStopTime < 500,000,000` the routine emits nothing, whatever the bytes of
the packet, and returns the whole state unchanged (inside the typing window as well as
outside it). -/
theorem C27_post_gesture_lockout (s : ApplePS2SentelicFSP) (packet : List Nat)
    (packetSize now_abs now_ns uptime : Nat)
    (ha : pkt packet 0 >>> FSP_PKT_TYPE_SHIFT = FSP_PKT_TYPE_ABS)
    (hs : s._isInGesture = false)
    (hlock : s.scrolllockTime = 500000000) (hnow : now_ns < 18446744073709551616)
    (hle : s.gestureStopTime ≤ now_ns) (hlt : now_ns - s.gestureStopTime < 500000000) :
    dispatchRelativePointerEventWithPacket s packet packetSize now_abs now_ns uptime =
      (s, []) := by
  have hn := abs_type_ne_notify packet ha
  have hl : u64_sub now_ns s.gestureStopTime < s.scrolllockTime := by
    rw [u64_sub_of_le _ _ hnow hle, hlock]; exact hlt
  by_cases hk : u64_sub now_ns s.keytime < s.maxaftertyping
  · simp only [dispatchRelativePointerEventWithPacket, if_pos hk]
  · simp [dispatchRelativePointerEventWithPacket, if_neg hk, if_neg hn, if_pos ha, hs, if_pos hl]

/-- C27 for a session closed 1.5 s after start and an Absolute packet with the left button
down 0.2 s later. -/
theorem C27_post_gesture_lockout_witness :
    pkt [0x59, 0x40, 0x20, 0x05] 0 >>> FSP_PKT_TYPE_SHIFT = FSP_PKT_TYPE_ABS ∧
      ({ ApplePS2SentelicFSP.init with gestureStopTime := 1500000000 })._isInGesture = false ∧
      ({ ApplePS2SentelicFSP.init with gestureStopTime := 1500000000 }).scrolllockTime =
        500000000 ∧
      1700000000 < 18446744073709551616 ∧
      ({ ApplePS2SentelicFSP.init with gestureStopTime := 1500000000 }).gestureStopTime ≤
        1700000000 ∧
      1700000000 -
          ({ ApplePS2SentelicFSP.init with gestureStopTime := 1500000000 }).gestureStopTime <
        500000000 ∧
      dispatchRelativePointerEventWithPacket
          { ApplePS2SentelicFSP.init with gestureStopTime := 1500000000 }
          [0x59, 0x40, 0x20, 0x05] 4 1700000000 1700000000 1700000000 =
        ({ ApplePS2SentelicFSP.init with gestureStopTime := 1500000000 }, []) :=
  ⟨by decide, by decide, by decide, by decide, by decide, by decide,
   C27_post_gesture_lockout { ApplePS2SentelicFSP.init with gestureStopTime := 1500000000 }
     [0x59, 0x40, 0x20, 0x05] 4 1700000000 1700000000 1700000000 (by decide) (by decide)
     (by decide) (by decide) (by decide) (by decide)⟩

/-- What the routine does with an Absolute packet while no session is active and neither
time window is in effect. -/
theorem abs_dispatch (s : ApplePS2SentelicFSP) (packet : List Nat)
    (packetSize now_abs now_ns uptime : Nat)
    (hk : ¬ u64_sub now_ns s.keytime < s.maxaftertyping)
    (ha : pkt packet 0 >>> FSP_PKT_TYPE_SHIFT = FSP_PKT_TYPE_ABS)
    (hs : s._isInGesture = false)
    (hl : ¬ u64_sub now_ns s.gestureStopTime < s.scrolllockTime) :
    dispatchRelativePointerEventWithPacket s packet packetSize now_abs now_ns uptime =
        (if (fsp_abs_decode packet).abs_x = 0 ∧ (fsp_abs_decode packet).abs_y = 0 then
          ({ s with x_avg := s.x_avg.reset, y_avg := s.y_avg.reset,
                    _last_abs_x := 0, _last_abs_y := 0 },
           [Event.relativePointer 0 0 (absButtons (fsp_abs_decode packet)) now_abs])
         else if s._last_abs_x = 0 ∧ s._last_abs_y = 0 then
          ({ s with _last_abs_x := (fsp_abs_decode packet).abs_x,
                    _last_abs_y := (fsp_abs_decode packet).abs_y },
           [Event.relativePointer 0 0 (absButtons (fsp_abs_decode packet)) now_abs])
         else
          ({ s with x_avg := (s.x_avg.filter 3 (fsp_abs_decode packet).abs_x).1,
                    y_avg := (s.y_avg.filter 3 (fsp_abs_decode packet).abs_y).1,
                    _last_abs_x := (s.x_avg.filter 3 (fsp_abs_decode packet).abs_x).2,
                    _last_abs_y := (s.y_avg.filter 3 (fsp_abs_decode packet).abs_y).2 },
           [Event.relativePointer
              (int_sub (s.x_avg.filter 3 (fsp_abs_decode packet).abs_x).2 s._last_abs_x)
              (int_sub (s.y_avg.filter 3 (fsp_abs_decode packet).abs_y).2 s._last_abs_y)
              (absButtons (fsp_abs_decode packet)) now_abs])) := by
  have hn := abs_type_ne_notify packet ha
  simp only [dispatchRelativePointerEventWithPacket, absButtons, if_neg hk, if_neg hn, if_pos ha,
    hs, if_neg hl]
  by_cases hz : (fsp_abs_decode packet).abs_y = 0 ∧ (fsp_abs_decode packet).abs_x = 0
  · have hz1 : (fsp_abs_decode packet).abs_x = 0 ∧ (fsp_abs_decode packet).abs_y = 0 :=
      ⟨hz.2, hz.1⟩
    simp only [if_pos hz, if_pos hz1, hz.1, hz.2]
    rfl
  · have hz1 : ¬ ((fsp_abs_decode packet).abs_x = 0 ∧ (fsp_abs_decode packet).abs_y = 0) :=
      fun h => hz ⟨h.2, h.1⟩
    simp only [if_neg hz, if_neg hz1]
    rfl

/-- A filter that was just reset returns its first sample. -/
theorem SimpleAverage2.filter_after_reset (a : SimpleAverage2) (x : Int) (hx : inIntRange x) :
    (a.reset.filter 3 x).2 = x := by
  have e1 : int_add 0 1 = 1 := by decide
  have e0 : int_add 0 x = x := by
    rw [int_add_eq _ _ (by simpa using hx)]; ring
  simp [SimpleAverage2.filter, SimpleAverage2.reset, e1, e0]

theorem abs_decode_range (packet : List Nat) :
    (0 ≤ (fsp_abs_decode packet).abs_x ∧ (fsp_abs_decode packet).abs_x ≤ 1023) ∧
      (0 ≤ (fsp_abs_decode packet).abs_y ∧ (fsp_abs_decode packet).abs_y ≤ 1023) := by
  have h1 := pkt_lt packet 1
  have h2 := pkt_lt packet 2
  have h3 := pkt_lt packet 3
  have hs : pkt packet 3 >>> 2 < 256 := by
    rw [Nat.shiftRight_eq_div_pow]
    omega
  have ex : (fsp_abs_decode packet).abs_x =
      ((4 * pkt packet 1 + (pkt packet 3 >>> 2) % 4 : Nat) : Int) := by
    show int_or (int_shl (pkt packet 1) 2) (int_and (int_shr (pkt packet 3) 2) 0x03) = _
    rw [int_shr_natCast, abs_coordinate _ _ h1 hs]
  have ey : (fsp_abs_decode packet).abs_y =
      ((4 * pkt packet 2 + pkt packet 3 % 4 : Nat) : Int) := by
    show int_or (int_shl (pkt packet 2) 2) (int_and (pkt packet 3) 0x03) = _
    rw [abs_coordinate _ _ h2 h3]
  rw [ex, ey]
  omega

/-- C30: the delta rule of Absolute packets. For an Absolute packet processed with no
session active and neither the typing window nor the post-gesture lockout in effect,
exactly one pointer event is emitted (with the button mask of the packet) and: if the
current coordinates are (0,0), the delta is (0,0), both motion filters are reset and the
stored previous coordinates become (0,0); else if the stored previous coordinates are
(0,0), the delta is (0,0), the filters are left as they are and the raw coordinates are
stored; otherwise `dx = x_avg.filter(abs_x) - _last_abs_x` and
`dy = y_avg.filter(abs_y) - _last_abs_y` (C `int` subtraction, which is the plain
difference whenever that fits an `int`), and the filtered values are stored. -/
theorem C30_absolute_delta_rule (s : ApplePS2SentelicFSP) (packet : List Nat)
    (packetSize now_abs now_ns uptime : Nat)
    (hk : ¬ u64_sub now_ns s.keytime < s.maxaftertyping)
    (ha : pkt packet 0 >>> FSP_PKT_TYPE_SHIFT = FSP_PKT_TYPE_ABS)
    (hs : s._isInGesture = false)
    (hl : ¬ u64_sub now_ns s.gestureStopTime < s.scrolllockTime) :
    dispatchRelativePointerEventWithPacket s packet packetSize now_abs now_ns uptime =
        (if (fsp_abs_decode packet).abs_x = 0 ∧ (fsp_abs_decode packet).abs_y = 0 then
          ({ s with x_avg := s.x_avg.reset, y_avg := s.y_avg.reset,
                    _last_abs_x := 0, _last_abs_y := 0 },
           [Event.relativePointer 0 0 (absButtons (fsp_abs_decode packet)) now_abs])
         else if s._last_abs_x = 0 ∧ s._last_abs_y = 0 then
          ({ s with _last_abs_x := (fsp_abs_decode packet).abs_x,
                    _last_abs_y := (fsp_abs_decode packet).abs_y },
           [Event.relativePointer 0 0 (absButtons (fsp_abs_decode packet)) now_abs])
         else
          ({ s with x_avg := (s.x_avg.filter 3 (fsp_abs_decode packet).abs_x).1,
                    y_avg := (s.y_avg.filter 3 (fsp_abs_decode packet).abs_y).1,
                    _last_abs_x := (s.x_avg.filter 3 (fsp_abs_decode packet).abs_x).2,
                    _last_abs_y := (s.y_avg.filter 3 (fsp_abs_decode packet).abs_y).2 },
           [Event.relativePointer
              (int_sub (s.x_avg.filter 3 (fsp_abs_decode packet).abs_x).2 s._last_abs_x)
              (int_sub (s.y_avg.filter 3 (fsp_abs_decode packet).abs_y).2 s._last_abs_y)
              (absButtons (fsp_abs_decode packet)) now_abs])) ∧
      (∀ a b : Int, inIntRange (a - b) → int_sub a b = a - b) :=
  ⟨abs_dispatch s packet packetSize now_abs now_ns uptime hk ha hs hl,
   fun a b h => wrap_of_inIntRange _ h⟩

/-- C30 with a finger resting at (400, 200): the Absolute packet with coordinates
(407, 211) moves the pointer by (7, 11). -/
theorem C30_absolute_delta_rule_witness :
    ¬ u64_sub 1010000000 contactStarted.keytime < contactStarted.maxaftertyping ∧
      pkt [0x48, 101, 52, 0x0F] 0 >>> FSP_PKT_TYPE_SHIFT = FSP_PKT_TYPE_ABS ∧
      contactStarted._isInGesture = false ∧
      ¬ u64_sub 1010000000 contactStarted.gestureStopTime < contactStarted.scrolllockTime ∧
      (dispatchRelativePointerEventWithPacket contactStarted [0x48, 101, 52, 0x0F] 4
          1010000000 1010000000 1010000000).2 = [Event.relativePointer 7 11 1 1010000000] :=
  ⟨by decide, by decide, by decide, by decide,
   (congrArg Prod.snd (C30_absolute_delta_rule contactStarted [0x48, 101, 52, 0x0F] 4
     1010000000 1010000000 1010000000 (by decide) (by decide) (by decide) (by decide)).1).trans
     (by decide)⟩

/-- C28: with no session active and neither time window in effect, an Absolute packet with
coordinates (0,0), processed in any state (after any history of contact packets), empties
both motion filters and emits the delta (0,0); the next Absolute packet, with coordinates
that are not (0,0), emits the delta (0,0) as well; and the packet after that emits a delta
that is a function of the coordinates of these two packets alone: (0,0) if its own
coordinates are (0,0), and otherwise the plain difference of the two coordinate pairs. -/
theorem C28_contact_loss_resets (s : ApplePS2SentelicFSP) (p0 p1 p2 : List Nat)
    (size a0 n0 u0 a1 n1 u1 a2 n2 u2 : Nat)
    (hs : s._isInGesture = false)
    (ht0 : pkt p0 0 >>> FSP_PKT_TYPE_SHIFT = FSP_PKT_TYPE_ABS)
    (ht1 : pkt p1 0 >>> FSP_PKT_TYPE_SHIFT = FSP_PKT_TYPE_ABS)
    (ht2 : pkt p2 0 >>> FSP_PKT_TYPE_SHIFT = FSP_PKT_TYPE_ABS)
    (hk0 : ¬ u64_sub n0 s.keytime < s.maxaftertyping)
    (hk1 : ¬ u64_sub n1 s.keytime < s.maxaftertyping)
    (hk2 : ¬ u64_sub n2 s.keytime < s.maxaftertyping)
    (hl0 : ¬ u64_sub n0 s.gestureStopTime < s.scrolllockTime)
    (hl1 : ¬ u64_sub n1 s.gestureStopTime < s.scrolllockTime)
    (hl2 : ¬ u64_sub n2 s.gestureStopTime < s.scrolllockTime)
    (hz0 : (fsp_abs_decode p0).abs_x = 0 ∧ (fsp_abs_decode p0).abs_y = 0)
    (hz1 : ¬ ((fsp_abs_decode p1).abs_x = 0 ∧ (fsp_abs_decode p1).abs_y = 0)) :
    ((dispatchRelativePointerEventWithPacket s p0 size a0 n0 u0).1.x_avg.m_count = 0 ∧
        (dispatchRelativePointerEventWithPacket s p0 size a0 n0 u0).1.x_avg.m_sum = 0 ∧
        (dispatchRelativePointerEventWithPacket s p0 size a0 n0 u0).1.y_avg.m_count = 0 ∧
        (dispatchRelativePointerEventWithPacket s p0 size a0 n0 u0).1.y_avg.m_sum = 0) ∧
      (dispatchRelativePointerEventWithPacket s p0 size a0 n0 u0).2 =
        [Event.relativePointer 0 0 (absButtons (fsp_abs_decode p0)) a0] ∧
      (dispatchRelativePointerEventWithPacket
          (dispatchRelativePointerEventWithPacket s p0 size a0 n0 u0).1 p1 size a1 n1 u1).2 =
        [Event.relativePointer 0 0 (absButtons (fsp_abs_decode p1)) a1] ∧
      (dispatchRelativePointerEventWithPacket
          (dispatchRelativePointerEventWithPacket
            (dispatchRelativePointerEventWithPacket s p0 size a0 n0 u0).1 p1 size a1 n1 u1).1
          p2 size a2 n2 u2).2 =
        [Event.relativePointer
          (if (fsp_abs_decode p2).abs_x = 0 ∧ (fsp_abs_decode p2).abs_y = 0 then 0
           else (fsp_abs_decode p2).abs_x - (fsp_abs_decode p1).abs_x)
          (if (fsp_abs_decode p2).abs_x = 0 ∧ (fsp_abs_decode p2).abs_y = 0 then 0
           else (fsp_abs_decode p2).abs_y - (fsp_abs_decode p1).abs_y)
          (absButtons (fsp_abs_decode p2)) a2] := by
  have r1 := abs_decode_range p1
  have r2 := abs_decode_range p2
  have e0 := abs_dispatch s p0 size a0 n0 u0 hk0 ht0 hs hl0
  rw [if_pos hz0] at e0
  generalize dispatchRelativePointerEventWithPacket s p0 size a0 n0 u0 = d0 at e0 ⊢
  have e1 := abs_dispatch d0.1 p1 size a1 n1 u1 (by rw [e0]; exact hk1) ht1 (by rw [e0]; exact hs)
    (by rw [e0]; exact hl1)
  have hlast0 : d0.1._last_abs_x = 0 ∧ d0.1._last_abs_y = 0 := by rw [e0]; exact ⟨rfl, rfl⟩
  rw [if_neg hz1, if_pos hlast0] at e1
  generalize dispatchRelativePointerEventWithPacket d0.1 p1 size a1 n1 u1 = d1 at e1 ⊢
  have e2 := abs_dispatch d1.1 p2 size a2 n2 u2 (by rw [e1, e0]; exact hk2) ht2
    (by rw [e1, e0]; exact hs) (by rw [e1, e0]; exact hl2)
  have hlast1 : ¬ (d1.1._last_abs_x = 0 ∧ d1.1._last_abs_y = 0) := by rw [e1]; exact hz1
  have hx1 : d1.1._last_abs_x = (fsp_abs_decode p1).abs_x := by rw [e1]
  have hy1 : d1.1._last_abs_y = (fsp_abs_decode p1).abs_y := by rw [e1]
  have hxa : d1.1.x_avg = s.x_avg.reset := by rw [e1, e0]
  have hya : d1.1.y_avg = s.y_avg.reset := by rw [e1, e0]
  refine ⟨by rw [e0]; exact ⟨rfl, rfl, rfl, rfl⟩, by rw [e0], by rw [e1], ?_⟩
  rw [e2]
  by_cases hz2 : (fsp_abs_decode p2).abs_x = 0 ∧ (fsp_abs_decode p2).abs_y = 0
  · rw [if_pos hz2, if_pos hz2, if_pos hz2]
  · rw [if_neg hz2, if_neg hz2, if_neg hz2, if_neg hlast1, hxa, hya, hx1, hy1,
      SimpleAverage2.filter_after_reset _ _ (by unfold inIntRange; omega),
      SimpleAverage2.filter_after_reset _ _ (by unfold inIntRange; omega)]
    have sx : int_sub (fsp_abs_decode p2).abs_x (fsp_abs_decode p1).abs_x =
        (fsp_abs_decode p2).abs_x - (fsp_abs_decode p1).abs_x :=
      wrap_of_inIntRange _ (by unfold inIntRange; omega)
    have sy : int_sub (fsp_abs_decode p2).abs_y (fsp_abs_decode p1).abs_y =
        (fsp_abs_decode p2).abs_y - (fsp_abs_decode p1).abs_y :=
      wrap_of_inIntRange _ (by unfold inIntRange; omega)
    rw [sx, sy]

/-- C28 with a finger resting at (400, 200) before the (0,0) report: the packets (0,0),
(400, 200), (407, 211) give the deltas (0,0), (0,0), (7, 11). -/
theorem C28_contact_loss_resets_witness :
    contactStarted._isInGesture = false ∧
      pkt [0x48, 0, 0, 0] 0 >>> FSP_PKT_TYPE_SHIFT = FSP_PKT_TYPE_ABS ∧
      pkt [0x48, 100, 50, 0] 0 >>> FSP_PKT_TYPE_SHIFT = FSP_PKT_TYPE_ABS ∧
      pkt [0x48, 101, 52, 0x0F] 0 >>> FSP_PKT_TYPE_SHIFT = FSP_PKT_TYPE_ABS ∧
      ((fsp_abs_decode [0x48, 0, 0, 0]).abs_x = 0 ∧ (fsp_abs_decode [0x48, 0, 0, 0]).abs_y = 0) ∧
      ¬ ((fsp_abs_decode [0x48, 100, 50, 0]).abs_x = 0 ∧
        (fsp_abs_decode [0x48, 100, 50, 0]).abs_y = 0) ∧
      (dispatchRelativePointerEventWithPacket
          (dispatchRelativePointerEventWithPacket
            (dispatchRelativePointerEventWithPacket contactStarted [0x48, 0, 0, 0] 4
              1010000000 1010000000 1010000000).1
            [0x48, 100, 50, 0] 4 1020000000 1020000000 1020000000).1
          [0x48, 101, 52, 0x0F] 4 1030000000 1030000000 1030000000).2 =
        [Event.relativePointer 7 11 1 1030000000] :=
  ⟨by decide, by decide, by decide, by decide, by decide, by decide,
   (C28_contact_loss_resets contactStarted [0x48, 0, 0, 0] [0x48, 100, 50, 0]
     [0x48, 101, 52, 0x0F] 4 1010000000 1010000000 1010000000 1020000000 1020000000 1020000000
     1030000000 1030000000 1030000000 (by decide) (by decide) (by decide) (by decide)
     (by decide) (by decide) (by decide) (by decide) (by decide) (by decide) (by decide)
     (by decide)).2.2.2.trans (by decide)⟩

/-! ## Packet assembly in the interrupt routine -/

theorem startsPacket_iff (b : Nat) (hb : b < 256) :
    (b = kSC_Acknowledge ∨ (b &&& 0x08) = 0) ↔ Spec.startsPacket b = false := by
  unfold kSC_Acknowledge Spec.startsPacket
  interval_cases b <;> decide


theorem interruptOccurred_discard (s : ApplePS2SentelicFSP) (b : Nat)
    (hc : s._packetByteCount = 0) (hb : Spec.startsPacket (b % 256) = false) :
    interruptOccurred s b = (s, kPS2IR_packetBuffering) := by
  have h := (startsPacket_iff (b % 256) (Nat.mod_lt _ (by norm_num))).2 hb
  unfold interruptOccurred
  simp only
  rw [if_pos ⟨hc, h⟩]

theorem interruptOccurred_store (s : ApplePS2SentelicFSP) (b : Nat)
    (hc : s._packetByteCount = 0 → Spec.startsPacket (b % 256) = true)
    (hlt : s._packetByteCount + 1 < 4294967296)
    (hn : s._packetByteCount + 1 ≠ s._packetSize) :
    interruptOccurred s b =
      ({ s with _ringBuffer := s._ringBuffer.storeAtHead s._packetByteCount (b % 256),
                _packetByteCount := s._packetByteCount + 1 }, kPS2IR_packetBuffering) := by
  have h : ¬ (s._packetByteCount = 0 ∧
      (b % 256 = kSC_Acknowledge ∨ (b % 256 &&& 0x08) = 0)) := by
    rintro ⟨h0, h1⟩
    have := (startsPacket_iff (b % 256) (Nat.mod_lt _ (by norm_num))).1 h1
    rw [hc h0] at this
    exact absurd this (by decide)
  unfold interruptOccurred
  simp only
  rw [if_neg h, Nat.mod_eq_of_lt hlt, if_neg hn]

theorem interruptOccurred_complete (s : ApplePS2SentelicFSP) (b : Nat)
    (hc : s._packetByteCount = 0 → Spec.startsPacket (b % 256) = true)
    (hlt : s._packetByteCount + 1 < 4294967296)
    (hn : s._packetByteCount + 1 = s._packetSize) :
    interruptOccurred s b =
      ({ s with _ringBuffer := (s._ringBuffer.storeAtHead s._packetByteCount
                  (b % 256)).advanceHead kPacketLengthMax,
                _packetByteCount := 0 }, kPS2IR_packetReady) := by
  have h : ¬ (s._packetByteCount = 0 ∧
      (b % 256 = kSC_Acknowledge ∨ (b % 256 &&& 0x08) = 0)) := by
    rintro ⟨h0, h1⟩
    have := (startsPacket_iff (b % 256) (Nat.mod_lt _ (by norm_num))).1 h1
    rw [hc h0] at this
    exact absurd this (by decide)
  unfold interruptOccurred
  simp only
  rw [if_neg h, Nat.mod_eq_of_lt hlt, if_pos hn]

theorem getD_set_nat (l : List Nat) (i j v : Nat) :
    (l.set i v).getD j 0 = if i = j ∧ i < l.length then v else l.getD j 0 := by
  simp only [List.getD_eq_getElem?_getD, List.getElem?_set]
  by_cases h : i = j
  · subst h
    by_cases h2 : i < l.length
    · simp [h2]
    · simp [h2, List.getElem?_eq_none (not_lt.mp h2)]
  · simp [h]

theorem assemble_one_discard (n : Nat) (b : Nat)
    (hb : Spec.startsPacket (b % 256) = false) :
    Spec.assemble n [] [b] =
      { packets := [], inProgress := [], results := [kPS2IR_packetBuffering] } := by
  simp [Spec.assemble, hb]

theorem assemble_one_complete (n : Nat) (cur : List Nat) (b : Nat)
    (hd : ¬ (cur = [] ∧ Spec.startsPacket (b % 256) = false)) (hfull : cur.length + 1 = n) :
    Spec.assemble n cur [b] =
      { packets := [cur ++ [b % 256]], inProgress := [], results := [kPS2IR_packetReady] } := by
  simp only [Spec.assemble, if_neg hd, if_pos hfull]

theorem assemble_one_store (n : Nat) (cur : List Nat) (b : Nat)
    (hd : ¬ (cur = [] ∧ Spec.startsPacket (b % 256) = false)) (hfull : ¬ cur.length + 1 = n) :
    Spec.assemble n cur [b] =
      { packets := [], inProgress := cur ++ [b % 256], results := [kPS2IR_packetBuffering] } := by
  simp only [Spec.assemble, if_neg hd, if_neg hfull]

theorem advanceHead_buffer (r : RingBuffer) (m : Nat) :
    (r.advanceHead m).m_buffer = r.m_buffer := by
  unfold RingBuffer.advanceHead
  split_ifs <;> rfl

theorem advanceHead_head (r : RingBuffer) (m : Nat) :
    (r.advanceHead m).m_head = (r.m_head + m) % RingBuffer.N := by
  unfold RingBuffer.advanceHead
  split_ifs <;> rfl

theorem advanceHead_count (r : RingBuffer) (c0 d : Nat) (hc4 : c0 % 4 = 0)
    (h : r.m_count = min 128 (c0 + 4 * d)) :
    (r.advanceHead 4).m_count = min 128 (c0 + 4 * (d + 1)) := by
  have hN : RingBuffer.N = 128 := rfl
  unfold RingBuffer.advanceHead
  rw [hN]
  split_ifs with hov
  · show r.m_count = _
    omega
  · show r.m_count + 4 = _
    omega

theorem advanceHead_tail (r : RingBuffer) (ht : r.m_tail < 128) (hc : r.m_count ≤ 128)
    (hcons : (r.m_tail + r.m_count) % 128 = r.m_head) :
    (r.advanceHead 4).m_tail < 128 ∧
      ((r.advanceHead 4).m_tail + (r.advanceHead 4).m_count) % 128 = (r.m_head + 4) % 128 ∧
      (r.m_count + 4 ≤ 128 → (r.advanceHead 4).m_tail = r.m_tail) := by
  have hN : RingBuffer.N = 128 := rfl
  unfold RingBuffer.advanceHead
  rw [hN]
  split_ifs with hov
  · refine ⟨?_, ?_, ?_⟩
    · show (r.m_tail + 4) % 128 < 128
      omega
    · show ((r.m_tail + 4) % 128 + r.m_count) % 128 = _
      omega
    · intro h
      omega
  · refine ⟨ht, ?_, fun _ => rfl⟩
    show (r.m_tail + (r.m_count + 4)) % 128 = _
    omega

theorem assembling_step (n : Nat) (r0 : RingBuffer) (hn : n = 3 ∨ n = 4)
    (hh : r0.m_head % 4 = 0) (hh2 : r0.m_head < 128) (hc4 : r0.m_count % 4 = 0)
    (hc128 : r0.m_count ≤ 128) (ht0 : r0.m_tail < 128)
    (hcons : (r0.m_tail + r0.m_count) % 128 = r0.m_head)
    (s : ApplePS2SentelicFSP) (done : List (List Nat)) (cur : List Nat) (b : Nat)
    (h : Assembling n r0 s done cur) :
    Assembling n r0 (interruptOccurred s b).1
        (done ++ (Spec.assemble n cur [b]).packets) (Spec.assemble n cur [b]).inProgress ∧
      [(interruptOccurred s b).2] = (Spec.assemble n cur [b]).results ∧
      { (interruptOccurred s b).1 with _ringBuffer := s._ringBuffer,
                                       _packetByteCount := s._packetByteCount } = s := by
  have h' := h
  obtain ⟨hsize, hcount, hcur, hlen, hhead, hdone, hcc, hcnt, htl, hco, hroom⟩ := h
  have hN : RingBuffer.N = 128 := rfl
  have hK : kPacketLengthMax = 4 := rfl
  by_cases hd : cur = [] ∧ Spec.startsPacket (b % 256) = false
  · obtain ⟨hc, hb⟩ := hd
    subst hc
    rw [interruptOccurred_discard s b hcount hb, assemble_one_discard n b hb]
    exact ⟨by simpa using h', rfl, rfl⟩
  · have hstart : s._packetByteCount = 0 → Spec.startsPacket (b % 256) = true := by
      intro h0
      have : cur = [] := List.length_eq_zero.mp (by omega)
      by_contra hne
      exact hd ⟨this, by simpa using hne⟩
    rw [hN, hK] at hhead hcnt
    rw [hN] at hlen htl hco
    simp only [hN, hK] at hroom
    have hcurlen : (if cur = [] then 0 else 4) ≤ 4 := by split_ifs <;> omega
    by_cases hfull : cur.length + 1 = n
    · rw [interruptOccurred_complete s b hstart (by omega) (by omega),
        assemble_one_complete n cur b hd hfull]
      have hc1 : (s._ringBuffer.storeAtHead s._packetByteCount (b % 256)).m_count =
          min 128 (r0.m_count + 4 * done.length) := hcnt
      have hcn := advanceHead_count (s._ringBuffer.storeAtHead s._packetByteCount (b % 256))
        r0.m_count done.length hc4 hc1
      have htn := advanceHead_tail (s._ringBuffer.storeAtHead s._packetByteCount (b % 256))
        htl (by rw [hc1]; omega) hco
      refine ⟨⟨hsize, rfl, ?_, ?_, ?_, ?_, ?_, ?_, ?_, ?_, ?_⟩, rfl, rfl⟩
      · show 0 < n
        omega
      · show ((s._ringBuffer.storeAtHead s._packetByteCount (b % 256)).advanceHead
          kPacketLengthMax).m_buffer.length = RingBuffer.N
        rw [advanceHead_buffer]
        simp [RingBuffer.storeAtHead, hlen, hN]
      · show ((s._ringBuffer.storeAtHead s._packetByteCount (b % 256)).advanceHead
          kPacketLengthMax).m_head = _
        rw [advanceHead_head]
        simp only [RingBuffer.storeAtHead, hhead, hN, hK, List.length_append,
          List.length_singleton]
        omega
      · intro p hp
        rcases List.mem_append.mp hp with hp | hp
        · exact hdone p hp
        · rw [List.mem_singleton.mp hp]
          simp [hfull]
      · intro i hi
        simp at hi
      · show ((s._ringBuffer.storeAtHead s._packetByteCount (b % 256)).advanceHead
          kPacketLengthMax).m_count = _
        rw [hN, hK, hcn, List.length_append, List.length_singleton]
      · show ((s._ringBuffer.storeAtHead s._packetByteCount (b % 256)).advanceHead
          kPacketLengthMax).m_tail < RingBuffer.N
        rw [hN, hK]
        exact htn.1
      · show (((s._ringBuffer.storeAtHead s._packetByteCount (b % 256)).advanceHead
          kPacketLengthMax).m_tail +
            ((s._ringBuffer.storeAtHead s._packetByteCount (b % 256)).advanceHead
              kPacketLengthMax).m_count) % RingBuffer.N =
          ((s._ringBuffer.storeAtHead s._packetByteCount (b % 256)).advanceHead
            kPacketLengthMax).m_head
        rw [advanceHead_head, hN, hK]
        exact htn.2.1
      · intro hle
        simp only [List.length_append, List.length_singleton, hN, hK, if_true] at hle
        obtain ⟨r1, r2, r3⟩ := hroom (by omega)
        refine ⟨?_, ?_, ?_⟩
        · show ((s._ringBuffer.storeAtHead s._packetByteCount (b % 256)).advanceHead
            kPacketLengthMax).m_tail = r0.m_tail
          rw [hK, htn.2.2 (by rw [hc1]; omega)]
          exact r1
        · intro j i hj hi
          simp only [List.length_append, List.length_singleton] at hj
          show ((s._ringBuffer.storeAtHead s._packetByteCount (b % 256)).advanceHead
            kPacketLengthMax).m_buffer.getD _ 0 = _
          rw [advanceHead_buffer]
          simp only [RingBuffer.storeAtHead, hN, hK, getD_set_nat, hlen, hcount, hhead]
          by_cases hjk : j < done.length
          · have hne : ¬ ((r0.m_head + 4 * done.length) % 128 + cur.length =
                (r0.m_head + 4 * j) % 128 + i ∧
                (r0.m_head + 4 * done.length) % 128 + cur.length < 128) := by
              omega
            rw [if_neg hne, List.getD_append _ _ _ _ hjk]
            exact r2 j i hjk hi
          · have hjeq : j = done.length := by omega
            subst hjeq
            rw [List.getD_append_right _ _ _ _ (le_refl _)]
            simp only [Nat.sub_self, List.getD_cons_zero]
            by_cases hic : i < cur.length
            · have hne : ¬ ((r0.m_head + 4 * done.length) % 128 + cur.length =
                  (r0.m_head + 4 * done.length) % 128 + i ∧
                  (r0.m_head + 4 * done.length) % 128 + cur.length < 128) := by
                omega
              rw [if_neg hne, List.getD_append _ _ _ _ hic]
              have := hcc i hic
              rw [hhead] at this
              exact this
            · have hieq : i = cur.length := by omega
              subst hieq
              rw [if_pos ⟨rfl, by omega⟩, List.getD_append_right _ _ _ _ (le_refl _)]
              simp
        · intro j i hj hi
          show ((s._ringBuffer.storeAtHead s._packetByteCount (b % 256)).advanceHead
            kPacketLengthMax).m_buffer.getD _ 0 = _
          rw [advanceHead_buffer]
          rw [hK] at hj hi
          simp only [RingBuffer.storeAtHead, hN, hK, getD_set_nat, hlen, hcount, hhead]
          have hne : ¬ ((r0.m_head + 4 * done.length) % 128 + cur.length =
              (r0.m_tail + 4 * j) % 128 + i ∧
              (r0.m_head + 4 * done.length) % 128 + cur.length < 128) := by
            omega
          rw [if_neg hne]
          exact r3 j i hj hi
    · rw [interruptOccurred_store s b hstart (by omega) (by omega),
        assemble_one_store n cur b hd hfull]
      refine ⟨⟨hsize, ?_, ?_, ?_, ?_, ?_, ?_, ?_, ?_, ?_, ?_⟩, rfl, rfl⟩
      · simp [hcount]
      · simp only [List.length_append, List.length_singleton]
        omega
      · simp [RingBuffer.storeAtHead, hlen, hN]
      · simp only [RingBuffer.storeAtHead, hhead, hN, hK, List.append_nil]
      · simpa using hdone
      · intro i hi
        simp only [List.length_append, List.length_singleton] at hi
        simp only [RingBuffer.storeAtHead, getD_set_nat, hlen, hcount, hhead]
        by_cases hic : i < cur.length
        · have hne : ¬ ((r0.m_head + 4 * done.length) % 128 + cur.length =
              (r0.m_head + 4 * done.length) % 128 + i ∧
              (r0.m_head + 4 * done.length) % 128 + cur.length < 128) := by
            omega
          rw [if_neg hne, List.getD_append _ _ _ _ hic]
          have := hcc i hic
          rw [hhead] at this
          exact this
        · have hieq : i = cur.length := by omega
          subst hieq
          rw [if_pos ⟨rfl, by omega⟩, List.getD_append_right _ _ _ _ (le_refl _)]
          simp
      · simp only [RingBuffer.storeAtHead, hN, hK, List.append_nil]
        exact hcnt
      · simp only [RingBuffer.storeAtHead, hN]
        exact htl
      · simp only [RingBuffer.storeAtHead, hN]
        exact hco
      · intro hle
        have hne0 : cur ++ [b % 256] ≠ [] := by simp
        simp only [List.append_nil, hN, hK, if_neg hne0] at hle
        obtain ⟨r1, r2, r3⟩ := hroom (by omega)
        refine ⟨r1, ?_, ?_⟩
        · intro j i hj hi
          simp only [List.append_nil] at hj ⊢
          simp only [RingBuffer.storeAtHead, hN, hK, getD_set_nat, hlen, hcount, hhead]
          have hne : ¬ ((r0.m_head + 4 * done.length) % 128 + cur.length =
              (r0.m_head + 4 * j) % 128 + i ∧
              (r0.m_head + 4 * done.length) % 128 + cur.length < 128) := by
            omega
          rw [if_neg hne]
          exact r2 j i hj hi
        · intro j i hj hi
          rw [hK] at hj hi
          simp only [RingBuffer.storeAtHead, hN, hK, getD_set_nat, hlen, hcount, hhead]
          have hne : ¬ ((r0.m_head + 4 * done.length) % 128 + cur.length =
              (r0.m_tail + 4 * j) % 128 + i ∧
              (r0.m_head + 4 * done.length) % 128 + cur.length < 128) := by
            omega
          rw [if_neg hne]
          exact r3 j i hj hi

theorem assemble_cons (n : Nat) (cur : List Nat) (b : Nat) (bs : List Nat) :
    Spec.assemble n cur (b :: bs) =
      { packets := (Spec.assemble n cur [b]).packets ++
          (Spec.assemble n (Spec.assemble n cur [b]).inProgress bs).packets
        inProgress := (Spec.assemble n (Spec.assemble n cur [b]).inProgress bs).inProgress
        results := (Spec.assemble n cur [b]).results ++
          (Spec.assemble n (Spec.assemble n cur [b]).inProgress bs).results } := by
  by_cases hd : cur = [] ∧ Spec.startsPacket (b % 256) = false
  · obtain ⟨hc, hb⟩ := hd
    subst hc
    rw [assemble_one_discard n b hb]
    simp [Spec.assemble, hb]
  · by_cases hfull : cur.length + 1 = n
    · rw [assemble_one_complete n cur b hd hfull]
      simp only [Spec.assemble, if_neg hd, if_pos hfull]
      rfl
    · rw [assemble_one_store n cur b hd hfull]
      simp only [Spec.assemble, if_neg hd, if_neg hfull]
      rfl

theorem take_drop_eq (buf p : List Nat) (off n : Nat) (hp : p.length = n)
    (hb : off + n ≤ buf.length) (h : ∀ i, i < n → buf.getD (off + i) 0 = p.getD i 0) :
    (buf.drop off).take n = p := by
  apply List.ext_getElem
  · simp only [List.length_take, List.length_drop]
    omega
  · intro i h1 h2
    have hi : i < n := by omega
    have := h i hi
    rw [List.getD_eq_getElem _ _ (by omega), List.getD_eq_getElem _ _ h2] at this
    simp only [List.getElem_take, List.getElem_drop]
    exact this
theorem guardedMessage_foldl_ring (now_abs : Nat) (ms : List PS2Message) :
    ∀ acc : ApplePS2SentelicFSP × List Event,
      (ms.foldl (guardedMessage now_abs) acc).1._ringBuffer = acc.1._ringBuffer := by
  induction ms with
  | nil => intro acc; rfl
  | cons m ms ih =>
    intro acc
    rw [List.foldl_cons, ih]
    unfold guardedMessage
    split_ifs <;> rfl

theorem gestureSwitch_ringBuffer (s : ApplePS2SentelicFSP) (packet : List Nat)
    (now_abs now_ns uptime : Nat) (dz : Int) :
    (gestureSwitch s packet now_abs now_ns uptime dz).1._ringBuffer = s._ringBuffer := by
  unfold gestureSwitch
  generalize pkt packet 2 = id
  by_cases h1 : id = 0x86
  · rw [if_pos h1]
  by_cases h2 : id = 0x82
  · rw [if_neg h1, if_pos h2]
  by_cases h3 : id = 0x80
  · rw [if_neg h1, if_neg h2, if_pos h3]
  by_cases h4 : id = 0x84
  · rw [if_neg h1, if_neg h2, if_neg h3, if_pos h4]
  rw [if_neg h1, if_neg h2, if_neg h3, if_neg h4]
  by_cases h5 : id ∈ fallthroughCases.map Prod.fst
  · rw [if_pos h5]
    exact guardedMessage_foldl_ring _ _ _
  rw [if_neg h5]
  by_cases h6 : id = 0x18 ∨ id = 0x19
  · rw [if_pos h6]
  rw [if_neg h6]
  by_cases h7 : id = 0x11
  · rw [if_pos h7]
  rw [if_neg h7]
  by_cases h8 : id = 0x1a
  · rw [if_pos h8]
    unfold guardedMessage
    split_ifs <;> rfl
  rw [if_neg h8]
  by_cases h9 : id = 0x38
  · rw [if_pos h9]
  rw [if_neg h9]
  by_cases h10 : id = 0
  · rw [if_pos h10]
  rw [if_neg h10]

theorem dispatch_ringBuffer (s : ApplePS2SentelicFSP) (packet : List Nat)
    (packetSize now_abs now_ns uptime : Nat) :
    (dispatchRelativePointerEventWithPacket s packet packetSize now_abs now_ns
      uptime).1._ringBuffer = s._ringBuffer := by
  unfold dispatchRelativePointerEventWithPacket
  by_cases hk : u64_sub now_ns s.keytime < s.maxaftertyping
  · rw [if_pos hk]
  rw [if_neg hk]
  by_cases hn : pkt packet 0 >>> FSP_PKT_TYPE_SHIFT = FSP_PKT_TYPE_NOTIFY
  · rw [if_pos hn]
    by_cases hg : pkt packet 1 = FSP_CX_NOTIFY_MSG_TYPE_GUESTURE
    · rw [if_pos hg]
      exact gestureSwitch_ringBuffer _ _ _ _ _ _
    rw [if_neg hg]
    split_ifs <;> rfl
  rw [if_neg hn]
  by_cases ha : pkt packet 0 >>> FSP_PKT_TYPE_SHIFT = FSP_PKT_TYPE_ABS
  · rw [if_pos ha]
    dsimp only
    split_ifs <;> rfl
  rw [if_neg ha]
theorem slots_of_lt (r : RingBuffer) (h : r.count < 4) : r.slots = [] := by
  unfold RingBuffer.slots
  have : r.count / kPacketLengthMax = 0 := by
    show r.count / 4 = 0
    omega
  rw [this]
  rfl

theorem assembling_stream (n : Nat) (r0 : RingBuffer) (hn : n = 3 ∨ n = 4)
    (hh : r0.m_head % 4 = 0) (hh2 : r0.m_head < 128) (hc4 : r0.m_count % 4 = 0)
    (hc128 : r0.m_count ≤ 128) (ht0 : r0.m_tail < 128)
    (hcons : (r0.m_tail + r0.m_count) % 128 = r0.m_head) :
    ∀ (bytes : List Nat) (s : ApplePS2SentelicFSP) (done : List (List Nat)) (cur : List Nat),
      Assembling n r0 s done cur →
      Assembling n r0 (interruptStream s bytes).1
          (done ++ (Spec.assemble n cur bytes).packets) (Spec.assemble n cur bytes).inProgress ∧
        (interruptStream s bytes).2 = (Spec.assemble n cur bytes).results ∧
        { (interruptStream s bytes).1 with _ringBuffer := s._ringBuffer,
                                           _packetByteCount := s._packetByteCount } = s := by
  intro bytes
  induction bytes with
  | nil =>
    intro s done cur h
    exact ⟨by simpa [interruptStream, Spec.assemble] using h, rfl, rfl⟩
  | cons b bs ih =>
    intro s done cur h
    obtain ⟨h1, h2, h3⟩ := assembling_step n r0 hn hh hh2 hc4 hc128 ht0 hcons s done cur b h
    obtain ⟨g1, g2, g3⟩ := ih (interruptOccurred s b).1 _ _ h1
    rw [assemble_cons]
    refine ⟨?_, ?_, ?_⟩
    · simpa [interruptStream, List.append_assoc] using g1
    · show (interruptOccurred s b).2 :: (interruptStream (interruptOccurred s b).1 bs).2 = _
      rw [g2, ← h2]
      rfl
    · exact (congrArg (fun x : ApplePS2SentelicFSP =>
        { x with _ringBuffer := s._ringBuffer, _packetByteCount := s._packetByteCount })
        g3).trans h3

theorem take_drop_congr (a b : List Nat) (off n : Nat) (hab : a.length = b.length)
    (h : ∀ i, i < n → a.getD (off + i) 0 = b.getD (off + i) 0) :
    (a.drop off).take n = (b.drop off).take n := by
  apply List.ext_getElem
  · simp only [List.length_take, List.length_drop, hab]
  · intro i h1 h2
    simp only [List.length_take, List.length_drop] at h1 h2
    have := h i (by omega)
    rw [List.getD_eq_getElem a 0 (by omega), List.getD_eq_getElem b 0 (by omega)] at this
    simp only [List.getElem_take, List.getElem_drop]
    exact this

theorem slots_of_ge (r : RingBuffer) (ht : r.m_tail < 128) (h : r.count ≥ 4) :
    r.slots = r.tail :: (r.advanceTail kPacketLengthMax).slots ∧
      (r.advanceTail kPacketLengthMax).count = r.count - 4 ∧
      (r.advanceTail kPacketLengthMax).m_tail < 128 := by
  have hN : RingBuffer.N = 128 := rfl
  have hK : kPacketLengthMax = 4 := rfl
  have hc : (r.advanceTail kPacketLengthMax).count = r.count - 4 := rfl
  refine ⟨?_, hc, ?_⟩
  · unfold RingBuffer.slots
    rw [hc]
    have hq : r.count / kPacketLengthMax = (r.count - 4) / kPacketLengthMax + 1 := by
      rw [hK]
      omega
    rw [hq, List.range_succ_eq_map, List.map_cons, List.map_map]
    congr 1
    · simp only [hK, hN, RingBuffer.tail, Nat.mul_zero, Nat.add_zero, Nat.mod_eq_of_lt ht]
    · apply List.map_congr_left
      intro j _
      simp only [Function.comp, RingBuffer.advanceTail, hN, hK]
      congr 1
      omega
  · simp only [RingBuffer.advanceTail, hN]
    omega

theorem packetReadyLoop_eq (clock : Nat → ClockReading) :
    ∀ (fuel k : Nat) (s : ApplePS2SentelicFSP),
      s._ringBuffer.m_tail < 128 → s._ringBuffer.count / 4 ≤ fuel →
      packetReadyLoop clock fuel k s = dispatchPackets clock k s s._ringBuffer.slots := by
  intro fuel
  induction fuel with
  | zero =>
    intro k s ht hf
    rw [slots_of_lt _ (by omega)]
    rfl
  | succ fuel ih =>
    intro k s ht hf
    by_cases hc : s._ringBuffer.count ≥ kPacketLengthMax
    · obtain ⟨e1, e2, e3⟩ := slots_of_ge s._ringBuffer ht hc
      rw [e1]
      simp only [packetReadyLoop, if_pos hc, dispatchPackets]
      have hr := dispatch_ringBuffer s s._ringBuffer.tail s._packetSize (clock k).now_abs
        (clock k).now_ns (clock k).uptime
      rw [ih (k + 1) _ (by simpa [hr] using e3) (by simp only [hr, e2]; omega)]
      simp only [hr]
    · have hlt : s._ringBuffer.count < 4 := by
        have hK : kPacketLengthMax = 4 := rfl
        omega
      rw [slots_of_lt _ hlt]
      simp only [packetReadyLoop, if_neg hc, dispatchPackets]

set_option maxRecDepth 4096

theorem absButtons_bits (packet : List Nat) :
    ((absButtons (fsp_abs_decode packet)).testBit 0 = true ↔
        ((pkt packet 0).testBit 0 = true ∨ (pkt packet 0).testBit 4 = false)) ∧
      ((absButtons (fsp_abs_decode packet)).testBit 1 = true ↔
        (pkt packet 0).testBit 1 = true) ∧
      absButtons (fsp_abs_decode packet) < 4 := by
  have h0 := pkt_lt packet 0
  have e : absButtons (fsp_abs_decode packet) =
      ((if (if (MFMT_LEFT_BTN_DOWN &&& pkt packet 0) ≠ 0 then (1 : Int) else 0) ≠ 0
          then 0x1 else 0) |||
        (if (if (MFMT_RIGHT_BTN_DOWN &&& pkt packet 0) ≠ 0 then (1 : Int) else 0) ≠ 0
          then 0x2 else 0)) |||
        (if (if (MFMT_LEFT_BTN_DOWN &&& pkt packet 0) ≠ 0 then (1 : Int) else 0) = 0 ∧
            (if (MFMT_LEFT_BTN_OPC &&& pkt packet 0) ≠ 0 then (1 : Int) else 0) = 0
          then 0x1 else 0) := rfl
  rw [e]
  generalize pkt packet 0 = b at h0
  interval_cases b <;> decide

/-- C31: for an Absolute packet that produces a pointer event (no session active, neither
the typing window nor the post-gesture lockout in effect), exactly one pointer event is
emitted and its button mask has bit 0 (left) set if and only if bit 0 of byte0 (left
button) is set or bit 4 of byte0 (the on-pad tag) is clear, bit 1 (right) set if and only
if bit 1 of byte0 (right button) is set, and no other bit set (the mask is below 4). -/
theorem C31_absolute_buttons (s : ApplePS2SentelicFSP) (packet : List Nat)
    (packetSize now_abs now_ns uptime : Nat)
    (hk : ¬ u64_sub now_ns s.keytime < s.maxaftertyping)
    (ha : pkt packet 0 >>> FSP_PKT_TYPE_SHIFT = FSP_PKT_TYPE_ABS)
    (hs : s._isInGesture = false)
    (hl : ¬ u64_sub now_ns s.gestureStopTime < s.scrolllockTime) :
    ∃ (dx dy : Int) (buttons : Nat),
      (dispatchRelativePointerEventWithPacket s packet packetSize now_abs now_ns uptime).2 =
          [Event.relativePointer dx dy buttons now_abs] ∧
        (buttons.testBit 0 = true ↔
          ((pkt packet 0).testBit 0 = true ∨ (pkt packet 0).testBit 4 = false)) ∧
        (buttons.testBit 1 = true ↔ (pkt packet 0).testBit 1 = true) ∧
        buttons < 4 := by
  have e := abs_dispatch s packet packetSize now_abs now_ns uptime hk ha hs hl
  have hb := absButtons_bits packet
  by_cases hz : (fsp_abs_decode packet).abs_x = 0 ∧ (fsp_abs_decode packet).abs_y = 0
  · rw [if_pos hz] at e
    exact ⟨_, _, _, by rw [e], hb⟩
  · rw [if_neg hz] at e
    by_cases hp : s._last_abs_x = 0 ∧ s._last_abs_y = 0
    · rw [if_pos hp] at e
      exact ⟨_, _, _, by rw [e], hb⟩
    · rw [if_neg hp] at e
      exact ⟨_, _, _, by rw [e], hb⟩

/-- C31 for the packet 0x42 0x64 0x32 0x00 (right button down, no on-pad tag) on first
contact: the mask is 3, the right button and the synthesized left button. -/
theorem C31_absolute_buttons_witness :
    ¬ u64_sub 1000000000 ApplePS2SentelicFSP.init.keytime <
        ApplePS2SentelicFSP.init.maxaftertyping ∧
      pkt [0x42, 100, 50, 0] 0 >>> FSP_PKT_TYPE_SHIFT = FSP_PKT_TYPE_ABS ∧
      ApplePS2SentelicFSP.init._isInGesture = false ∧
      ¬ u64_sub 1000000000 ApplePS2SentelicFSP.init.gestureStopTime <
        ApplePS2SentelicFSP.init.scrolllockTime ∧
      (dispatchRelativePointerEventWithPacket ApplePS2SentelicFSP.init [0x42, 100, 50, 0] 4
          1000000000 1000000000 1000000000).2 = [Event.relativePointer 0 0 3 1000000000] ∧
      ∃ (dx dy : Int) (buttons : Nat),
        (dispatchRelativePointerEventWithPacket ApplePS2SentelicFSP.init [0x42, 100, 50, 0] 4
            1000000000 1000000000 1000000000).2 =
            [Event.relativePointer dx dy buttons 1000000000] ∧
          (buttons.testBit 0 = true ↔
            ((pkt [0x42, 100, 50, 0] 0).testBit 0 = true ∨
              (pkt [0x42, 100, 50, 0] 0).testBit 4 = false)) ∧
          (buttons.testBit 1 = true ↔ (pkt [0x42, 100, 50, 0] 0).testBit 1 = true) ∧
          buttons < 4 :=
  ⟨by decide, by decide, by decide, by decide, by decide,
   C31_absolute_buttons ApplePS2SentelicFSP.init [0x42, 100, 50, 0] 4
     1000000000 1000000000 1000000000 (by decide) (by decide) (by decide) (by decide)⟩

/-- C32: a gesture notification with code 0x11 (2-finger click) processed outside the
typing window, in any session state, emits exactly two pointer events, in this order:
no motion with the right button alone at time `now`, then no motion with no button at
time `now + 1` (a `uint64_t` addition); no scroll event and no gesture notification is
emitted, and the session flag, like every member other than the stored coordinates and
magnitude, is left as it was. -/
theorem C32_two_finger_click (s : ApplePS2SentelicFSP) (packet : List Nat)
    (packetSize now_abs now_ns uptime : Nat)
    (hk : ¬ u64_sub now_ns s.keytime < s.maxaftertyping)
    (hn : pkt packet 0 >>> FSP_PKT_TYPE_SHIFT = FSP_PKT_TYPE_NOTIFY)
    (hg : pkt packet 1 = 0xBA) (h2 : pkt packet 2 = 0x11) :
    dispatchRelativePointerEventWithPacket s packet packetSize now_abs now_ns uptime =
        ({ s with _last_abs_x := 0, _last_abs_y := 0, _last_abs_z := (pkt packet 3 : Int) },
         [Event.relativePointer 0 0 0x2 now_abs,
          Event.relativePointer 0 0 0 ((now_abs + 1) % 18446744073709551616)]) ∧
      (dispatchRelativePointerEventWithPacket s packet packetSize now_abs now_ns
        uptime).1._isInGesture = s._isInGesture ∧
      (now_abs + 1 < 18446744073709551616 →
        (now_abs + 1) % 18446744073709551616 = now_abs + 1) := by
  have hg1 : pkt packet 1 = FSP_CX_NOTIFY_MSG_TYPE_GUESTURE := hg
  have e : dispatchRelativePointerEventWithPacket s packet packetSize now_abs now_ns uptime =
      ({ s with _last_abs_x := 0, _last_abs_y := 0, _last_abs_z := (pkt packet 3 : Int) },
       [Event.relativePointer 0 0 0x2 now_abs,
        Event.relativePointer 0 0 0 ((now_abs + 1) % 18446744073709551616)]) := by
    simp [dispatchRelativePointerEventWithPacket, gestureSwitch, hk, hn, hg1, h2,
      fallthroughCases]
  exact ⟨e, by rw [e], fun h => Nat.mod_eq_of_lt h⟩

/-- C32 inside the scroll session opened by a notification of magnitude 4. -/
theorem C32_two_finger_click_witness :
    ¬ u64_sub 1010000000 scrollStarted.keytime < scrollStarted.maxaftertyping ∧
      pkt [0x88, 0xBA, 0x11, 0] 0 >>> FSP_PKT_TYPE_SHIFT = FSP_PKT_TYPE_NOTIFY ∧
      pkt [0x88, 0xBA, 0x11, 0] 1 = 0xBA ∧ pkt [0x88, 0xBA, 0x11, 0] 2 = 0x11 ∧
      scrollStarted._isInGesture = true ∧
      (dispatchRelativePointerEventWithPacket scrollStarted [0x88, 0xBA, 0x11, 0] 4
          1010000000 1010000000 1010000000).2 =
        [Event.relativePointer 0 0 2 1010000000, Event.relativePointer 0 0 0 1010000001] ∧
      (dispatchRelativePointerEventWithPacket scrollStarted [0x88, 0xBA, 0x11, 0] 4
          1010000000 1010000000 1010000000).1._isInGesture = scrollStarted._isInGesture :=
  ⟨by decide, by decide, by decide, by decide, by decide, by decide,
   (C32_two_finger_click scrollStarted [0x88, 0xBA, 0x11, 0] 4 1010000000 1010000000
     1010000000 (by decide) (by decide) (by decide) (by decide)).2.1⟩

/-! ## The held delta, the first fling value, the fling direction and the session end -/

theorem ScrollSmoother.filter_lastDelta (s : ScrollSmoother) (u : Nat) (z : Int) :
    (s.filter u z).1.lastDelta = s.lastDelta := by
  unfold ScrollSmoother.filter
  simp only
  split_ifs <;> rfl

theorem ScrollSmoother.call_lastDelta (s : ScrollSmoother) (c : SmootherCall)
    (h : s.lastDelta = 0) : (s.call c).lastDelta = 0 := by
  cases c with
  | filter u z => rw [ScrollSmoother.call, ScrollSmoother.filter_lastDelta]; exact h
  | stop =>
    show s.stop.1.lastDelta = 0
    unfold ScrollSmoother.stop
    by_cases hz : s.lastinputTime ≠ 0
    · rw [if_pos hz]
    · rw [if_neg hz]
      exact h
  | setDir d => exact h
  | getFlingDelta =>
    show s.getFlingDelta.1.lastDelta = 0
    unfold ScrollSmoother.getFlingDelta
    by_cases hp : s.stopDelta > 0
    · rw [if_pos hp]
      exact h
    · rw [if_neg hp]
      exact h

theorem ScrollSmoother.run_lastDelta (cs : List SmootherCall) :
    ∀ s : ScrollSmoother, s.lastDelta = 0 → (s.run cs).lastDelta = 0 := by
  induction cs with
  | nil => intro s h; exact h
  | cons c cs ih =>
    intro s h
    exact ih (s.call c) (ScrollSmoother.call_lastDelta s c h)

theorem ScrollSmoother.filter_odd_of_lastDelta (s : ScrollSmoother) (u : Nat) (z : Int)
    (h : s.lastDelta = 0) (hodd : Int.tmod (int_add s.inputCount 1) 2 = 1) :
    (s.filter u z).2 = 0 := by
  have e : int_mul 0 SCROLL_DELTA_FACTOR = 0 := by decide
  unfold ScrollSmoother.filter
  simp only [if_pos hodd, h, e]
  split_ifs <;> rfl

/-- C33 fails on the code: `lastDelta`, the delta an odd-numbered input n >= 3 returns 32
times of, is assigned nowhere but in `stop()`, which clears it. For the inputs 5, 5, 5, 7,
9 to a fresh smoother the calls return 0, 160, 0, 192, 0: the third and the fifth call do
not repeat the 160 and the 192 of the calls before them. In every smoother reached from
the zero-filled one by any calls `lastDelta` is 0, and every odd-numbered input returns 0. -/
theorem C33_odd_inputs_return_zero :
    ScrollSmoother.outputs ScrollSmoother.zero [(1, 5), (2, 5), (3, 5), (4, 7), (5, 9)] =
        [0, 160, 0, 192, 0] ∧
      (∀ cs : List SmootherCall, (ScrollSmoother.zero.run cs).lastDelta = 0) ∧
      (∀ (cs : List SmootherCall) (u : Nat) (z : Int),
        Int.tmod (int_add (ScrollSmoother.zero.run cs).inputCount 1) 2 = 1 →
        ((ScrollSmoother.zero.run cs).filter u z).2 = 0) :=
  ⟨by decide, fun cs => ScrollSmoother.run_lastDelta cs _ rfl,
   fun cs u z h => ScrollSmoother.filter_odd_of_lastDelta _ u z
     (ScrollSmoother.run_lastDelta cs _ rfl) h⟩

/-- C34 (as stated) fails: after the 2-finger-up notifications with magnitudes 10 and 20
`stop()` seeds the fling delta 320; the first `getFlingDelta()` call returns 192, not 320,
and the call after it 115. -/
theorem C34_first_fling_counterexample :
    (flingScenario.z_avg.stop).2 = 320 ∧
      ((flingScenario.z_avg.stop).1.getFlingDelta).2 = 192 ∧
      (((flingScenario.z_avg.stop).1.getFlingDelta).1.getFlingDelta).2 = 115 := by
  decide

/-- C34 (amended): after `stop()` has seeded a fling delta `s > 0`, the first
`getFlingDelta()` call returns the decayed value, `0.6 * s` truncated to an integer (the
integer part of `3s/5`, which is below `s`), and the following call returns that value
decayed once more. -/
theorem C34_first_fling_is_decayed (st : ScrollSmoother) (hseed : 0 < st.stop.2)
    (hint : st.stop.2 ≤ 2147483647) :
    (st.stop.1.getFlingDelta).2 = Int.tdiv (3 * st.stop.2) 5 ∧
      (st.stop.1.getFlingDelta).2 < st.stop.2 ∧
      ((st.stop.1.getFlingDelta).1.getFlingDelta).2 =
        Int.tdiv (3 * Int.tdiv (3 * st.stop.2) 5) 5 := by
  have hsd := ScrollSmoother.stop_stopDelta st hseed
  obtain ⟨e1, e2⟩ := ScrollSmoother.getFlingDelta_eq st.stop.1 (by rw [hsd]; omega)
    (by rw [hsd]; exact hint)
  rw [hsd] at e1 e2
  have hv := tdiv_three_fifths st.stop.2 (by omega)
  obtain ⟨f1, _⟩ := ScrollSmoother.getFlingDelta_eq (st.stop.1.getFlingDelta).1
    (by rw [e2, hv]; omega) (by rw [e2, hv]; omega)
  rw [e2] at f1
  refine ⟨e1, ?_, f1⟩
  rw [e1, hv]
  omega

/-- C34 (amended) for the inputs 5 then 5: the seed is 160, the first call returns 96 and
the second 57. -/
theorem C34_first_fling_is_decayed_witness :
    0 < (ScrollSmoother.feed ScrollSmoother.zero [(1, 5), (2, 5)]).stop.2 ∧
      (ScrollSmoother.feed ScrollSmoother.zero [(1, 5), (2, 5)]).stop.2 ≤ 2147483647 ∧
      ((ScrollSmoother.feed ScrollSmoother.zero [(1, 5), (2, 5)]).stop.1.getFlingDelta).2 =
        Int.tdiv (3 * (ScrollSmoother.feed ScrollSmoother.zero [(1, 5), (2, 5)]).stop.2) 5 :=
  ⟨by decide, by decide,
   (C34_first_fling_is_decayed (ScrollSmoother.feed ScrollSmoother.zero [(1, 5), (2, 5)])
     (by decide) (by decide)).1⟩

/-- C35 fails on the code for the two horizontal directions. After the 2-finger-right
notifications (0x80) with magnitudes 10 and 20 the live scroll event has the axes
(0, +320); after the lift the timer tick emits the momentum event (0, -192), the opposite
sign. For 2-finger-left (0x84) the live event is (0, -320) and the momentum event
(0, +192). For 2-finger-up (0x86) both have the same sign: (+320, 0) and (+192, 0). -/
theorem C35_fling_direction_reversed :
    ((ApplePS2SentelicFSP.init.run
          [DriverCall.packet [0x88, 0xBA, 0x80, 10] 1000000000 1000000000 1000000000]).call
        (DriverCall.packet [0x88, 0xBA, 0x80, 20] 1010000000 1010000000 1010000000)).2 =
        [Event.scrollWheel 0 320 0 1010000000] ∧
      ((ApplePS2SentelicFSP.init.run
          [DriverCall.packet [0x88, 0xBA, 0x80, 10] 1000000000 1000000000 1000000000,
           DriverCall.packet [0x88, 0xBA, 0x80, 20] 1010000000 1010000000 1010000000,
           DriverCall.packet [0x88, 0xBA, 0, 0] 1020000000 1020000000 1020000000]).call
        (DriverCall.timer 1040000000)).2 =
        [Event.scrollWheel 0 (-192) 0 1040000000, Event.timerTimeout 20000000] ∧
      ((ApplePS2SentelicFSP.init.run
          [DriverCall.packet [0x88, 0xBA, 0x84, 10] 1000000000 1000000000 1000000000]).call
        (DriverCall.packet [0x88, 0xBA, 0x84, 20] 1010000000 1010000000 1010000000)).2 =
        [Event.scrollWheel 0 (-320) 0 1010000000] ∧
      ((ApplePS2SentelicFSP.init.run
          [DriverCall.packet [0x88, 0xBA, 0x84, 10] 1000000000 1000000000 1000000000,
           DriverCall.packet [0x88, 0xBA, 0x84, 20] 1010000000 1010000000 1010000000,
           DriverCall.packet [0x88, 0xBA, 0, 0] 1020000000 1020000000 1020000000]).call
        (DriverCall.timer 1040000000)).2 =
        [Event.scrollWheel 0 192 0 1040000000, Event.timerTimeout 20000000] ∧
      ((ApplePS2SentelicFSP.init.run
          [DriverCall.packet [0x88, 0xBA, 0x86, 10] 1000000000 1000000000 1000000000]).call
        (DriverCall.packet [0x88, 0xBA, 0x86, 20] 1010000000 1010000000 1010000000)).2 =
        [Event.scrollWheel 320 0 0 1010000000] ∧
      ((ApplePS2SentelicFSP.init.run
          [DriverCall.packet [0x88, 0xBA, 0x86, 10] 1000000000 1000000000 1000000000,
           DriverCall.packet [0x88, 0xBA, 0x86, 20] 1010000000 1010000000 1010000000,
           DriverCall.packet [0x88, 0xBA, 0, 0] 1020000000 1020000000 1020000000]).call
        (DriverCall.timer 1040000000)).2 =
        [Event.scrollWheel 192 0 0 1040000000, Event.timerTimeout 20000000] := by
  decide

/-- C36 fails on the code: a notification whose byte1 is 0xC0 (one-finger hold), or any
byte1 other than 0xBA, clears the session flag without calling `stop()`. After one
2-finger-up notification (magnitude 10) and such a notification the flag is clear while
the smoother still counts one input (history index 1), and the first scroll notification
of the next session (magnitude 6) is an even-numbered input: it emits the scroll delta
32 * ((6 + 10) / 2) = 256 at once. -/
theorem C36_session_closed_without_stop :
    (ApplePS2SentelicFSP.init.run
        [DriverCall.packet [0x88, 0xBA, 0x86, 10] 1000000000 1000000000 1000000000,
         DriverCall.packet [0x88, 0xC0, 0, 0] 1010000000 1010000000 1010000000])._isInGesture =
        false ∧
      (ApplePS2SentelicFSP.init.run
        [DriverCall.packet [0x88, 0xBA, 0x86, 10] 1000000000 1000000000 1000000000,
         DriverCall.packet [0x88, 0xC0, 0, 0] 1010000000 1010000000 1010000000]).z_avg.inputCount =
        1 ∧
      (ApplePS2SentelicFSP.init.run
        [DriverCall.packet [0x88, 0xBA, 0x86, 10] 1000000000 1000000000 1000000000,
         DriverCall.packet [0x88, 0xC0, 0, 0] 1010000000 1010000000
           1010000000]).z_avg.cur_history_index = 1 ∧
      ((ApplePS2SentelicFSP.init.run
          [DriverCall.packet [0x88, 0xBA, 0x86, 10] 1000000000 1000000000 1000000000,
           DriverCall.packet [0x88, 0xC0, 0, 0] 1010000000 1010000000 1010000000]).call
        (DriverCall.packet [0x88, 0xBA, 0x86, 6] 3000000000 3000000000 3000000000)).2 =
        [Event.scrollWheel 256 0 0 3000000000] ∧
      (ApplePS2SentelicFSP.init.run
        [DriverCall.packet [0x88, 0xBA, 0x86, 10] 1000000000 1000000000 1000000000,
         DriverCall.packet [0x88, 0x55, 0, 0] 1010000000 1010000000 1010000000])._isInGesture =
        false ∧
      (ApplePS2SentelicFSP.init.run
        [DriverCall.packet [0x88, 0xBA, 0x86, 10] 1000000000 1000000000 1000000000,
         DriverCall.packet [0x88, 0x55, 0, 0] 1010000000 1010000000 1010000000]).z_avg.inputCount =
        1 := by
  decide

/-! ## The Linux register helpers -/

namespace Linux

theorem append_select (c d : Prop) [Decidable c] [Decidable d] (t : List Op) (x y z : Nat) :
    (if c then t ++ [Op.ps2_sendbyte x] else if d then t ++ [Op.ps2_sendbyte y]
      else t ++ [Op.ps2_sendbyte z]) =
      t ++ [Op.ps2_sendbyte (if c then x else if d then y else z)] := by
  split_ifs <;> rfl

theorem select_read (x : Nat) (hx : x < 256) :
    (if (fsp_test_invert_cmd (toU8 (x : Int)) : Int) ≠ (x : Int) then 0x68
      else if (fsp_test_swap_cmd (toU8 (x : Int)) : Int) ≠ (x : Int) then 0xcc else 0x66) =
      toU8 (mangled_select 0xCC 0x68 0x66 (x : Int)) := by
  interval_cases x <;> decide

theorem select_writeAddress (x : Nat) (hx : x < 256) :
    (if (fsp_test_invert_cmd (toU8 (x : Int)) : Int) ≠ (x : Int) then 0x74
      else if (fsp_test_swap_cmd (toU8 (x : Int)) : Int) ≠ (x : Int) then 0x77 else 0x55) =
      toU8 (mangled_select 0x77 0x74 0x55 (x : Int)) := by
  interval_cases x <;> decide

theorem select_writeValue (x : Nat) (hx : x < 256) :
    (if (fsp_test_invert_cmd (toU8 (x : Int)) : Int) ≠ (x : Int) then 0x47
      else if (fsp_test_swap_cmd (toU8 (x : Int)) : Int) ≠ (x : Int) then 0x44 else 0x33) =
      toU8 (mangled_select 0x44 0x47 0x33 (x : Int)) := by
  interval_cases x <;> decide

theorem sent_value (x : Nat) (hx : x < 256) :
    (if (fsp_test_invert_cmd (toU8 (x : Int)) : Int) ≠ (x : Int) then
        fsp_test_invert_cmd (toU8 (x : Int))
      else fsp_test_swap_cmd (toU8 (x : Int))) = toU8 (mangled_value (x : Int)) := by
  interval_cases x <;> decide

theorem toU8_lt (v : Int) : toU8 v < 256 := by
  unfold toU8
  omega

/-- The operations of the Linux `fsp_reg_read` on a bus where every call succeeds. -/
theorem fsp_reg_read_reliable (a : Nat) (ha : a < 256) :
    fsp_reg_read reliable (a : Int) =
      ([Op.ps2_command PSMouseCmd.PSMOUSE_CMD_DISABLE, Op.mutex_lock, Op.ps2_sendbyte 0xf3,
        Op.ps2_sendbyte 0x66, Op.ps2_sendbyte 0x88, Op.ps2_sendbyte 0xf3,
        Op.ps2_sendbyte (toU8 (mangled_select 0xCC 0x68 0x66 (a : Int))),
        Op.ps2_sendbyte (toU8 (mangled_value (a : Int))),
        Op.ps2_command PSMouseCmd.PSMOUSE_CMD_GETINFO, Op.mutex_unlock,
        Op.ps2_command PSMouseCmd.PSMOUSE_CMD_ENABLE], 0) := by
  unfold fsp_reg_read
  simp only [reliable, Bool.true_eq_false, if_false, append_select, select_read a ha,
    sent_value a ha, readOut]
  rfl

/-- The operations of the Linux `fsp_reg_write` on a bus where every call succeeds. -/
theorem fsp_reg_write_reliable (a v : Nat) (ha : a < 256) (hv : v < 256) :
    fsp_reg_write reliable (a : Int) (v : Int) =
      ([Op.mutex_lock, Op.ps2_sendbyte 0xf3,
        Op.ps2_sendbyte (toU8 (mangled_select 0x77 0x74 0x55 (a : Int))),
        Op.ps2_sendbyte (toU8 (mangled_value (a : Int))),
        Op.ps2_sendbyte 0xf3,
        Op.ps2_sendbyte (toU8 (mangled_select 0x44 0x47 0x33 (v : Int))),
        Op.ps2_sendbyte (toU8 (mangled_value (v : Int))),
        Op.mutex_unlock], 0) := by
  unfold fsp_reg_write
  simp only [reliable, Bool.true_eq_false, if_false, append_select, select_writeAddress a ha,
    select_writeValue v hv, sent_value a ha, sent_value v hv, writeOut]
  rfl

end Linux

/-- C37 (as stated) fails for the read: on a bus where every call succeeds the Linux
`fsp_reg_read` of register 0x10 issues the disable command, the seven transmissions
F3 66 88 F3 66 10 and "get info" under the mutex, and the enable command: nine
transmissions (F5 F3 66 88 F3 66 10 E9 F4 with the standard command bytes), where the macOS
`fsp_reg_read` transmits the seven bytes F3 66 88 F3 66 10 E9. -/
theorem C37_read_bracket_counterexample :
    (Linux.fsp_reg_read Linux.reliable 0x10).1 =
        [Linux.Op.ps2_command Linux.PSMouseCmd.PSMOUSE_CMD_DISABLE, Linux.Op.mutex_lock,
         Linux.Op.ps2_sendbyte 0xf3, Linux.Op.ps2_sendbyte 0x66, Linux.Op.ps2_sendbyte 0x88,
         Linux.Op.ps2_sendbyte 0xf3, Linux.Op.ps2_sendbyte 0x66, Linux.Op.ps2_sendbyte 0x10,
         Linux.Op.ps2_command Linux.PSMouseCmd.PSMOUSE_CMD_GETINFO, Linux.Op.mutex_unlock,
         Linux.Op.ps2_command Linux.PSMouseCmd.PSMOUSE_CMD_ENABLE] ∧
      Linux.wireBytes Linux.commandByte (Linux.fsp_reg_read Linux.reliable 0x10).1 =
        [0xF5, 0xF3, 0x66, 0x88, 0xF3, 0x66, 0x10, 0xE9, 0xF4] ∧
      readBytes quietDevice [] 0x10 = [0xF3, 0x66, 0x88, 0xF3, 0x66, 0x10, 0xE9] := by
  decide

/-- C37 (amended): for every register address `a` and value `v` in 0..255, on a bus where
every call succeeds, the bytes the Linux `fsp_reg_write` transmits are the bytes the macOS
`fsp_reg_write` transmits, and the bytes the Linux `fsp_reg_read` transmits while it holds
the command mutex are the bytes the macOS `fsp_reg_read` transmits (the "get info" command
being the byte 0xE9 on both sides); the whole Linux `fsp_reg_read` transmits in addition
the disable command before and the enable command after. Both Linux helpers return 0. -/
theorem C37_codecs_agree (device : ApplePS2MouseDevice) (log : List PS2Request)
    (bus : List Linux.Op → Bool) (cmd : Linux.PSMouseCmd → Nat) (a v : Nat)
    (ha : a < 256) (hv : v < 256) (hbus : ∀ t, bus t = true)
    (hcmd : cmd Linux.PSMouseCmd.PSMOUSE_CMD_GETINFO = kDP_GetMouseInformation) :
    Linux.wireBytes cmd (Linux.fsp_reg_write bus (a : Int) (v : Int)).1 =
        writeBytes device log (a : Int) (v : Int) ∧
      Linux.wireBytes cmd (Linux.underMutex (Linux.fsp_reg_read bus (a : Int)).1) =
        readBytes device log (a : Int) ∧
      Linux.wireBytes cmd (Linux.fsp_reg_read bus (a : Int)).1 =
        cmd Linux.PSMouseCmd.PSMOUSE_CMD_DISABLE :: readBytes device log (a : Int) ++
          [cmd Linux.PSMouseCmd.PSMOUSE_CMD_ENABLE] ∧
      (Linux.fsp_reg_write bus (a : Int) (v : Int)).2 = 0 ∧
      (Linux.fsp_reg_read bus (a : Int)).2 = 0 := by
  have hb : bus = Linux.reliable := funext hbus
  subst hb
  have m1 := Linux.toU8_lt (mangled_select 0xCC 0x68 0x66 (a : Int))
  have m2 := Linux.toU8_lt (mangled_value (a : Int))
  have m3 := Linux.toU8_lt (mangled_select 0x77 0x74 0x55 (a : Int))
  have m4 := Linux.toU8_lt (mangled_select 0x44 0x47 0x33 (v : Int))
  have m5 := Linux.toU8_lt (mangled_value (v : Int))
  rw [Linux.fsp_reg_read_reliable a ha, Linux.fsp_reg_write_reliable a v ha hv, readBytes_eq,
    writeBytes_eq]
  refine ⟨?_, ?_, ?_, rfl, rfl⟩
  · simp [Linux.wireBytes, Nat.mod_eq_of_lt m3, Nat.mod_eq_of_lt m2, Nat.mod_eq_of_lt m4,
      Nat.mod_eq_of_lt m5]
  · simp [Linux.underMutex, Linux.wireBytes, List.dropWhile, List.takeWhile, hcmd,
      Nat.mod_eq_of_lt m1, Nat.mod_eq_of_lt m2]
  · simp [Linux.wireBytes, hcmd, Nat.mod_eq_of_lt m1, Nat.mod_eq_of_lt m2]

/-- C37 (amended) for the address 200 (a sample rate, sent swapped behind the selector
0x77) and the value 0xE9 (a command byte, sent inverted behind the selector 0x47). -/
theorem C37_codecs_agree_witness :
    (200 : Nat) < 256 ∧ (0xE9 : Nat) < 256 ∧ (∀ t, Linux.reliable t = true) ∧
      Linux.commandByte Linux.PSMouseCmd.PSMOUSE_CMD_GETINFO = kDP_GetMouseInformation ∧
      Linux.wireBytes Linux.commandByte
          (Linux.fsp_reg_write Linux.reliable ((200 : Nat) : Int) ((0xE9 : Nat) : Int)).1 =
        writeBytes quietDevice [] ((200 : Nat) : Int) ((0xE9 : Nat) : Int) ∧
      writeBytes quietDevice [] ((200 : Nat) : Int) ((0xE9 : Nat) : Int) =
        [0xF3, 0x77, 0x8C, 0xF3, 0x47, 0x16] :=
  ⟨by decide, by decide, fun _ => rfl, rfl,
   (C37_codecs_agree quietDevice [] Linux.reliable Linux.commandByte 200 0xE9 (by decide)
     (by decide) (fun _ => rfl) rfl).1,
   by decide⟩

/-- C38 fails on the code: when the first `0xf3` is acknowledged and the second `0xf3`
fails, `fsp_reg_write` (here for register 0x10 and value 0x20) leaves through `return -1`
after the operations lock, F3, 55, 10, F3: the command mutex is still held when it
returns. `fsp_page_reg_write` does the same after lock, F3, 38, 88, F3. On every other
path the mutex is released: the mutex is held on return exactly when the first `0xf3`
succeeded and -1 is returned. -/
theorem C38_mutex_left_locked :
    Linux.fsp_reg_write (Linux.failsAfter 4) 0x10 0x20 =
        ([Linux.Op.mutex_lock, Linux.Op.ps2_sendbyte 0xf3, Linux.Op.ps2_sendbyte 0x55,
          Linux.Op.ps2_sendbyte 0x10, Linux.Op.ps2_sendbyte 0xf3], -1) ∧
      Linux.mutexHeld (Linux.fsp_reg_write (Linux.failsAfter 4) 0x10 0x20).1 = true ∧
      Linux.fsp_page_reg_write (Linux.failsAfter 4) 0x20 =
        ([Linux.Op.mutex_lock, Linux.Op.ps2_sendbyte 0xf3, Linux.Op.ps2_sendbyte 0x38,
          Linux.Op.ps2_sendbyte 0x88, Linux.Op.ps2_sendbyte 0xf3], -1) ∧
      Linux.mutexHeld (Linux.fsp_page_reg_write (Linux.failsAfter 4) 0x20).1 = true ∧
      Linux.mutexHeld (Linux.fsp_reg_write (Linux.failsAfter 1) 0x10 0x20).1 = false ∧
      Linux.mutexHeld (Linux.fsp_reg_write Linux.reliable 0x10 0x20).1 = false ∧
      (∀ (bus : List Linux.Op → Bool) (reg_addr reg_val : Int),
        Linux.mutexHeld (Linux.fsp_reg_write bus reg_addr reg_val).1 = true ↔
          (bus [Linux.Op.mutex_lock] = true ∧
            (Linux.fsp_reg_write bus reg_addr reg_val).2 = -1)) ∧
      (∀ (bus : List Linux.Op → Bool) (reg_val : Int),
        Linux.mutexHeld (Linux.fsp_page_reg_write bus reg_val).1 = true ↔
          (bus [Linux.Op.mutex_lock] = true ∧
            (Linux.fsp_page_reg_write bus reg_val).2 = -1)) := by
  refine ⟨by decide, by decide, by decide, by decide, by decide, by decide, ?_, ?_⟩
  · intro bus reg_addr reg_val
    unfold Linux.fsp_reg_write
    simp only [Linux.append_select, Linux.writeOut]
    by_cases h1 : bus [Linux.Op.mutex_lock] = false
    · simp [h1, Linux.mutexHeld]
    · rw [if_neg h1]
      have h1t : bus [Linux.Op.mutex_lock] = true := by simpa using h1
      split_ifs <;> simp [Linux.mutexHeld, h1t]
  · intro bus reg_val
    unfold Linux.fsp_page_reg_write
    simp only [Linux.append_select, Linux.writeOut]
    by_cases h1 : bus [Linux.Op.mutex_lock] = false
    · simp [h1, Linux.mutexHeld]
    · rw [if_neg h1]
      have h1t : bus [Linux.Op.mutex_lock] = true := by simpa using h1
      split_ifs <;> simp [Linux.mutexHeld, h1t]

/-! ## The state of the motion filter over any calls -/

theorem SimpleAverage2.run_append (a : SimpleAverage2) (cs : List AverageCall)
    (c : AverageCall) : a.run (cs ++ [c]) = (a.run cs).call c := by
  simp [SimpleAverage2.run, List.foldl_append]

theorem AverageCall.sinceReset_reset (cs : List AverageCall) :
    AverageCall.sinceReset (cs ++ [AverageCall.reset]) = [] := by
  simp [AverageCall.sinceReset, List.foldl_append]

theorem AverageCall.sinceReset_filter (cs : List AverageCall) (x : Int) :
    AverageCall.sinceReset (cs ++ [AverageCall.filter x]) =
      AverageCall.sinceReset cs ++ [x] := by
  simp [AverageCall.sinceReset, List.foldl_append]

theorem SimpleAverage2.holds_facts (a : SimpleAverage2) (xs : List Int) (h : a.Holds xs) :
    a.m_count = ((min 3 xs.length : Nat) : Int) ∧ a.m_sum = Spec.windowSum 3 xs ∧
      a.m_buffer.length = 3 := by
  rcases h with ⟨b0, b1, b2, rfl, rfl⟩ | ⟨p, b1, b2, rfl, rfl⟩ | ⟨p, q, b2, rfl, rfl⟩ |
    ⟨ys, p, q, r, rfl, rfl | rfl | rfl⟩
  · exact ⟨rfl, rfl, rfl⟩
  · exact ⟨rfl, (windowSum_one p).symm, rfl⟩
  · exact ⟨rfl, (windowSum_two p q).symm, rfl⟩
  · exact ⟨by simp, (windowSum_three ys p q r).symm, rfl⟩
  · exact ⟨by simp, (windowSum_three ys p q r).symm, rfl⟩
  · exact ⟨by simp, (windowSum_three ys p q r).symm, rfl⟩

theorem SimpleAverage2.filter_index (a : SimpleAverage2) (x : Int) (n : Nat)
    (h : a.m_index = ((n % 3 : Nat) : Int)) :
    (a.filter 3 x).1.m_index = (((n + 1) % 3 : Nat) : Int) := by
  have hlt : n % 3 < 3 := Nat.mod_lt _ (by norm_num)
  have e : int_add a.m_index 1 = ((n % 3 : Nat) : Int) + 1 := by
    rw [h]
    exact int_add_eq _ _ (by unfold inIntRange; omega)
  simp only [SimpleAverage2.filter]
  rw [e]
  split_ifs <;> omega

theorem SimpleAverage2.agree_of_reset (a b : SimpleAverage2) (h : a.Agree b) :
    a.reset.Agree b.reset := by
  rcases h with ⟨b0, b1, b2, c0, c1, c2, rfl, rfl⟩ | ⟨p, sm, b1, b2, c1, c2, rfl, rfl⟩ |
    ⟨p, q, sm, b2, c2, rfl, rfl⟩ | rfl
  · exact Or.inl ⟨b0, b1, b2, c0, c1, c2, rfl, rfl⟩
  · exact Or.inl ⟨p, b1, b2, p, c1, c2, rfl, rfl⟩
  · exact Or.inl ⟨p, q, b2, p, q, c2, rfl, rfl⟩
  · exact Or.inr (Or.inr (Or.inr rfl))

theorem SimpleAverage2.agree_run (a b : SimpleAverage2) (cs : List AverageCall) :
    a.Agree b → (a.run cs).Agree (b.run cs) := by
  induction cs generalizing a b with
  | nil => intro h; exact h
  | cons c cs ih =>
    intro h
    cases c with
    | reset => exact ih _ _ (SimpleAverage2.agree_of_reset a b h)
    | filter x => exact ih _ _ (SimpleAverage2.agree_step a b x h).2

theorem SimpleAverage2.shape_run (a0 : SimpleAverage2) (hbuf : a0.m_buffer.length = 3)
    (cs : List AverageCall) :
    (a0.reset.run cs).m_count = ((min 3 (AverageCall.sinceReset cs).length : Nat) : Int) ∧
      (a0.reset.run cs).m_index = (((AverageCall.sinceReset cs).length % 3 : Nat) : Int) ∧
      (a0.reset.run cs).m_buffer.length = 3 := by
  induction cs using List.reverseRecOn with
  | nil => exact ⟨rfl, rfl, hbuf⟩
  | append_singleton cs c ih =>
    obtain ⟨h1, h2, h3⟩ := ih
    rw [SimpleAverage2.run_append]
    cases c with
    | reset =>
      rw [AverageCall.sinceReset_reset]
      exact ⟨rfl, rfl, h3⟩
    | filter x =>
      rw [AverageCall.sinceReset_filter, List.length_append, List.length_singleton]
      refine ⟨?_, SimpleAverage2.filter_index _ x _ h2, ?_⟩
      · have e : int_add (a0.reset.run cs).m_count 1 =
            ((min 3 (AverageCall.sinceReset cs).length : Nat) : Int) + 1 := by
          rw [h1]
          exact int_add_eq _ _ (by unfold inIntRange; omega)
        show (SimpleAverage2.filter 3 (a0.reset.run cs) x).1.m_count = _
        simp only [SimpleAverage2.filter]
        rw [e, h1]
        split_ifs <;> omega
      · show (SimpleAverage2.filter 3 (a0.reset.run cs) x).1.m_buffer.length = 3
        simp only [SimpleAverage2.filter, List.length_set]
        exact h3

theorem SimpleAverage2.holds_run (a0 : SimpleAverage2) (hbuf : a0.m_buffer.length = 3)
    (cs : List AverageCall)
    (hr : ∀ k ≤ (AverageCall.sinceReset cs).length,
      inIntRange (Spec.windowSum 3 ((AverageCall.sinceReset cs).take k))) :
    (a0.reset.run cs).Holds (AverageCall.sinceReset cs) := by
  induction cs using List.reverseRecOn with
  | nil => exact SimpleAverage2.holds_reset a0 hbuf
  | append_singleton cs c ih =>
    rw [SimpleAverage2.run_append]
    cases c with
    | reset =>
      rw [AverageCall.sinceReset_reset]
      exact SimpleAverage2.holds_reset _ (SimpleAverage2.shape_run a0 hbuf cs).2.2
    | filter x =>
      rw [AverageCall.sinceReset_filter] at hr ⊢
      have hpre : ∀ k ≤ (AverageCall.sinceReset cs).length,
          inIntRange (Spec.windowSum 3 ((AverageCall.sinceReset cs).take k)) := by
        intro k hk
        have := hr k (by simp; omega)
        rwa [take_snoc_of_le _ x k hk] at this
      have hlast : inIntRange (Spec.windowSum 3 (AverageCall.sinceReset cs ++ [x])) := by
        have := hr (AverageCall.sinceReset cs ++ [x]).length le_rfl
        rwa [List.take_length] at this
      exact (SimpleAverage2.holds_step _ _ x (ih hpre) hlast).1

/-- C39: the state invariant of `SimpleAverage2<int,3>`. Construct the filter on any
memory (the constructor calls `reset()`) and make any sequence of `reset()` and `filter()`
calls. With `xs` the inputs fed since the last reset: `m_count` is `min(3, |xs|)`, between
0 and 3; `m_index` is `|xs| mod 3`, between 0 and 2; and `m_sum` is the sum of the
`m_count` most recent inputs, as long as the sum the window held after each of these calls
fits an `int` (signed overflow is undefined in C). A further `filter()` call divides its
sum by a count that is at least 1, and what it returns, like the counters, is the same
whatever the buffer memory held at construction: no slot is read that was not written
since. -/
theorem C39_filter_invariant (a0 : SimpleAverage2) (hbuf : a0.m_buffer.length = 3)
    (cs : List AverageCall) :
    (0 ≤ (a0.reset.run cs).m_count ∧ (a0.reset.run cs).m_count ≤ 3) ∧
      (a0.reset.run cs).m_count = ((min 3 (AverageCall.sinceReset cs).length : Nat) : Int) ∧
      (0 ≤ (a0.reset.run cs).m_index ∧ (a0.reset.run cs).m_index < 3) ∧
      (a0.reset.run cs).m_index = (((AverageCall.sinceReset cs).length % 3 : Nat) : Int) ∧
      ((∀ k ≤ (AverageCall.sinceReset cs).length,
          inIntRange (Spec.windowSum 3 ((AverageCall.sinceReset cs).take k))) →
        (a0.reset.run cs).m_sum =
          ((AverageCall.sinceReset cs).drop
            ((AverageCall.sinceReset cs).length - (a0.reset.run cs).m_count.toNat)).sum) ∧
      (∀ x : Int,
        1 ≤ ((a0.reset.run cs).filter 3 x).1.m_count ∧
          ((a0.reset.run cs).filter 3 x).2 =
            Int.tdiv ((a0.reset.run cs).filter 3 x).1.m_sum
              ((a0.reset.run cs).filter 3 x).1.m_count) ∧
      (∀ b0 : SimpleAverage2, b0.m_buffer.length = 3 → ∀ x : Int,
        ((b0.reset.run cs).filter 3 x).2 = ((a0.reset.run cs).filter 3 x).2 ∧
          (b0.reset.run cs).m_count = (a0.reset.run cs).m_count ∧
          (b0.reset.run cs).m_index = (a0.reset.run cs).m_index) := by
  obtain ⟨f1, h2, _⟩ := SimpleAverage2.shape_run a0 hbuf cs
  have hlt : (AverageCall.sinceReset cs).length % 3 < 3 := Nat.mod_lt _ (by norm_num)
  refine ⟨by rw [f1]; omega, f1, by rw [h2]; omega, h2, ?_, ?_, ?_⟩
  · intro hr
    rw [(SimpleAverage2.holds_facts _ _ (SimpleAverage2.holds_run a0 hbuf cs hr)).2.1, f1]
    unfold Spec.windowSum
    congr 2
    omega
  · intro x
    have g := (SimpleAverage2.shape_run a0 hbuf (cs ++ [AverageCall.filter x])).1
    rw [SimpleAverage2.run_append, AverageCall.sinceReset_filter, List.length_append,
      List.length_singleton] at g
    refine ⟨?_, rfl⟩
    show 1 ≤ (SimpleAverage2.filter 3 (a0.reset.run cs) x).1.m_count
    have g' : (SimpleAverage2.filter 3 (a0.reset.run cs) x).1.m_count =
        ((min 3 ((AverageCall.sinceReset cs).length + 1) : Nat) : Int) := g
    rw [g']
    omega
  · intro b0 hb0 x
    obtain ⟨l1, k2, _⟩ := SimpleAverage2.shape_run b0 hb0 cs
    have hag := SimpleAverage2.agree_run _ _ cs (SimpleAverage2.agree_reset b0 a0 hb0 hbuf)
    exact ⟨(SimpleAverage2.agree_step _ _ x hag).1, by rw [l1, f1], by rw [k2, h2]⟩

/-- C39 for a filter constructed on used memory and the calls filter(10), filter(20),
reset(), filter(30), filter(40), filter(50), filter(60): four inputs since the reset,
count 3, index 1, sum 150. -/
theorem C39_filter_invariant_witness :
    (⟨[9, 9, 9], 2, 2, 2⟩ : SimpleAverage2).m_buffer.length = 3 ∧
      ((SimpleAverage2.reset ⟨[9, 9, 9], 2, 2, 2⟩).run
          [AverageCall.filter 10, AverageCall.filter 20, AverageCall.reset,
           AverageCall.filter 30, AverageCall.filter 40, AverageCall.filter 50,
           AverageCall.filter 60]).m_count = 3 ∧
      ((SimpleAverage2.reset ⟨[9, 9, 9], 2, 2, 2⟩).run
          [AverageCall.filter 10, AverageCall.filter 20, AverageCall.reset,
           AverageCall.filter 30, AverageCall.filter 40, AverageCall.filter 50,
           AverageCall.filter 60]).m_index = 1 ∧
      ((SimpleAverage2.reset ⟨[9, 9, 9], 2, 2, 2⟩).run
          [AverageCall.filter 10, AverageCall.filter 20, AverageCall.reset,
           AverageCall.filter 30, AverageCall.filter 40, AverageCall.filter 50,
           AverageCall.filter 60]).m_sum = 150 := by
  have h := C39_filter_invariant ⟨[9, 9, 9], 2, 2, 2⟩ (by decide)
    [AverageCall.filter 10, AverageCall.filter 20, AverageCall.reset,
     AverageCall.filter 30, AverageCall.filter 40, AverageCall.filter 50,
     AverageCall.filter 60]
  exact ⟨by decide, h.2.1.trans (by decide), h.2.2.2.1.trans (by decide),
    (h.2.2.2.2.1 (by decide)).trans (by decide)⟩

/-! ## Bounds on the scroll deltas -/

theorem tdiv_half_bound (a : Int) (h0 : -510 ≤ a) (h1 : a ≤ 510) :
    -255 ≤ Int.tdiv a 2 ∧ Int.tdiv a 2 ≤ 255 := by
  rcases le_or_lt 0 a with h | h
  · rw [Int.tdiv_eq_ediv h (by omega)]
    omega
  · have e : Int.tdiv a 2 = -(Int.tdiv (-a) 2) := by
      rw [Int.neg_tdiv, neg_neg]
    rw [e, Int.tdiv_eq_ediv (by omega) (by omega)]
    omega

theorem int_mul_factor (d : Int) (h0 : -255 ≤ d) (h1 : d ≤ 255) :
    int_mul d SCROLL_DELTA_FACTOR = d * 32 :=
  wrap_of_inIntRange _ (by unfold inIntRange SCROLL_DELTA_FACTOR; omega)

theorem ScrollSmoother.filter_bounded (s : ScrollSmoother) (uptime : Nat) (z : Int)
    (hb : s.Bounded) (hz0 : -255 ≤ z) (hz1 : z ≤ 255) :
    (s.filter uptime z).1.Bounded ∧
      -8160 ≤ (s.filter uptime z).2 ∧ (s.filter uptime z).2 ≤ 8160 := by
  obtain ⟨⟨h0, h1, hh, hh0, hh1⟩, hl, hm, hs⟩ := hb
  have hset : ∃ g0 g1 : Int,
      s.history.set (if s.cur_history_index < 0 ∨ s.cur_history_index ≥ 2 then 0
        else s.cur_history_index).toNat z = [g0, g1] ∧
        (-255 ≤ g0 ∧ g0 ≤ 255) ∧ (-255 ≤ g1 ∧ g1 ≤ 255) := by
    rw [hh]
    by_cases hc : s.cur_history_index < 0 ∨ s.cur_history_index ≥ 2
    · rw [if_pos hc]
      exact ⟨z, h1, rfl, ⟨hz0, hz1⟩, hh1⟩
    · rw [if_neg hc]
      have : s.cur_history_index = 0 ∨ s.cur_history_index = 1 := by omega
      rcases this with e | e <;> rw [e]
      · exact ⟨z, h1, rfl, ⟨hz0, hz1⟩, hh1⟩
      · exact ⟨h0, z, rfl, hh0, ⟨hz0, hz1⟩⟩
  obtain ⟨g0, g1, hg, hg0, hg1⟩ := hset
  have hsum : int_add g1 g0 = g1 + g0 := int_add_eq _ _ (by unfold inIntRange; omega)
  have hdz := tdiv_half_bound (g1 + g0) (by omega) (by omega)
  have hmul := int_mul_factor (Int.tdiv (g1 + g0) 2) hdz.1 hdz.2
  have hzero : int_mul 0 SCROLL_DELTA_FACTOR = 0 := by decide
  have hstop : -8160 ≤ (if z > 0 ∧ s.stopDelta > 0 then 0 else s.stopDelta) ∧
      (if z > 0 ∧ s.stopDelta > 0 then 0 else s.stopDelta) ≤ 8160 := by
    split_ifs <;> omega
  unfold ScrollSmoother.filter
  simp only [hg, hl, List.getD_cons_zero, List.getD_cons_succ, hsum, hmul, hzero]
  by_cases hodd : Int.tmod (int_add s.inputCount 1) 2 = 1
  · rw [if_pos hodd]
    by_cases hgt : int_add s.inputCount 1 > 2
    · rw [if_pos hgt]
      exact ⟨⟨⟨g0, g1, rfl, hg0, hg1⟩, rfl, hm, hstop⟩, by omega, by omega⟩
    · rw [if_neg hgt]
      exact ⟨⟨⟨g0, g1, rfl, hg0, hg1⟩, rfl, hm, hstop⟩, by omega, by omega⟩
  · rw [if_neg hodd]
    refine ⟨⟨⟨g0, g1, rfl, hg0, hg1⟩, rfl, ?_, hstop⟩, by omega, by omega⟩
    show -255 ≤ (if Int.tdiv (g1 + g0) 2 > s.maxDelta then z else s.maxDelta) ∧
      (if Int.tdiv (g1 + g0) 2 > s.maxDelta then z else s.maxDelta) ≤ 255
    split_ifs <;> omega

theorem ScrollSmoother.setDir_bounded (s : ScrollSmoother) (dir : Int) (hb : s.Bounded) :
    (s.setDir dir).Bounded := hb

theorem ScrollSmoother.stop_bounded (s : ScrollSmoother) (hb : s.Bounded) :
    s.stop.1.Bounded := by
  obtain ⟨hh, hl, hm, hs⟩ := hb
  have hmul := int_mul_factor s.maxDelta hm.1 hm.2
  unfold ScrollSmoother.stop
  by_cases ht : s.lastinputTime ≠ 0
  · rw [if_pos ht]
    refine ⟨⟨0, 0, rfl, by omega, by omega⟩, rfl, ⟨by norm_num, by norm_num⟩, ?_⟩
    show -8160 ≤ (if s.inputCount < 10 then int_mul s.maxDelta SCROLL_DELTA_FACTOR
        else s.stopDelta) ∧
      (if s.inputCount < 10 then int_mul s.maxDelta SCROLL_DELTA_FACTOR
        else s.stopDelta) ≤ 8160
    rw [hmul]
    split_ifs <;> omega
  · rw [if_neg ht]
    exact ⟨hh, hl, hm, hs⟩

theorem ScrollSmoother.getFlingDelta_bounded (s : ScrollSmoother) (hb : s.Bounded) :
    s.getFlingDelta.1.Bounded ∧ 0 ≤ s.getFlingDelta.2 ∧ s.getFlingDelta.2 ≤ 8160 := by
  obtain ⟨hh, hl, hm, hs⟩ := hb
  by_cases hp : s.stopDelta > 0
  · obtain ⟨e2, e1⟩ := ScrollSmoother.getFlingDelta_eq s (by omega) (by omega)
    rw [tdiv_three_fifths _ (by omega)] at e1 e2
    have hrest : s.getFlingDelta.1.history = s.history ∧
        s.getFlingDelta.1.lastDelta = s.lastDelta ∧
        s.getFlingDelta.1.maxDelta = s.maxDelta := by
      unfold ScrollSmoother.getFlingDelta
      rw [if_pos hp]
      exact ⟨rfl, rfl, rfl⟩
    refine ⟨⟨?_, ?_, ?_, ?_⟩, ?_, ?_⟩
    · rw [hrest.1]; exact hh
    · rw [hrest.2.1]; exact hl
    · rw [hrest.2.2]; exact hm
    · rw [e1]; omega
    · rw [e2]; omega
    · rw [e2]; omega
  · unfold ScrollSmoother.getFlingDelta
    rw [if_neg hp]
    exact ⟨⟨hh, hl, hm, hs⟩, le_refl _, by norm_num⟩

theorem fits_nil : ∀ e ∈ ([] : List Event), e.fits := by
  intro e he
  simp at he

theorem fits_scroll (a b : Int) (now : Nat) (ha0 : -8160 ≤ a) (ha1 : a ≤ 8160)
    (hb0 : -8160 ≤ b) (hb1 : b ≤ 8160) :
    ∀ e ∈ [Event.scrollWheel a b 0 now], e.fits := by
  intro e he
  rw [List.mem_singleton.mp he]
  intro d hd
  simp only [Event.scrollDeltas, List.mem_cons, List.mem_singleton, List.not_mem_nil,
    or_false] at hd
  rcases hd with rfl | rfl | rfl <;> omega

theorem fits_append (l m : List Event) (hl : ∀ e ∈ l, e.fits) (hm : ∀ e ∈ m, e.fits) :
    ∀ e ∈ l ++ m, e.fits := by
  intro e he
  rcases List.mem_append.mp he with h | h
  · exact hl e h
  · exact hm e h

theorem fits_other (e : Event) (h : e.scrollDeltas = []) : e.fits := by
  intro d hd
  rw [h] at hd
  simp at hd

theorem guardedMessage_foldl_bounded (now_abs : Nat) (ms : List PS2Message) :
    ∀ acc : ApplePS2SentelicFSP × List Event,
      ScrollBounded acc.1 → (∀ e ∈ acc.2, e.fits) →
      ScrollBounded (ms.foldl (guardedMessage now_abs) acc).1 ∧
        ∀ e ∈ (ms.foldl (guardedMessage now_abs) acc).2, e.fits := by
  induction ms with
  | nil => intro acc h1 h2; exact ⟨h1, h2⟩
  | cons m ms ih =>
    intro acc h1 h2
    rw [List.foldl_cons]
    apply ih
    · unfold guardedMessage
      split_ifs
      · exact h1
      · exact h1
    · unfold guardedMessage
      split_ifs
      · exact fits_append _ _ h2 (by
          intro e he
          rw [List.mem_singleton.mp he]
          exact fits_other _ rfl)
      · exact h2

theorem scrollEvent_fits (r : Int) (now : Nat) (h0 : -8160 ≤ r) (h1 : r ≤ 8160) :
    (∀ e ∈ (if r > 0 then [Event.scrollWheel (toS16 r) 0 0 now] else []), e.fits) ∧
      (∀ e ∈ (if r > 0 then [Event.scrollWheel (toS16 (-r)) 0 0 now] else []), e.fits) ∧
      (∀ e ∈ (if r > 0 then [Event.scrollWheel 0 (toS16 r) 0 now] else []), e.fits) ∧
      (∀ e ∈ (if r > 0 then [Event.scrollWheel 0 (toS16 (-r)) 0 now] else []), e.fits) := by
  rw [toS16_of_fits r (by omega) (by omega), toS16_of_fits (-r) (by omega) (by omega)]
  refine ⟨?_, ?_, ?_, ?_⟩ <;> split_ifs
  · exact fits_scroll _ _ _ (by omega) (by omega) (by omega) (by omega)
  · exact fits_nil
  · exact fits_scroll _ _ _ (by omega) (by omega) (by omega) (by omega)
  · exact fits_nil
  · exact fits_scroll _ _ _ (by omega) (by omega) (by omega) (by omega)
  · exact fits_nil
  · exact fits_scroll _ _ _ (by omega) (by omega) (by omega) (by omega)
  · exact fits_nil

theorem timerEvent_fits (t : Nat) (b : Prop) [Decidable b] :
    ∀ e ∈ (if b then [Event.timerTimeout t] else []), e.fits := by
  split_ifs
  · intro e he
    rw [List.mem_singleton.mp he]
    exact fits_other _ rfl
  · exact fits_nil

theorem gestureSwitch_bounded (s : ApplePS2SentelicFSP) (packet : List Nat)
    (now_abs now_ns uptime : Nat) (dz : Int) (hs : ScrollBounded s)
    (hz0 : -255 ≤ dz) (hz1 : dz ≤ 255) :
    ScrollBounded (gestureSwitch s packet now_abs now_ns uptime dz).1 ∧
      ∀ e ∈ (gestureSwitch s packet now_abs now_ns uptime dz).2, e.fits := by
  have hf : ∀ dir : Int, ((s.z_avg.setDir dir).filter uptime dz).1.Bounded ∧
      -8160 ≤ ((s.z_avg.setDir dir).filter uptime dz).2 ∧
      ((s.z_avg.setDir dir).filter uptime dz).2 ≤ 8160 := fun dir =>
    ScrollSmoother.filter_bounded _ uptime dz (ScrollSmoother.setDir_bounded _ dir hs.2) hz0 hz1
  unfold gestureSwitch
  generalize pkt packet 2 = id
  by_cases h1 : id = 0x86
  · rw [if_pos h1]
    exact ⟨⟨hs.1, (hf _).1⟩, (scrollEvent_fits _ now_abs (hf _).2.1 (hf _).2.2).1⟩
  by_cases h2 : id = 0x82
  · rw [if_neg h1, if_pos h2]
    exact ⟨⟨hs.1, (hf _).1⟩, (scrollEvent_fits _ now_abs (hf _).2.1 (hf _).2.2).2.1⟩
  by_cases h3 : id = 0x80
  · rw [if_neg h1, if_neg h2, if_pos h3]
    exact ⟨⟨hs.1, (hf _).1⟩, (scrollEvent_fits _ now_abs (hf _).2.1 (hf _).2.2).2.2.1⟩
  by_cases h4 : id = 0x84
  · rw [if_neg h1, if_neg h2, if_neg h3, if_pos h4]
    exact ⟨⟨hs.1, (hf _).1⟩, (scrollEvent_fits _ now_abs (hf _).2.1 (hf _).2.2).2.2.2⟩
  rw [if_neg h1, if_neg h2, if_neg h3, if_neg h4]
  by_cases h5 : id ∈ fallthroughCases.map Prod.fst
  · rw [if_pos h5]
    exact guardedMessage_foldl_bounded _ _ _ hs fits_nil
  rw [if_neg h5]
  by_cases h6 : id = 0x18 ∨ id = 0x19
  · rw [if_pos h6]
    exact ⟨hs, fits_nil⟩
  rw [if_neg h6]
  by_cases h7 : id = 0x11
  · rw [if_pos h7]
    refine ⟨hs, ?_⟩
    intro e he
    simp only [List.mem_cons, List.mem_singleton, List.not_mem_nil, or_false] at he
    rcases he with rfl | rfl <;> exact fits_other _ rfl
  rw [if_neg h7]
  by_cases h8 : id = 0x1a
  · rw [if_pos h8]
    exact guardedMessage_foldl_bounded now_abs [kPS2M_lauchPad] _ hs fits_nil
  rw [if_neg h8]
  by_cases h9 : id = 0x38
  · rw [if_pos h9]
    exact ⟨hs, fits_nil⟩
  rw [if_neg h9]
  by_cases h10 : id = 0
  · rw [if_pos h10]
    exact ⟨⟨hs.1, ScrollSmoother.stop_bounded _ hs.2⟩, timerEvent_fits _ _⟩
  rw [if_neg h10]
  exact ⟨hs, fits_nil⟩

theorem runningDelta_bounded (s : ApplePS2SentelicFSP) (packet : List Nat)
    (hs : ScrollBounded s) :
    -255 ≤ runningDelta s packet ∧ runningDelta s packet ≤ 255 := by
  have hp := pkt_lt packet 3
  unfold runningDelta
  split_ifs
  · have e : int_sub (pkt packet 3) s._last_abs_z = (pkt packet 3 : Int) - s._last_abs_z :=
      wrap_of_inIntRange _ (by unfold inIntRange; have := hs.1; omega)
    rw [e]
    have := hs.1
    omega
  · omega

theorem dispatch_bounded (s : ApplePS2SentelicFSP) (packet : List Nat)
    (packetSize now_abs now_ns uptime : Nat) (hs : ScrollBounded s) :
    ScrollBounded
        (dispatchRelativePointerEventWithPacket s packet packetSize now_abs now_ns uptime).1 ∧
      ∀ e ∈ (dispatchRelativePointerEventWithPacket s packet packetSize now_abs now_ns
        uptime).2, e.fits := by
  have hp := pkt_lt packet 3
  have hd := runningDelta_bounded s packet hs
  unfold runningDelta at hd
  have one : ∀ e0 : Event, e0.scrollDeltas = [] → ∀ e ∈ [e0], e.fits := by
    intro e0 h0 e he
    rw [List.mem_singleton.mp he]
    exact fits_other _ h0
  unfold dispatchRelativePointerEventWithPacket
  by_cases hk : u64_sub now_ns s.keytime < s.maxaftertyping
  · rw [if_pos hk]
    exact ⟨hs, fits_nil⟩
  rw [if_neg hk]
  by_cases hn : pkt packet 0 >>> FSP_PKT_TYPE_SHIFT = FSP_PKT_TYPE_NOTIFY
  · rw [if_pos hn]
    by_cases hg : pkt packet 1 = FSP_CX_NOTIFY_MSG_TYPE_GUESTURE
    · rw [if_pos hg]
      exact gestureSwitch_bounded _ packet now_abs now_ns uptime _
        ⟨⟨by show (0 : Int) ≤ (pkt packet 3 : Int); omega,
          by show (pkt packet 3 : Int) ≤ 255; omega⟩, hs.2⟩ hd.1 hd.2
    rw [if_neg hg]
    split_ifs
    · exact ⟨hs, one _ rfl⟩
    · exact ⟨hs, one _ rfl⟩
  rw [if_neg hn]
  by_cases ha : pkt packet 0 >>> FSP_PKT_TYPE_SHIFT = FSP_PKT_TYPE_ABS
  · rw [if_pos ha]
    dsimp only
    by_cases hi : s._isInGesture = true
    · rw [if_pos hi]
      by_cases hz : (fsp_abs_decode packet).abs_y = 0 ∧ (fsp_abs_decode packet).abs_x = 0
      · rw [if_pos hz]
        exact ⟨⟨hs.1, ScrollSmoother.stop_bounded _ hs.2⟩, timerEvent_fits _ _⟩
      · rw [if_neg hz]
        exact ⟨hs, fits_nil⟩
    rw [if_neg hi]
    by_cases hl : u64_sub now_ns s.gestureStopTime < s.scrolllockTime
    · rw [if_pos hl]
      exact ⟨hs, fits_nil⟩
    rw [if_neg hl]
    by_cases hz : (fsp_abs_decode packet).abs_y = 0 ∧ (fsp_abs_decode packet).abs_x = 0
    · rw [if_pos hz]
      exact ⟨hs, one _ rfl⟩
    rw [if_neg hz]
    by_cases hf : s._last_abs_x = 0 ∧ s._last_abs_y = 0
    · rw [if_pos hf]
      exact ⟨hs, one _ rfl⟩
    rw [if_neg hf]
    exact ⟨hs, one _ rfl⟩
  rw [if_neg ha]
  exact ⟨hs, one _ rfl⟩

theorem onScrollTimer_bounded (s : ApplePS2SentelicFSP) (now_abs : Nat)
    (hs : ScrollBounded s) :
    ScrollBounded (onScrollTimer s now_abs).1 ∧ ∀ e ∈ (onScrollTimer s now_abs).2, e.fits := by
  obtain ⟨hb, f0, f1⟩ := ScrollSmoother.getFlingDelta_bounded s.z_avg hs.2
  have e1 := toS16_of_fits s.z_avg.getFlingDelta.2 (by omega) (by omega)
  have e2 := toS16_of_fits (-s.z_avg.getFlingDelta.2) (by omega) (by omega)
  have ht : ∀ e ∈ [Event.timerTimeout s.momentumscrollInteval], e.fits := by
    intro e he
    rw [List.mem_singleton.mp he]
    exact fits_other _ rfl
  unfold onScrollTimer
  dsimp only
  rw [e1, e2]
  by_cases hp : s.z_avg.getFlingDelta.2 > 0
  · rw [if_pos hp]
    refine ⟨⟨hs.1, hb⟩, fits_append _ _ ?_ ht⟩
    split_ifs
    · exact fits_scroll _ _ _ (by omega) (by omega) (by omega) (by omega)
    · exact fits_scroll _ _ _ (by omega) (by omega) (by omega) (by omega)
    · exact fits_scroll _ _ _ (by omega) (by omega) (by omega) (by omega)
    · exact fits_scroll _ _ _ (by omega) (by omega) (by omega) (by omega)
    · exact fits_nil
  · rw [if_neg hp]
    exact ⟨⟨hs.1, hb⟩, fits_nil⟩

theorem receiveMessage_bounded (s : ApplePS2SentelicFSP) (message : PS2Message)
    (pInfo : PS2KeyInfo) (hs : ScrollBounded s) :
    ScrollBounded (receiveMessage s message pInfo) := by
  unfold receiveMessage
  cases message <;> try exact hs
  dsimp only
  split_ifs <;> exact hs

theorem call_bounded (s : ApplePS2SentelicFSP) (c : DriverCall) (hs : ScrollBounded s) :
    ScrollBounded (s.call c).1 ∧ ∀ e ∈ (s.call c).2, e.fits := by
  cases c with
  | packet packet now_abs now_ns uptime =>
    exact dispatch_bounded s packet s._packetSize now_abs now_ns uptime hs
  | timer now_abs => exact onScrollTimer_bounded s now_abs hs
  | message message pInfo => exact ⟨receiveMessage_bounded s message pInfo hs, fits_nil⟩

theorem run_bounded (cs : List DriverCall) :
    ∀ s : ApplePS2SentelicFSP, ScrollBounded s → ScrollBounded (s.run cs) := by
  induction cs with
  | nil => intro s hs; exact hs
  | cons c cs ih =>
    intro s hs
    exact ih _ (call_bounded s c hs).1

theorem init_bounded : ScrollBounded ApplePS2SentelicFSP.init :=
  ⟨⟨by decide, by decide⟩, ⟨0, 0, rfl, by decide, by decide⟩, rfl, by decide, by decide⟩

/-- C40: scroll deltas fit the 16-bit event parameter. In every state the driver reaches
from `init` by any sequence of packets, timer ticks and keyboard messages:
`0 ≤ _last_abs_z ≤ 255`; the running delta the packet routine passes to
`ScrollSmoother::filter` lies in -255..255, for every packet; what `filter` returns for it
is at most 8160 (= 255 * 32) in absolute value, and the conversion of that value and of its
negation to `short` changes nothing; what `getFlingDelta` returns on a timer tick lies in
0..8160 and converts unchanged, negated or not; and every delta of every scroll event the
next call hands out is at most 8160 in absolute value. -/
theorem C40_scroll_deltas_fit (cs : List DriverCall) :
    (0 ≤ (ApplePS2SentelicFSP.init.run cs)._last_abs_z ∧
        (ApplePS2SentelicFSP.init.run cs)._last_abs_z ≤ 255) ∧
      (∀ packet : List Nat,
        -255 ≤ runningDelta (ApplePS2SentelicFSP.init.run cs) packet ∧
          runningDelta (ApplePS2SentelicFSP.init.run cs) packet ≤ 255) ∧
      (∀ (packet : List Nat) (dir : Int) (uptime : Nat),
        -8160 ≤ (((ApplePS2SentelicFSP.init.run cs).z_avg.setDir dir).filter uptime
            (runningDelta (ApplePS2SentelicFSP.init.run cs) packet)).2 ∧
          (((ApplePS2SentelicFSP.init.run cs).z_avg.setDir dir).filter uptime
            (runningDelta (ApplePS2SentelicFSP.init.run cs) packet)).2 ≤ 8160 ∧
          toS16 (((ApplePS2SentelicFSP.init.run cs).z_avg.setDir dir).filter uptime
            (runningDelta (ApplePS2SentelicFSP.init.run cs) packet)).2 =
            (((ApplePS2SentelicFSP.init.run cs).z_avg.setDir dir).filter uptime
              (runningDelta (ApplePS2SentelicFSP.init.run cs) packet)).2 ∧
          toS16 (-(((ApplePS2SentelicFSP.init.run cs).z_avg.setDir dir).filter uptime
            (runningDelta (ApplePS2SentelicFSP.init.run cs) packet)).2) =
            -(((ApplePS2SentelicFSP.init.run cs).z_avg.setDir dir).filter uptime
              (runningDelta (ApplePS2SentelicFSP.init.run cs) packet)).2) ∧
      (0 ≤ (ApplePS2SentelicFSP.init.run cs).z_avg.getFlingDelta.2 ∧
        (ApplePS2SentelicFSP.init.run cs).z_avg.getFlingDelta.2 ≤ 8160 ∧
        toS16 (ApplePS2SentelicFSP.init.run cs).z_avg.getFlingDelta.2 =
          (ApplePS2SentelicFSP.init.run cs).z_avg.getFlingDelta.2 ∧
        toS16 (-(ApplePS2SentelicFSP.init.run cs).z_avg.getFlingDelta.2) =
          -(ApplePS2SentelicFSP.init.run cs).z_avg.getFlingDelta.2) ∧
      (∀ c : DriverCall, ∀ e ∈ ((ApplePS2SentelicFSP.init.run cs).call c).2,
        ∀ d ∈ e.scrollDeltas, -8160 ≤ d ∧ d ≤ 8160) := by
  have hs := run_bounded cs _ init_bounded
  refine ⟨hs.1, fun packet => runningDelta_bounded _ packet hs, ?_, ?_, ?_⟩
  · intro packet dir uptime
    have hd := runningDelta_bounded _ packet hs
    obtain ⟨_, f0, f1⟩ := ScrollSmoother.filter_bounded _ uptime _
      (ScrollSmoother.setDir_bounded _ dir hs.2) hd.1 hd.2
    exact ⟨f0, f1, toS16_of_fits _ (by omega) (by omega),
      toS16_of_fits _ (by omega) (by omega)⟩
  · obtain ⟨_, f0, f1⟩ := ScrollSmoother.getFlingDelta_bounded _ hs.2
    exact ⟨f0, f1, toS16_of_fits _ (by omega) (by omega),
      toS16_of_fits _ (by omega) (by omega)⟩
  · intro c e he
    exact (call_bounded _ c hs).2 e he

end FSP
